import Mathlib

/-!
# Asset event indexer: store, normaliser and polling cycle

A shallow embedding of `backendServer/database.js`,
`backendServer/blockchainService.js` and the listener wiring of
`backendServer/server.js`.

* Asynchronous methods become functions that take the state of the outside
  world and return the new one; a rejected promise is `Except.error`.
* Block heights are `Int` (the watermark starts at `0` and the start-up
  callback assigns `blockNum - 1`); on-chain `uint256` values are `Nat`.
* Every call a method makes to the node, to a callback or to the timer is
  written to a trace, in the order in which the method makes it.
-/

namespace Interswitch

/-! ## Values -/

/-- The value carried by a rejected promise or a throwing statement. -/
inductive Failure
  | rpc
  | typeError
  | store
  deriving DecidableEq, Repr

/-- Number of binary digits of `n`, with `fuel` bounding the recursion. -/
def bitLengthAux : Nat → Nat → Nat
  | 0, _ => 0
  | fuel + 1, n => if n = 0 then 0 else bitLengthAux fuel (n / 2) + 1

/-- Number of binary digits of `n` (`0` for `0`). -/
def bitLength (n : Nat) : Nat := bitLengthAux n n

/-- JavaScript `Number(x)` for a non-negative BigInt `x`: the IEEE-754 double
nearest to `x`, ties to the even significand.  A double keeps 53 significant
bits, so an integer below `2^53` is returned as it is and a larger one is
rounded at bit `bitLength x - 53`.  (A `uint256` is below `2^1024`, so the
result is always finite.) -/
def jsNumber (x : Nat) : Nat :=
  if x < 2 ^ 53 then x
  else
    let e := bitLength x - 53
    let q := x / 2 ^ e
    let r := x % 2 ^ e
    let half := 2 ^ (e - 1)
    if r < half then q * 2 ^ e
    else if half < r then (q + 1) * 2 ^ e
    else if q % 2 = 0 then q * 2 ^ e
    else (q + 1) * 2 ^ e

/-- `String.prototype.toLowerCase` on an address string (hexadecimal digits
behind `0x`, so only the letters `A`-`F` are affected). -/
def toLowerCase (s : String) : String := String.mk (s.data.map Char.toLower)

/-! ## Records handed to the persistence layer -/

/-- The object pushed by `parseRegistrationEvents` (and built by the
`AssetRegistered` subscription). -/
structure RegistrationEvent where
  assetId : Nat
  owner : String
  description : String
  timestamp : Nat
  blockNumber : Nat
  transactionHash : String
  blockTimestamp : Nat
  deriving DecidableEq, Repr

/-- The object pushed by `parseTransferEvents`. -/
structure TransferEvent where
  assetId : Nat
  previousOwner : String
  newOwner : String
  timestamp : Nat
  blockNumber : Nat
  transactionHash : String
  blockTimestamp : Nat
  deriving DecidableEq, Repr

/-! ## The relational store (`database.js`) -/

/-- A row of `asset_registrations`.  The column `created_at` is filled by its
default when the row is inserted and no statement in the repository assigns
it afterwards; it is left out. -/
structure AssetRegistrationRow where
  id : Nat
  asset_id : Nat
  owner : String
  description : String
  timestamp : Nat
  block_number : Nat
  transaction_hash : String
  deriving DecidableEq, Repr

/-- A row of `ownership_transfers` (without `created_at`, as above). -/
structure OwnershipTransferRow where
  id : Nat
  asset_id : Nat
  previous_owner : String
  new_owner : String
  timestamp : Nat
  block_number : Nat
  transaction_hash : String
  deriving DecidableEq, Repr

/-- The two tables created by `initTables`, each with the sequence behind its
`SERIAL` key (the last value the sequence handed out). -/
structure Store where
  asset_registrations : List AssetRegistrationRow
  asset_registrations_id_seq : Nat
  ownership_transfers : List OwnershipTransferRow
  ownership_transfers_id_seq : Nat
  deriving DecidableEq, Repr

/-- The store right after `initTables` on a fresh database. -/
def Store.empty : Store :=
  { asset_registrations := []
    asset_registrations_id_seq := 0
    ownership_transfers := []
    ownership_transfers_id_seq := 0 }

/-- Largest value of an `INTEGER` column. -/
def maxInteger : Nat := 2147483647

/-- Largest value of a `BIGINT` column. -/
def maxBigint : Nat := 9223372036854775807

/-- The bound parameters of an insert fit their columns: `asset_id` and
`block_number` are `INTEGER`, `timestamp` is `BIGINT`.  The server rejects
the statement otherwise. -/
def fitsColumns (assetId timestamp blockNumber : Nat) : Bool :=
  decide (assetId ≤ maxInteger) && decide (timestamp ≤ maxBigint) &&
    decide (blockNumber ≤ maxInteger)

/-- The `DO UPDATE SET` clause of `insertAssetRegistration` applied to one
row: the five listed columns take the proposed values, `id` and `asset_id`
stay. -/
def updateRow (data : RegistrationEvent) (row : AssetRegistrationRow) :
    AssetRegistrationRow :=
  { row with
    owner := data.owner
    description := data.description
    timestamp := data.timestamp
    block_number := data.blockNumber
    transaction_hash := data.transactionHash }

/-- The effect of the statement on a stored row when the proposed row
conflicts on `asset_id`: the row with that `asset_id` is updated, every other
row is left as it is. -/
def onConflict (data : RegistrationEvent) (row : AssetRegistrationRow) :
    AssetRegistrationRow :=
  if row.asset_id = data.assetId then updateRow data row else row

/-- The row the statement inserts when no stored row has the `asset_id`:
`VALUES ($1, ..., $6)` with `id` from the sequence. -/
def insertedRow (id : Nat) (data : RegistrationEvent) : AssetRegistrationRow :=
  { id := id
    asset_id := data.assetId
    owner := data.owner
    description := data.description
    timestamp := data.timestamp
    block_number := data.blockNumber
    transaction_hash := data.transactionHash }

/-- `Database.insertAssetRegistration(data)`: `INSERT ... ON CONFLICT
(asset_id) DO UPDATE ... RETURNING id`.  The default of `id` draws the next
sequence value before the conflict on `asset_id` is detected, so the sequence
advances on both paths.  Returns the `id` of the row written. -/
def insertAssetRegistration (db : Store) (data : RegistrationEvent) :
    Except Failure (Nat × Store) :=
  if fitsColumns data.assetId data.timestamp data.blockNumber then
    let next := db.asset_registrations_id_seq + 1
    match db.asset_registrations.find? (fun row => row.asset_id == data.assetId) with
    | some existing =>
      .ok (existing.id,
        { db with
          asset_registrations := db.asset_registrations.map (onConflict data)
          asset_registrations_id_seq := next })
    | none =>
      .ok (next,
        { db with
          asset_registrations := db.asset_registrations ++ [insertedRow next data]
          asset_registrations_id_seq := next })
  else .error .store

/-- `Database.insertOwnershipTransfer(data)`: a plain `INSERT ... RETURNING
id`; the table has no uniqueness constraint besides its key. -/
def insertOwnershipTransfer (db : Store) (data : TransferEvent) :
    Except Failure (Nat × Store) :=
  if fitsColumns data.assetId data.timestamp data.blockNumber then
    let next := db.ownership_transfers_id_seq + 1
    .ok (next,
      { db with
        ownership_transfers := db.ownership_transfers ++
          [{ id := next
             asset_id := data.assetId
             previous_owner := data.previousOwner
             new_owner := data.newOwner
             timestamp := data.timestamp
             block_number := data.blockNumber
             transaction_hash := data.transactionHash }]
        ownership_transfers_id_seq := next })
  else .error .store

/-- The loop `for (const event of events.registrations) await
database.insertAssetRegistration(event)` of `POST /api/sync` and of the
polling cycle: the first rejected insert ends the loop, and the store keeps
what was written until then. -/
def insertRegistrations : Store → List RegistrationEvent → Except Failure Unit × Store
  | db, [] => (.ok (), db)
  | db, event :: rest =>
    match insertAssetRegistration db event with
    | .ok (_, db1) => insertRegistrations db1 rest
    | .error e => (.error e, db)

/-! ## The node (`ethers` provider and contract) -/

/-- The two events of the contract ABI declared in the constructor of
`BlockchainService`. -/
inductive EventKind
  | AssetRegistered
  | OwnershipTransferred
  deriving DecidableEq, Repr

/-- Decoded arguments of `AssetRegistered(uint256 indexed assetId, address
indexed owner, string description, uint256 timestamp)`. -/
structure AssetRegisteredArgs where
  assetId : Nat
  owner : String
  description : String
  timestamp : Nat
  deriving DecidableEq, Repr

/-- Decoded arguments of `OwnershipTransferred(uint256 indexed assetId,
address indexed previousOwner, address indexed newOwner, uint256
timestamp)`. -/
structure OwnershipTransferredArgs where
  assetId : Nat
  previousOwner : String
  newOwner : String
  timestamp : Nat
  deriving DecidableEq, Repr

/-- An entry of the array returned by `contract.queryFilter`: a log the
library decoded against the ABI carries `args` with every field of the event;
a log it could not decode carries none, and `event.args` is `undefined`. -/
structure RawLog (α : Type) where
  args : Option α
  blockNumber : Nat
  transactionHash : String
  deriving DecidableEq, Repr

/-- The result of `provider.getBlock`, of which only `timestamp` is read. -/
structure Block where
  timestamp : Nat
  deriving DecidableEq, Repr

/-- The calls `BlockchainService` makes to the node.  Each takes the state of
the outside world and returns the next one with its answer; `Except.error`
is a rejected promise.  `getBlock` may resolve to `null` (`none`). -/
structure Provider (σ : Type) where
  getBlockNumber : σ → Except Failure Int × σ
  queryFilterAssetRegistered :
    Int → Int → σ → Except Failure (List (RawLog AssetRegisteredArgs)) × σ
  queryFilterOwnershipTransferred :
    Int → Int → σ → Except Failure (List (RawLog OwnershipTransferredArgs)) × σ
  getBlock : Nat → σ → Except Failure (Option Block) × σ

/-- One observable step of a method: a call to the node, an invocation of a
persistence callback, the assignment of the watermark, or the arming of the
timer.  The flags record whether the call returned normally. -/
inductive Effect
  | getBlockNumber (result : Option Int)
  | queryFilter (kind : EventKind) (fromBlock toBlock : Int) (ok : Bool)
  | getBlock (blockNumber : Nat) (ok : Bool)
  | onAssetRegistered (event : RegistrationEvent) (completed : Bool)
  | onOwnershipTransferred (event : TransferEvent) (completed : Bool)
  | assignLastProcessedBlock (value : Int)
  | setTimeout (delay : Nat)
  deriving DecidableEq, Repr

/-- What a method leaves behind: its value (or the error it threw), the state
of the outside world, and the steps it took. -/
structure Run (σ α : Type) where
  result : Except Failure α
  world : σ
  trace : List Effect

/-! ## Normalisation (`parseRegistrationEvents`, `parseTransferEvents`) -/

/-- Whether `provider.getBlock` resolved to a block (neither rejected nor
`null`). -/
def blockFetched : Except Failure (Option Block) → Bool
  | .ok (some _) => true
  | _ => false

/-- The body of the `try` block of `parseRegistrationEvents` for one event,
given the outcome of `await this.provider.getBlock(event.blockNumber)`.
The object literal reads `event.args.assetId` first, which throws a
`TypeError` when `event.args` is `undefined`, and `block.timestamp` last,
which throws when the block is `null`. -/
def parseRegistrationEvent (event : RawLog AssetRegisteredArgs)
    (block : Except Failure (Option Block)) : Except Failure RegistrationEvent :=
  match block with
  | .error e => .error e
  | .ok blk =>
    match event.args with
    | none => .error .typeError
    | some args =>
      match blk with
      | none => .error .typeError
      | some b =>
        .ok { assetId := jsNumber args.assetId
              owner := toLowerCase args.owner
              description := args.description
              timestamp := jsNumber args.timestamp
              blockNumber := event.blockNumber
              transactionHash := event.transactionHash
              blockTimestamp := b.timestamp }

/-- The body of the `try` block of `parseTransferEvents` for one event. -/
def parseTransferEvent (event : RawLog OwnershipTransferredArgs)
    (block : Except Failure (Option Block)) : Except Failure TransferEvent :=
  match block with
  | .error e => .error e
  | .ok blk =>
    match event.args with
    | none => .error .typeError
    | some args =>
      match blk with
      | none => .error .typeError
      | some b =>
        .ok { assetId := jsNumber args.assetId
              previousOwner := toLowerCase args.previousOwner
              newOwner := toLowerCase args.newOwner
              timestamp := jsNumber args.timestamp
              blockNumber := event.blockNumber
              transactionHash := event.transactionHash
              blockTimestamp := b.timestamp }

/-- `BlockchainService.parseRegistrationEvents(events)`: for each event, in
order, fetch its block and push the parsed object; the `catch` clause logs
the error and the loop goes on with the next event.  The method itself never
throws, so its value is a plain list. -/
def parseRegistrationEvents {σ : Type} (p : Provider σ) :
    List (RawLog AssetRegisteredArgs) → σ → List RegistrationEvent × σ × List Effect
  | [], w => ([], w, [])
  | event :: rest, w =>
    let b := p.getBlock event.blockNumber w
    let tail := parseRegistrationEvents p rest b.2
    let step := Effect.getBlock event.blockNumber (blockFetched b.1)
    match parseRegistrationEvent event b.1 with
    | .ok parsed => (parsed :: tail.1, tail.2.1, step :: tail.2.2)
    | .error _ => (tail.1, tail.2.1, step :: tail.2.2)

/-- `BlockchainService.parseTransferEvents(events)`. -/
def parseTransferEvents {σ : Type} (p : Provider σ) :
    List (RawLog OwnershipTransferredArgs) → σ → List TransferEvent × σ × List Effect
  | [], w => ([], w, [])
  | event :: rest, w =>
    let b := p.getBlock event.blockNumber w
    let tail := parseTransferEvents p rest b.2
    let step := Effect.getBlock event.blockNumber (blockFetched b.1)
    match parseTransferEvent event b.1 with
    | .ok parsed => (parsed :: tail.1, tail.2.1, step :: tail.2.2)
    | .error _ => (tail.1, tail.2.1, step :: tail.2.2)

/-- The object returned by `getEventsByBlockRange`. -/
structure Events where
  registrations : List RegistrationEvent
  transfers : List TransferEvent
  deriving DecidableEq, Repr

/-- `BlockchainService.getEventsByBlockRange(fromBlock, toBlock)`: both
`queryFilter` calls over the same range, then the two parsers.  A rejected
query is logged and rethrown.  (Every caller passes `toBlock`; its default
`'latest'` is not used.) -/
def getEventsByBlockRange {σ : Type} (p : Provider σ) (fromBlock toBlock : Int) (w : σ) :
    Run σ Events :=
  let q1 := p.queryFilterAssetRegistered fromBlock toBlock w
  match q1.1 with
  | .error e =>
    { result := .error e
      world := q1.2
      trace := [Effect.queryFilter .AssetRegistered fromBlock toBlock false] }
  | .ok registrationEvents =>
    let q2 := p.queryFilterOwnershipTransferred fromBlock toBlock q1.2
    match q2.1 with
    | .error e =>
      { result := .error e
        world := q2.2
        trace := [Effect.queryFilter .AssetRegistered fromBlock toBlock true,
                  Effect.queryFilter .OwnershipTransferred fromBlock toBlock false] }
    | .ok transferEvents =>
      let regs := parseRegistrationEvents p registrationEvents q2.2
      let xfers := parseTransferEvents p transferEvents regs.2.1
      { result := .ok { registrations := regs.1, transfers := xfers.1 }
        world := xfers.2.1
        trace := Effect.queryFilter .AssetRegistered fromBlock toBlock true ::
                 Effect.queryFilter .OwnershipTransferred fromBlock toBlock true ::
                 (regs.2.2 ++ xfers.2.2) }

/-! ## The polling cycle (`startEventListener` / `monitorBlocks`) -/

/-- A persistence callback: an asynchronous function of the event that may
change the outside world and may throw. -/
abbrev Callback (σ α : Type) := α → σ → Except Failure Unit × σ

/-- What `startEventListener` closes over: the provider of the service and the
two callbacks, either of which may be absent (`if (onAssetRegistered)`). -/
structure Listener (σ : Type) where
  provider : Provider σ
  onAssetRegistered : Option (Callback σ RegistrationEvent)
  onOwnershipTransferred : Option (Callback σ TransferEvent)

/-- The variables of the closure of `monitorBlocks`, with the outside world. -/
structure MonitorState (σ : Type) where
  lastProcessedBlock : Int
  isMonitoring : Bool
  world : σ

/-- The loop `for (const event of events.registrations)` of `monitorBlocks`:
each event is handed to the callback, if there is one, and awaited; an error
thrown by the callback leaves the loop. -/
def processRegistrations {σ : Type} (cb : Option (Callback σ RegistrationEvent)) :
    List RegistrationEvent → σ → Run σ Unit
  | [], w => { result := .ok (), world := w, trace := [] }
  | event :: rest, w =>
    match cb with
    | none => processRegistrations cb rest w
    | some f =>
      let r := f event w
      match r.1 with
      | .error e =>
        { result := .error e, world := r.2, trace := [Effect.onAssetRegistered event false] }
      | .ok _ =>
        let tail := processRegistrations cb rest r.2
        { tail with trace := Effect.onAssetRegistered event true :: tail.trace }

/-- The loop `for (const event of events.transfers)` of `monitorBlocks`. -/
def processTransfers {σ : Type} (cb : Option (Callback σ TransferEvent)) :
    List TransferEvent → σ → Run σ Unit
  | [], w => { result := .ok (), world := w, trace := [] }
  | event :: rest, w =>
    match cb with
    | none => processTransfers cb rest w
    | some f =>
      let r := f event w
      match r.1 with
      | .error e =>
        { result := .error e, world := r.2,
          trace := [Effect.onOwnershipTransferred event false] }
      | .ok _ =>
        let tail := processTransfers cb rest r.2
        { tail with trace := Effect.onOwnershipTransferred event true :: tail.trace }

/-- The delay of `setTimeout(monitorBlocks, 5000)`. -/
def pollDelay : Nat := 5000

/-- One run of `monitorBlocks`.  Everything between reading the height and
the assignment `lastProcessedBlock = currentBlock` sits in one `try` block,
whose `catch` only logs; the timer is armed after it on every path except the
early return on `!isMonitoring`.  Returns the closure variables after the run
and the steps taken. -/
def monitorBlocks {σ : Type} (l : Listener σ) (s : MonitorState σ) :
    MonitorState σ × List Effect :=
  if !s.isMonitoring then (s, [])
  else
    let h := l.provider.getBlockNumber s.world
    match h.1 with
    | .error _ =>
      ({ s with world := h.2 }, [Effect.getBlockNumber none, Effect.setTimeout pollDelay])
    | .ok currentBlock =>
      if currentBlock > s.lastProcessedBlock then
        let ev := getEventsByBlockRange l.provider (s.lastProcessedBlock + 1) currentBlock h.2
        match ev.result with
        | .error _ =>
          ({ s with world := ev.world },
            Effect.getBlockNumber (some currentBlock) :: ev.trace ++
              [Effect.setTimeout pollDelay])
        | .ok events =>
          let r1 := processRegistrations l.onAssetRegistered events.registrations ev.world
          match r1.result with
          | .error _ =>
            ({ s with world := r1.world },
              Effect.getBlockNumber (some currentBlock) :: ev.trace ++ r1.trace ++
                [Effect.setTimeout pollDelay])
          | .ok _ =>
            let r2 := processTransfers l.onOwnershipTransferred events.transfers r1.world
            match r2.result with
            | .error _ =>
              ({ s with world := r2.world },
                Effect.getBlockNumber (some currentBlock) :: ev.trace ++ r1.trace ++
                  r2.trace ++ [Effect.setTimeout pollDelay])
            | .ok _ =>
              ({ s with lastProcessedBlock := currentBlock, world := r2.world },
                Effect.getBlockNumber (some currentBlock) :: ev.trace ++ r1.trace ++
                  r2.trace ++
                  [Effect.assignLastProcessedBlock currentBlock, Effect.setTimeout pollDelay])
      else
        ({ s with world := h.2 },
          [Effect.getBlockNumber (some currentBlock), Effect.setTimeout pollDelay])

/-- The closure variables after `n` successive runs of `monitorBlocks` (each
run arms the timer for the next) between which nothing else writes them, as
is the case from the state `s` the start-up callback of `startEventListener`
leaves; the runs with that callback among them are `startedCycles`. -/
def cycles {σ : Type} (l : Listener σ) (s : MonitorState σ) : Nat → MonitorState σ
  | 0 => s
  | n + 1 => (monitorBlocks l (cycles l s n)).1

/-! ## The wiring of `server.js` -/

/-- The outside world of the server process: the network (the node and the
connection to the database server) and the contents of the database. -/
structure ServerWorld (ν : Type) where
  net : ν
  db : Store

/-- What the server process is built from: the provider of its
`blockchainService` and the connection pool of its `database`.
`poolReaches` tells whether a `pool.query` gets its statement to the database
server; when it does not, the promise is rejected and nothing is written. -/
structure Server (ν : Type) where
  provider : Provider ν
  poolReaches : ν → Bool × ν

/-- A call to the node made from the server: it leaves the database alone. -/
def liftNode {ν α : Type} (f : ν → Except Failure α × ν) :
    ServerWorld ν → Except Failure α × ServerWorld ν :=
  fun w => ((f w.net).1, { net := (f w.net).2, db := w.db })

/-- The provider of the server's `blockchainService`, acting on the network
part of the server's world. -/
def serverProvider {ν : Type} (p : Provider ν) : Provider (ServerWorld ν) :=
  { getBlockNumber := liftNode p.getBlockNumber
    queryFilterAssetRegistered := fun a b => liftNode (p.queryFilterAssetRegistered a b)
    queryFilterOwnershipTransferred :=
      fun a b => liftNode (p.queryFilterOwnershipTransferred a b)
    getBlock := fun n => liftNode (p.getBlock n) }

/-- The first callback `server.js` passes to `startEventListener`:
`await database.insertAssetRegistration(eventData)`.  The method rethrows
whatever `pool.query` throws. -/
def onAssetRegistered {ν : Type} (srv : Server ν) :
    Callback (ServerWorld ν) RegistrationEvent :=
  fun eventData w =>
    let c := srv.poolReaches w.net
    if c.1 then
      match insertAssetRegistration w.db eventData with
      | .ok (_, db) => (.ok (), { net := c.2, db := db })
      | .error e => (.error e, { net := c.2, db := w.db })
    else (.error .store, { net := c.2, db := w.db })

/-- The second callback `server.js` passes to `startEventListener`:
`await database.insertOwnershipTransfer(eventData)`. -/
def onOwnershipTransferred {ν : Type} (srv : Server ν) :
    Callback (ServerWorld ν) TransferEvent :=
  fun eventData w =>
    let c := srv.poolReaches w.net
    if c.1 then
      match insertOwnershipTransfer w.db eventData with
      | .ok (_, db) => (.ok (), { net := c.2, db := db })
      | .error e => (.error e, { net := c.2, db := w.db })
    else (.error .store, { net := c.2, db := w.db })

/-- The listener `server.js` starts: the service's provider with the two
database callbacks. -/
def startEventListener {ν : Type} (srv : Server ν) : Listener (ServerWorld ν) :=
  { provider := serverProvider srv.provider
    onAssetRegistered := some (onAssetRegistered srv)
    onOwnershipTransferred := some (onOwnershipTransferred srv) }

/-! ## Starting and stopping the listener (`blockchainService.js`) -/

/-- What `BlockchainService.startEventListener` leaves behind: the variables
`lastProcessedBlock` and `isMonitoring` of its closure, which `monitorBlocks`
reads, the property `this.isMonitoring`, which receives a copy of the
variable, and whether the contract has its two `contract.on` listeners. -/
structure ServiceState (σ : Type) where
  closure : MonitorState σ
  isMonitoring : Bool
  listening : Bool

/-- The state right after `startEventListener` returned: `let
lastProcessedBlock = 0`, `let isMonitoring = true`, the listeners
registered and `this.isMonitoring = isMonitoring`. -/
def startedService {σ : Type} (w : σ) : ServiceState σ :=
  { closure := { lastProcessedBlock := 0, isMonitoring := true, world := w }
    isMonitoring := true
    listening := true }

/-- The callback of `this.getCurrentBlockNumber().then(...)` in
`startEventListener`: `lastProcessedBlock = blockNum - 1`. -/
def onStartBlockNumber {σ : Type} (blockNum : Int) (svc : ServiceState σ) : ServiceState σ :=
  { svc with closure := { svc.closure with lastProcessedBlock := blockNum - 1 } }

/-- `BlockchainService.stopEventListener()`: `this.isMonitoring = false` and
`this.contract.removeAllListeners()`.  The assignment goes to the property
of the object; the variable of the closure is not in scope here. -/
def stopEventListener {σ : Type} (svc : ServiceState σ) : ServiceState σ :=
  { svc with isMonitoring := false, listening := false }

/-! ## Manual synchronisation (`POST /api/sync`) -/

/-- `BlockchainService.getEventsFromLast1000Blocks()`: read the height and
fetch the range from `Math.max(0, currentBlock - 1000)` to it. -/
def getEventsFromLast1000Blocks {σ : Type} (p : Provider σ) (w : σ) : Run σ Events :=
  let h := p.getBlockNumber w
  match h.1 with
  | .error e => { result := .error e, world := h.2, trace := [Effect.getBlockNumber none] }
  | .ok currentBlock =>
    let fromBlock := max 0 (currentBlock - 1000)
    let ev := getEventsByBlockRange p fromBlock currentBlock h.2
    { result := ev.result
      world := ev.world
      trace := Effect.getBlockNumber (some currentBlock) :: ev.trace }

/-- The body of the response of `POST /api/sync`: status 200 with the two
counts under `data`, or status 500. -/
inductive SyncResponse
  | completed (registrations transfers : Nat)
  | failed
  deriving DecidableEq, Repr

/-- The handler of `POST /api/sync`: fetch the last 1000 blocks, `await
database.insertAssetRegistration(event)` for every registration, `await
database.insertOwnershipTransfer(event)` for every transfer, and answer with
`events.registrations.length` and `events.transfers.length`; any error on
the way is caught and answered with status 500.  The two loops are those of
`monitorBlocks` with the database methods as callbacks. -/
def postSync {ν : Type} (srv : Server ν) (w : ServerWorld ν) :
    SyncResponse × ServerWorld ν :=
  let ev := getEventsFromLast1000Blocks (serverProvider srv.provider) w
  match ev.result with
  | .error _ => (.failed, ev.world)
  | .ok events =>
    let r1 := processRegistrations (some (onAssetRegistered srv)) events.registrations ev.world
    match r1.result with
    | .error _ => (.failed, r1.world)
    | .ok _ =>
      let r2 := processTransfers (some (onOwnershipTransferred srv)) events.transfers r1.world
      match r2.result with
      | .error _ => (.failed, r2.world)
      | .ok _ =>
        (.completed events.registrations.length events.transfers.length, r2.world)

/-! ## Read queries (`database.js`) -/

/-- A row returned by `getAllAssets` and `getAssetsByOwner`: the columns of
the registration (`ar.*`) and `current_owner`. -/
structure AssetWithOwner where
  row : AssetRegistrationRow
  current_owner : String
  deriving DecidableEq, Repr

/-- One step of `DISTINCT ON (asset_id) ... ORDER BY asset_id, timestamp
DESC` within one asset: of the row kept so far and the next row, the one
with the greater `timestamp` stays.  (Among rows of equal `timestamp` the
server is free to keep any; the row stored first is kept here.) -/
def laterTransfer (best : Option OwnershipTransferRow) (t : OwnershipTransferRow) :
    Option OwnershipTransferRow :=
  match best with
  | none => some t
  | some b => if b.timestamp < t.timestamp then some t else some b

/-- The row of the subquery `ot` for one `asset_id`, if the asset has a
transfer. -/
def latestTransfer (transfers : List OwnershipTransferRow) (assetId : Nat) :
    Option OwnershipTransferRow :=
  (transfers.filter (fun t => t.asset_id == assetId)).foldl laterTransfer none

/-- `COALESCE(ot.new_owner, ar.owner)` over the `LEFT JOIN` on `asset_id`. -/
def currentOwner (db : Store) (ar : AssetRegistrationRow) : String :=
  match latestTransfer db.ownership_transfers ar.asset_id with
  | some t => t.new_owner
  | none => ar.owner

/-- The order of `ORDER BY ar.asset_id`. -/
def byAssetId (a b : AssetRegistrationRow) : Prop := a.asset_id ≤ b.asset_id

instance : DecidableRel byAssetId := fun a b => Nat.decLe a.asset_id b.asset_id

/-- `Database.getAssetsByOwner(ownerAddress)`: the statement with `$1 =
ownerAddress.toLowerCase()`, run on the store. -/
def getAssetsByOwner (db : Store) (ownerAddress : String) : List AssetWithOwner :=
  ((db.asset_registrations.filter
      (fun ar => currentOwner db ar == toLowerCase ownerAddress)).insertionSort byAssetId).map
    (fun ar => { row := ar, current_owner := currentOwner db ar })

/-! ## The search (`Database.searchEvents`) -/

/-- A value pushed to `params` and bound to a placeholder: a number, `NaN`
(the seconds of an invalid date) or a string. -/
inductive SqlValue
  | number (n : Int)
  | nan
  | text (s : String)
  deriving DecidableEq, Repr

/-- The `filters` object `searchEvents` receives; an absent property is
`none`.  (`assetId` is the integer `parseInt` produced; `NaN`, which the
tests below treat like an absent property, is `none` as well.) -/
structure SearchFilters where
  assetId : Option Int
  address : Option String
  fromDate : Option String
  toDate : Option String
  deriving DecidableEq, Repr

/-- The test `if (filters.assetId)`: a number passes when it is not `0`. -/
def truthyNumber : Option Int → Option Int
  | some n => if n = 0 then none else some n
  | none => none

/-- The tests `if (filters.address)`, `if (filters.fromDate)` and `if
(filters.toDate)`: a string passes when it is not empty. -/
def truthyString : Option String → Option String
  | some s => if s = "" then none else some s
  | none => none

/-- A condition appended to the `WHERE` clause of one half of the statement,
with the number of each placeholder it uses. -/
inductive Condition
  | assetIdEq (k : Nat)
  | ownerEq (k : Nat)
  | timestampGe (k : Nat)
  | timestampLe (k : Nat)
  | previousOrNewOwnerEq (k1 k2 : Nat)
  deriving DecidableEq, Repr

/-- The text a condition adds to `sql`. -/
def Condition.text : Condition → String
  | .assetIdEq k => " AND asset_id = $" ++ toString k
  | .ownerEq k => " AND owner = $" ++ toString k
  | .timestampGe k => " AND timestamp >= $" ++ toString k
  | .timestampLe k => " AND timestamp <= $" ++ toString k
  | .previousOrNewOwnerEq k1 k2 =>
    " AND (previous_owner = $" ++ toString k1 ++ " OR new_owner = $" ++ toString k2 ++ ")"

/-- The variables `sql` (the conditions appended so far to the half being
written), `params` and `paramCount` of `searchEvents`. -/
structure Builder where
  conditions : List Condition
  params : List SqlValue
  paramCount : Nat
  deriving DecidableEq, Repr

/-- `paramCount++; sql += ...$paramCount; params.push(value)`. -/
def Builder.push (b : Builder) (condition : Nat → Condition) (value : SqlValue) : Builder :=
  { conditions := b.conditions ++ [condition (b.paramCount + 1)]
    params := b.params ++ [value]
    paramCount := b.paramCount + 1 }

/-- The block `if (filters.assetId) ...` of either half. -/
def addAssetId (filters : SearchFilters) (b : Builder) : Builder :=
  match truthyNumber filters.assetId with
  | some n => b.push .assetIdEq (.number n)
  | none => b

/-- The block `if (filters.address) ...` of the registration half. -/
def addOwner (filters : SearchFilters) (b : Builder) : Builder :=
  match truthyString filters.address with
  | some s => b.push .ownerEq (.text (toLowerCase s))
  | none => b

/-- The block `if (filters.address) ...` of the transfer half: `paramCount++`,
the condition on `$paramCount` and `$(paramCount + 1)`, two values pushed,
`paramCount++`. -/
def addEitherOwner (filters : SearchFilters) (b : Builder) : Builder :=
  match truthyString filters.address with
  | some s =>
    { conditions := b.conditions ++
        [.previousOrNewOwnerEq (b.paramCount + 1) (b.paramCount + 1 + 1)]
      params := b.params ++ [.text (toLowerCase s), .text (toLowerCase s)]
      paramCount := b.paramCount + 1 + 1 }
  | none => b

/-- The block `if (filters.fromDate) ...` of either half; `seconds` stands
for `Math.floor(new Date(s).getTime() / 1000)`. -/
def addFromDate (seconds : String → SqlValue) (filters : SearchFilters) (b : Builder) :
    Builder :=
  match truthyString filters.fromDate with
  | some s => b.push .timestampGe (seconds s)
  | none => b

/-- The block `if (filters.toDate) ...` of either half. -/
def addToDate (seconds : String → SqlValue) (filters : SearchFilters) (b : Builder) :
    Builder :=
  match truthyString filters.toDate with
  | some s => b.push .timestampLe (seconds s)
  | none => b

/-- The statement `searchEvents` hands to `pool.query`: the conditions of the
registration half, those of the transfer half, and `params`. -/
structure SearchQuery where
  registrationConditions : List Condition
  transferConditions : List Condition
  params : List SqlValue
  deriving DecidableEq, Repr

/-- The part of `searchEvents` before `pool.query`: the registration half is
written first, then the transfer half with `params` and `paramCount` carried
over. -/
def buildSearch (seconds : String → SqlValue) (filters : SearchFilters) : SearchQuery :=
  let r := addToDate seconds filters (addFromDate seconds filters
    (addOwner filters (addAssetId filters { conditions := [], params := [], paramCount := 0 })))
  let t := addToDate seconds filters (addFromDate seconds filters
    (addEitherOwner filters
      (addAssetId filters { conditions := [], params := r.params, paramCount := r.paramCount })))
  { registrationConditions := r.conditions
    transferConditions := t.conditions
    params := t.params }

/-- The text of the statement, the variable `sql` when `pool.query` is
called: the first template literal, the conditions of the registration half,
the second template literal, the conditions of the transfer half and the
`ORDER BY` clause, with the line breaks and the indentation of the source. -/
def SearchQuery.sql (q : SearchQuery) : String :=
  "\n      SELECT 'registration' as event_type, asset_id, owner as address, \n" ++
  "             description, timestamp, block_number, transaction_hash, created_at\n" ++
  "      FROM asset_registrations\n" ++
  "      WHERE 1=1\n    " ++
  String.join (q.registrationConditions.map Condition.text) ++
  "\n      UNION ALL\n" ++
  "      SELECT 'transfer' as event_type, asset_id, new_owner as address,\n" ++
  "             'Ownership Transfer' as description, timestamp, block_number, " ++
  "transaction_hash, created_at\n" ++
  "      FROM ownership_transfers\n" ++
  "      WHERE 1=1\n    " ++
  String.join (q.transferConditions.map Condition.text) ++
  " ORDER BY timestamp DESC"

/-- The placeholder numbers of a condition, in the order of the text. -/
def Condition.placeholders : Condition → List Nat
  | .assetIdEq k => [k]
  | .ownerEq k => [k]
  | .timestampGe k => [k]
  | .timestampLe k => [k]
  | .previousOrNewOwnerEq k1 k2 => [k1, k2]

/-- The placeholder numbers of the statement, in the order of the text. -/
def SearchQuery.placeholders (q : SearchQuery) : List Nat :=
  (q.registrationConditions ++ q.transferConditions).flatMap Condition.placeholders

/-- A row of the result of `searchEvents` (without `created_at`). -/
structure SearchEventRow where
  event_type : String
  asset_id : Nat
  address : String
  description : String
  timestamp : Nat
  block_number : Nat
  transaction_hash : String
  deriving DecidableEq, Repr

/-- Smallest value of an `INTEGER` column. -/
def minInteger : Int := -2147483648

/-- Smallest value of a `BIGINT` column. -/
def minBigint : Int := -9223372036854775808

/-- The integer the server reads for placeholder `$k` compared with a column
of range `lo..hi`: `params[k - 1]` when it is a number in that range. -/
def integerParam (params : List SqlValue) (k : Nat) (lo hi : Int) : Option Int :=
  if k = 0 then none
  else
    match params[k - 1]? with
    | some (.number n) => if lo ≤ n ∧ n ≤ hi then some n else none
    | _ => none

/-- The string the server reads for placeholder `$k` compared with a `TEXT`
column: `params[k - 1]` when it is a string. -/
def textParam (params : List SqlValue) (k : Nat) : Option String :=
  if k = 0 then none
  else
    match params[k - 1]? with
    | some (.text s) => some s
    | _ => none

/-- The server can bind the placeholders of the condition. -/
def Condition.accepted (params : List SqlValue) : Condition → Bool
  | .assetIdEq k => (integerParam params k minInteger maxInteger).isSome
  | .ownerEq k => (textParam params k).isSome
  | .timestampGe k => (integerParam params k minBigint maxBigint).isSome
  | .timestampLe k => (integerParam params k minBigint maxBigint).isSome
  | .previousOrNewOwnerEq k1 k2 => (textParam params k1).isSome && (textParam params k2).isSome

/-- A row of `asset_registrations` satisfies the condition. -/
def Condition.holdsRegistration (params : List SqlValue) (row : AssetRegistrationRow) :
    Condition → Bool
  | .assetIdEq k =>
    integerParam params k minInteger maxInteger == some (row.asset_id : Int)
  | .ownerEq k => textParam params k == some row.owner
  | .timestampGe k =>
    match integerParam params k minBigint maxBigint with
    | some n => decide (n ≤ (row.timestamp : Int))
    | none => false
  | .timestampLe k =>
    match integerParam params k minBigint maxBigint with
    | some n => decide ((row.timestamp : Int) ≤ n)
    | none => false
  | .previousOrNewOwnerEq _ _ => false

/-- A row of `ownership_transfers` satisfies the condition. -/
def Condition.holdsTransfer (params : List SqlValue) (row : OwnershipTransferRow) :
    Condition → Bool
  | .assetIdEq k =>
    integerParam params k minInteger maxInteger == some (row.asset_id : Int)
  | .ownerEq _ => false
  | .timestampGe k =>
    match integerParam params k minBigint maxBigint with
    | some n => decide (n ≤ (row.timestamp : Int))
    | none => false
  | .timestampLe k =>
    match integerParam params k minBigint maxBigint with
    | some n => decide ((row.timestamp : Int) ≤ n)
    | none => false
  | .previousOrNewOwnerEq k1 k2 =>
    textParam params k1 == some row.previous_owner || textParam params k2 == some row.new_owner

/-- The select list of the registration half. -/
def registrationEvent (row : AssetRegistrationRow) : SearchEventRow :=
  { event_type := "registration"
    asset_id := row.asset_id
    address := row.owner
    description := row.description
    timestamp := row.timestamp
    block_number := row.block_number
    transaction_hash := row.transaction_hash }

/-- The select list of the transfer half. -/
def transferEvent (row : OwnershipTransferRow) : SearchEventRow :=
  { event_type := "transfer"
    asset_id := row.asset_id
    address := row.new_owner
    description := "Ownership Transfer"
    timestamp := row.timestamp
    block_number := row.block_number
    transaction_hash := row.transaction_hash }

/-- The order of `ORDER BY timestamp DESC`. -/
def byTimestampDesc (a b : SearchEventRow) : Prop := b.timestamp ≤ a.timestamp

instance : DecidableRel byTimestampDesc := fun a b => Nat.decLe b.timestamp a.timestamp

/-- `pool.query(sql, params)` for the statement of `searchEvents`, run on the
store: the rows of each half that satisfy its conditions, the two halves
together ordered by `timestamp` descending.  The statement is rejected when
a placeholder cannot be bound for its column. -/
def runSearch (db : Store) (q : SearchQuery) : Except Failure (List SearchEventRow) :=
  if (q.registrationConditions ++ q.transferConditions).all (Condition.accepted q.params) then
    .ok (((db.asset_registrations.filter
            (fun row => q.registrationConditions.all
              (Condition.holdsRegistration q.params row))).map registrationEvent ++
          (db.ownership_transfers.filter
            (fun row => q.transferConditions.all
              (Condition.holdsTransfer q.params row))).map transferEvent).insertionSort
        byTimestampDesc)
  else .error .store

/-- `Database.searchEvents(filters)`. -/
def searchEvents (seconds : String → SqlValue) (db : Store) (filters : SearchFilters) :
    Except Failure (List SearchEventRow) :=
  runSearch db (buildSearch seconds filters)

/-! ## The start-up callback among the runs of `monitorBlocks` -/

/-- The moment at which the callback of
`this.getCurrentBlockNumber().then(...)` runs, relative to a run of
`monitorBlocks`.  The call is made before `monitorBlocks()` is first called
and its callback runs once the answer is there, at one of the `await`s of a
run or while the timer a run armed is pending:
`beforeComparison` is the `await` of the height, before the run reads
`lastProcessedBlock`; `beforeAssignment` is an `await` of the fetch or of a
persistence callback, after the run read the variable and before it assigns
it; `afterRun` is the time after the run, before the next one. -/
inductive Landing
  | beforeComparison
  | beforeAssignment
  | afterRun
  deriving DecidableEq, Repr

/-- The step is the assignment `lastProcessedBlock = currentBlock`. -/
def Effect.isAssignment : Effect → Bool
  | .assignLastProcessedBlock _ => true
  | _ => false

/-- A run of `monitorBlocks` during or after which the start-up callback
`lastProcessedBlock = blockNum - 1` runs.  Before the comparison, the run
reads the value the callback wrote.  Before the assignment, the run read the
old value and its own assignment, if it gets there, overwrites the
callback's; a run that does not get there (it threw, or it returned without
such an `await` and the callback ran once it had) leaves the callback's
value.  After the run, the callback's value stands. -/
def monitorBlocksWithStart {σ : Type} (l : Listener σ) (blockNum : Int) (landing : Landing)
    (s : MonitorState σ) : MonitorState σ × List Effect :=
  match landing with
  | .beforeComparison => monitorBlocks l { s with lastProcessedBlock := blockNum - 1 }
  | .beforeAssignment =>
    if (monitorBlocks l s).2.any Effect.isAssignment then monitorBlocks l s
    else ({ (monitorBlocks l s).1 with lastProcessedBlock := blockNum - 1 }, (monitorBlocks l s).2)
  | .afterRun =>
    ({ (monitorBlocks l s).1 with lastProcessedBlock := blockNum - 1 }, (monitorBlocks l s).2)

/-- The closure variables of `startEventListener` before its first run of
`monitorBlocks` (`0`) and after each of its runs (`k + 1` after run `k`).
The height for the start-up callback is requested first, in the world `w`;
when the request is answered, with `blockNum`, the callback runs with run
`j`, at `landing`; when it is rejected the callback never runs. -/
def startedCycles {σ : Type} (l : Listener σ) (w : σ) (j : Nat) (landing : Landing) :
    Nat → MonitorState σ
  | 0 => (startedService (l.provider.getBlockNumber w).2).closure
  | k + 1 =>
    match (l.provider.getBlockNumber w).1 with
    | .ok blockNum =>
      if k = j then
        (monitorBlocksWithStart l blockNum landing (startedCycles l w j landing k)).1
      else (monitorBlocks l (startedCycles l w j landing k)).1
    | .error _ => (monitorBlocks l (startedCycles l w j landing k)).1

/-! ## Reading a trace -/

/-- The step is an invocation of a persistence callback. -/
def Effect.isCallback : Effect → Bool
  | .onAssetRegistered _ _ => true
  | .onOwnershipTransferred _ _ => true
  | _ => false

/-- The step is an invocation of a persistence callback that threw. -/
def Effect.isFailedCallback : Effect → Bool
  | .onAssetRegistered _ completed => !completed
  | .onOwnershipTransferred _ completed => !completed
  | _ => false

/-- The step is a `queryFilter` call. -/
def Effect.isQuery : Effect → Bool
  | .queryFilter _ _ _ _ => true
  | _ => false

/-- The step is a `provider.getBlock` call. -/
def Effect.isGetBlock : Effect → Bool
  | .getBlock _ _ => true
  | _ => false

/-- The step is a `queryFilter` call that was rejected. -/
def Effect.isFailedQuery : Effect → Bool
  | .queryFilter _ _ _ ok => !ok
  | _ => false

/-- The steps of a loop over `events.registrations` in which every callback
returned. -/
def deliveredRegistrations (events : List RegistrationEvent) : List Effect :=
  events.map (fun event => Effect.onAssetRegistered event true)

/-- The steps of a loop over `events.transfers` in which every callback
returned. -/
def deliveredTransfers (events : List TransferEvent) : List Effect :=
  events.map (fun event => Effect.onOwnershipTransferred event true)

/-- The `UNIQUE` constraint on `asset_registrations.asset_id`. -/
def UniqueAssetIds (rows : List AssetRegistrationRow) : Prop :=
  (rows.map (fun row => row.asset_id)).Nodup

/-- The row stores the values of the record in the six columns the insert
statement names. -/
def Stores (row : AssetRegistrationRow) (data : RegistrationEvent) : Prop :=
  row.asset_id = data.assetId ∧ row.owner = data.owner ∧
    row.description = data.description ∧ row.timestamp = data.timestamp ∧
    row.block_number = data.blockNumber ∧ row.transaction_hash = data.transactionHash

/-! ## Auxiliary definitions for the proofs -/

/-- The record passes the column checks of `insertAssetRegistration`. -/
def fitsRegistration (data : RegistrationEvent) : Bool :=
  fitsColumns data.assetId data.timestamp data.blockNumber

/-- The store after `insertAssetRegistration`, whether it returned or threw. -/
def applyRegistration (db : Store) (data : RegistrationEvent) : Store :=
  match insertAssetRegistration db data with
  | .ok (_, db1) => db1
  | .error _ => db

/-- A stored row after the conflict clause of every record of a list has been
applied to it, first record first. -/
def overwriteAll (l : List RegistrationEvent) (row : AssetRegistrationRow) :
    AssetRegistrationRow :=
  l.foldl (fun acc data => onConflict data acc) row

/-- Every record of the list has a row with its `asset_id`. -/
def Covered (l : List RegistrationEvent) (rows : List AssetRegistrationRow) : Prop :=
  ∀ data ∈ l, ∃ row ∈ rows, row.asset_id = data.assetId

/-! ## A concrete server

A node at height 105 that reports two registrations (assets 7 and 8) and no
transfer in every range, and a connection pool whose second `pool.query`
fails. -/

/-- The `AssetRegistered` log of asset 7 in block 103. -/
def demoLog7 : RawLog AssetRegisteredArgs :=
  { args := some { assetId := 7, owner := "0xAA", description := "seven", timestamp := 1700 }
    blockNumber := 103
    transactionHash := "0x07" }

/-- The `AssetRegistered` log of asset 8 in block 104. -/
def demoLog8 : RawLog AssetRegisteredArgs :=
  { args := some { assetId := 8, owner := "0xBB", description := "eight", timestamp := 1800 }
    blockNumber := 104
    transactionHash := "0x08" }

/-- The record `parseRegistrationEvents` makes of `demoLog7`. -/
def demoRecord7 : RegistrationEvent :=
  { assetId := 7, owner := "0xaa", description := "seven", timestamp := 1700,
    blockNumber := 103, transactionHash := "0x07", blockTimestamp := 1701 }

/-- The record `parseRegistrationEvents` makes of `demoLog8`. -/
def demoRecord8 : RegistrationEvent :=
  { assetId := 8, owner := "0xbb", description := "eight", timestamp := 1800,
    blockNumber := 104, transactionHash := "0x08", blockTimestamp := 1701 }

/-- The node: the state of the network is the number of `pool.query` calls
made so far, which the node leaves alone. -/
def demoProvider : Provider Nat :=
  { getBlockNumber := fun n => (.ok 105, n)
    queryFilterAssetRegistered := fun _ _ n => (.ok [demoLog7, demoLog8], n)
    queryFilterOwnershipTransferred := fun _ _ n => (.ok [], n)
    getBlock := fun _ n => (.ok (some { timestamp := 1701 }), n) }

/-- The server: the second `pool.query` of its life is rejected. -/
def demoServer : Server Nat :=
  { provider := demoProvider
    poolReaches := fun n => (n != 1, n + 1) }

/-- The listener at watermark 100 over an empty database. -/
def demoState : MonitorState (ServerWorld Nat) :=
  { lastProcessedBlock := 100
    isMonitoring := true
    world := { net := 0, db := Store.empty } }

/-- The listener at watermark 100 once the pool has recovered (two
`pool.query` calls have been made). -/
def demoStateRecovered : MonitorState (ServerWorld Nat) :=
  { lastProcessedBlock := 100
    isMonitoring := true
    world := { net := 2, db := Store.empty } }

/-- A node like `demoProvider` that reports only asset 7 and rejects every
`getBlock` request. -/
def lossyProvider : Provider Nat :=
  { getBlockNumber := fun n => (.ok 105, n)
    queryFilterAssetRegistered := fun _ _ n => (.ok [demoLog7], n)
    queryFilterOwnershipTransferred := fun _ _ n => (.ok [], n)
    getBlock := fun _ n => (.error .rpc, n) }

/-- A server on `lossyProvider` whose pool never fails. -/
def lossyServer : Server Nat :=
  { provider := lossyProvider
    poolReaches := fun n => (true, n + 1) }

/-- The listener of `demoServer` once the watermark has reached the height
of the node. -/
def demoStateCaughtUp : MonitorState (ServerWorld Nat) :=
  { lastProcessedBlock := 105
    isMonitoring := true
    world := { net := 2, db := Store.empty } }

/-- A node that rejects the lookup of block 103 and answers every other. -/
def flakyProvider : Provider Nat :=
  { getBlockNumber := fun n => (.ok 105, n)
    queryFilterAssetRegistered := fun _ _ n => (.ok [demoLog7, demoLog8], n)
    queryFilterOwnershipTransferred := fun _ _ n => (.ok [], n)
    getBlock := fun b n => if b = 103 then (.error .rpc, n) else (.ok (some { timestamp := 1701 }), n) }

/-- The outcomes of the successive `provider.getBlock` calls a parser makes
for events in the given blocks, starting from the world `w`. -/
def blockLookups {σ : Type} (p : Provider σ) :
    List Nat → σ → List (Except Failure (Option Block))
  | [], _ => []
  | n :: rest, w => (p.getBlock n w).1 :: blockLookups p rest (p.getBlock n w).2

/-- The record of a decoded `AssetRegistered` log whose block was fetched. -/
def registrationRecord (args : AssetRegisteredArgs) (blockNumber : Nat)
    (transactionHash : String) (b : Block) (assetId timestamp : Nat) : RegistrationEvent :=
  { assetId := assetId
    owner := toLowerCase args.owner
    description := args.description
    timestamp := timestamp
    blockNumber := blockNumber
    transactionHash := transactionHash
    blockTimestamp := b.timestamp }

/-- The record of a decoded `OwnershipTransferred` log whose block was
fetched. -/
def transferRecord (args : OwnershipTransferredArgs) (blockNumber : Nat)
    (transactionHash : String) (b : Block) (assetId timestamp : Nat) : TransferEvent :=
  { assetId := assetId
    previousOwner := toLowerCase args.previousOwner
    newOwner := toLowerCase args.newOwner
    timestamp := timestamp
    blockNumber := blockNumber
    transactionHash := transactionHash
    blockTimestamp := b.timestamp }

/-- The records a parser adds for one event, given the outcome of the block
lookup: one record when a block came back, none otherwise. -/
def recordsOf {α : Type} (lookup : Except Failure (Option Block)) (record : Block → α) :
    List α :=
  match lookup with
  | .ok (some b) => [record b]
  | _ => []

/-- A decoded `AssetRegistered` log with the asset id of the normalisation
example, `123456789012345`, and a mixed-case owner. -/
def wideLog : RawLog AssetRegisteredArgs :=
  { args := some { assetId := 123456789012345, owner := "0xABC", description := "wide",
                   timestamp := 1700 }
    blockNumber := 103
    transactionHash := "0x0a" }

/-- A decoded `OwnershipTransferred` log of the same asset. -/
def wideTransferLog : RawLog OwnershipTransferredArgs :=
  { args := some { assetId := 123456789012345, previousOwner := "0xABC", newOwner := "0xDEF",
                   timestamp := 1800 }
    blockNumber := 104
    transactionHash := "0x0b" }

/-- A decoded `AssetRegistered` log whose asset id is `2^53 + 1`, one above
the largest integer a double holds exactly next to its neighbours. -/
def overflowLog : RawLog AssetRegisteredArgs :=
  { args := some { assetId := 9007199254740993, owner := "0xAA", description := "big",
                   timestamp := 1700 }
    blockNumber := 103
    transactionHash := "0x0c" }

/-- A decoded `OwnershipTransferred` log whose timestamp is `2^53 + 1`. -/
def overflowTransferLog : RawLog OwnershipTransferredArgs :=
  { args := some { assetId := 7, previousOwner := "0xAA", newOwner := "0xBB",
                   timestamp := 9007199254740993 }
    blockNumber := 104
    transactionHash := "0x0d" }

/-- A call of one of the two write methods of `Database`. -/
inductive DbCall
  | insertAssetRegistration (data : RegistrationEvent)
  | insertOwnershipTransfer (data : TransferEvent)
  deriving DecidableEq, Repr

/-- The store after `insertOwnershipTransfer`, whether it returned or threw. -/
def applyTransfer (db : Store) (data : TransferEvent) : Store :=
  match insertOwnershipTransfer db data with
  | .ok (_, db1) => db1
  | .error _ => db

/-- The store after one call, whether it returned or threw (a call that
throws writes nothing). -/
def DbCall.run (db : Store) : DbCall → Store
  | .insertAssetRegistration data => applyRegistration db data
  | .insertOwnershipTransfer data => applyTransfer db data

/-- The store after a sequence of calls. -/
def runCalls (db : Store) (calls : List DbCall) : Store :=
  calls.foldl DbCall.run db

/-- A second registration of asset 7, by another owner in a later block. -/
def demoRecord7Again : RegistrationEvent :=
  { assetId := 7, owner := "0xcc", description := "seven again", timestamp := 1900,
    blockNumber := 110, transactionHash := "0x17", blockTimestamp := 1901 }

/-- A transfer of asset 7. -/
def demoTransfer7 : TransferEvent :=
  { assetId := 7, previousOwner := "0xaa", newOwner := "0xbb", timestamp := 1750,
    blockNumber := 104, transactionHash := "0x27", blockTimestamp := 1751 }

/-- The seven ways a run of `monitorBlocks` can go, with the state and the
trace each of them leaves. -/
inductive CyclePath {σ : Type} (l : Listener σ) (s : MonitorState σ) : Prop
  | stopped (hmon : s.isMonitoring = false)
      (heq : monitorBlocks l s = (s, []))
  | heightFailed (hmon : s.isMonitoring = true) (e : Failure)
      (hh : (l.provider.getBlockNumber s.world).1 = .error e)
      (heq : monitorBlocks l s =
        ({ s with world := (l.provider.getBlockNumber s.world).2 },
          [Effect.getBlockNumber none, Effect.setTimeout pollDelay]))
  | idle (hmon : s.isMonitoring = true) (currentBlock : Int)
      (hh : (l.provider.getBlockNumber s.world).1 = .ok currentBlock)
      (hle : currentBlock ≤ s.lastProcessedBlock)
      (heq : monitorBlocks l s =
        ({ s with world := (l.provider.getBlockNumber s.world).2 },
          [Effect.getBlockNumber (some currentBlock), Effect.setTimeout pollDelay]))
  | fetchFailed (hmon : s.isMonitoring = true) (currentBlock : Int)
      (hh : (l.provider.getBlockNumber s.world).1 = .ok currentBlock)
      (hgt : currentBlock > s.lastProcessedBlock) (e : Failure) (w : σ) (t : List Effect)
      (hev : getEventsByBlockRange l.provider (s.lastProcessedBlock + 1) currentBlock
        (l.provider.getBlockNumber s.world).2 = { result := .error e, world := w, trace := t })
      (heq : monitorBlocks l s =
        ({ s with world := w },
          Effect.getBlockNumber (some currentBlock) :: t ++ [Effect.setTimeout pollDelay]))
  | registrationFailed (hmon : s.isMonitoring = true) (currentBlock : Int)
      (hh : (l.provider.getBlockNumber s.world).1 = .ok currentBlock)
      (hgt : currentBlock > s.lastProcessedBlock) (events : Events) (w : σ) (t : List Effect)
      (hev : getEventsByBlockRange l.provider (s.lastProcessedBlock + 1) currentBlock
        (l.provider.getBlockNumber s.world).2 = { result := .ok events, world := w, trace := t })
      (e : Failure) (w1 : σ) (t1 : List Effect)
      (hr1 : processRegistrations l.onAssetRegistered events.registrations w =
        { result := .error e, world := w1, trace := t1 })
      (heq : monitorBlocks l s =
        ({ s with world := w1 },
          Effect.getBlockNumber (some currentBlock) :: t ++ t1 ++ [Effect.setTimeout pollDelay]))
  | transferFailed (hmon : s.isMonitoring = true) (currentBlock : Int)
      (hh : (l.provider.getBlockNumber s.world).1 = .ok currentBlock)
      (hgt : currentBlock > s.lastProcessedBlock) (events : Events) (w : σ) (t : List Effect)
      (hev : getEventsByBlockRange l.provider (s.lastProcessedBlock + 1) currentBlock
        (l.provider.getBlockNumber s.world).2 = { result := .ok events, world := w, trace := t })
      (w1 : σ) (t1 : List Effect)
      (hr1 : processRegistrations l.onAssetRegistered events.registrations w =
        { result := .ok (), world := w1, trace := t1 })
      (e : Failure) (w2 : σ) (t2 : List Effect)
      (hr2 : processTransfers l.onOwnershipTransferred events.transfers w1 =
        { result := .error e, world := w2, trace := t2 })
      (heq : monitorBlocks l s =
        ({ s with world := w2 },
          Effect.getBlockNumber (some currentBlock) :: t ++ t1 ++ t2 ++
            [Effect.setTimeout pollDelay]))
  | advanced (hmon : s.isMonitoring = true) (currentBlock : Int)
      (hh : (l.provider.getBlockNumber s.world).1 = .ok currentBlock)
      (hgt : currentBlock > s.lastProcessedBlock) (events : Events) (w : σ) (t : List Effect)
      (hev : getEventsByBlockRange l.provider (s.lastProcessedBlock + 1) currentBlock
        (l.provider.getBlockNumber s.world).2 = { result := .ok events, world := w, trace := t })
      (w1 : σ) (t1 : List Effect)
      (hr1 : processRegistrations l.onAssetRegistered events.registrations w =
        { result := .ok (), world := w1, trace := t1 })
      (w2 : σ) (t2 : List Effect)
      (hr2 : processTransfers l.onOwnershipTransferred events.transfers w1 =
        { result := .ok (), world := w2, trace := t2 })
      (heq : monitorBlocks l s =
        ({ s with lastProcessedBlock := currentBlock, world := w2 },
          Effect.getBlockNumber (some currentBlock) :: t ++ t1 ++ t2 ++
            [Effect.assignLastProcessedBlock currentBlock, Effect.setTimeout pollDelay]))

/-- Asset 7 is registered and transferred, then asset 8 is registered. -/
def demoCalls : List DbCall :=
  [.insertAssetRegistration demoRecord7, .insertOwnershipTransfer demoTransfer7,
   .insertAssetRegistration demoRecord8]

/-- Every call of the provider keeps a property of the outside world. -/
def Provider.Keeps {σ : Type} (p : Provider σ) (inv : σ → Prop) : Prop :=
  (∀ w, inv w → inv (p.getBlockNumber w).2) ∧
  (∀ a b w, inv w → inv (p.queryFilterAssetRegistered a b w).2) ∧
  (∀ a b w, inv w → inv (p.queryFilterOwnershipTransferred a b w).2) ∧
  (∀ n w, inv w → inv (p.getBlock n w).2)

/-- The row `insertOwnershipTransfer` appends: `VALUES ($1, ..., $6)` with
`id` from the sequence. -/
def transferRow (id : Nat) (data : TransferEvent) : OwnershipTransferRow :=
  { id := id
    asset_id := data.assetId
    previous_owner := data.previousOwner
    new_owner := data.newOwner
    timestamp := data.timestamp
    block_number := data.blockNumber
    transaction_hash := data.transactionHash }

/-- The record passes the column checks of `insertOwnershipTransfer`. -/
def fitsTransfer (data : TransferEvent) : Bool :=
  fitsColumns data.assetId data.timestamp data.blockNumber

/-- A server on `demoProvider` whose pool never fails. -/
def steadyServer : Server Nat :=
  { provider := demoProvider
    poolReaches := fun n => (true, n + 1) }

/-- The world of a server whose pool has not been used, over an empty
database. -/
def freshWorld : ServerWorld Nat :=
  { net := 0, db := Store.empty }

/-- A node like `demoProvider` whose height grows by one with every
`pool.query` the server has made. -/
def growingProvider : Provider Nat :=
  { getBlockNumber := fun n => (.ok (105 + (n : Int)), n)
    queryFilterAssetRegistered := fun _ _ n => (.ok [demoLog7, demoLog8], n)
    queryFilterOwnershipTransferred := fun _ _ n => (.ok [], n)
    getBlock := fun _ n => (.ok (some { timestamp := 1701 }), n) }

/-- A server on `growingProvider` whose pool never fails. -/
def growingServer : Server Nat :=
  { provider := growingProvider
    poolReaches := fun n => (true, n + 1) }

/-- The current owner of an asset in the words of the specification: the
`new_owner` of the asset's transfer with the greatest `timestamp`, or the
owner of the registration when the asset has no transfer. -/
def IsCurrentOwner (db : Store) (ar : AssetRegistrationRow) (owner : String) : Prop :=
  (∃ t ∈ db.ownership_transfers, t.asset_id = ar.asset_id ∧
    (∀ u ∈ db.ownership_transfers, u.asset_id = ar.asset_id → u.timestamp ≤ t.timestamp) ∧
    owner = t.new_owner) ∨
  ((∀ t ∈ db.ownership_transfers, t.asset_id ≠ ar.asset_id) ∧ owner = ar.owner)

/-- The transfers of each asset have pairwise distinct timestamps. -/
def DistinctTransferTimestamps (db : Store) : Prop :=
  ∀ t ∈ db.ownership_transfers, ∀ u ∈ db.ownership_transfers,
    t.asset_id = u.asset_id → t.timestamp = u.timestamp → t = u

/-- Asset 7 registered to `0xaa` and then transferred to `0xbb`. -/
def transferredStore : Store :=
  runCalls Store.empty
    [.insertAssetRegistration demoRecord7, .insertOwnershipTransfer demoTransfer7]

instance : IsTotal AssetRegistrationRow byAssetId :=
  ⟨fun a b => Nat.le_total a.asset_id b.asset_id⟩

instance : IsTrans AssetRegistrationRow byAssetId :=
  ⟨fun _ _ _ h1 h2 => Nat.le_trans h1 h2⟩

/-- Placeholder `$k` is the place of `value` in `params`. -/
def boundTo (params : List SqlValue) (k : Nat) (value : Option SqlValue) : Prop :=
  1 ≤ k ∧ value.isSome = true ∧ params[k - 1]? = value

/-- Every placeholder of the condition is the place in `params` of the
condition's own value: the `assetId` for `asset_id`, the lower-cased
`address` for `owner`, `previous_owner` and `new_owner`, the seconds of
`fromDate` and of `toDate` for the bounds on `timestamp` (each filter as it
passed its test). -/
def Condition.Bound (seconds : String → SqlValue) (filters : SearchFilters)
    (params : List SqlValue) : Condition → Prop
  | .assetIdEq k => boundTo params k ((truthyNumber filters.assetId).map SqlValue.number)
  | .ownerEq k =>
    boundTo params k ((truthyString filters.address).map (fun s => SqlValue.text (toLowerCase s)))
  | .timestampGe k => boundTo params k ((truthyString filters.fromDate).map seconds)
  | .timestampLe k => boundTo params k ((truthyString filters.toDate).map seconds)
  | .previousOrNewOwnerEq k1 k2 =>
    boundTo params k1
        ((truthyString filters.address).map (fun s => SqlValue.text (toLowerCase s))) ∧
      boundTo params k2
        ((truthyString filters.address).map (fun s => SqlValue.text (toLowerCase s)))

/-- The registration of asset 0. -/
def demoRecord0 : RegistrationEvent :=
  { assetId := 0, owner := "0xdd", description := "zero", timestamp := 1600,
    blockNumber := 101, transactionHash := "0x00", blockTimestamp := 1601 }

/-- A store with assets 0 and 7 registered and asset 7 transferred. -/
def zeroStore : Store :=
  runCalls Store.empty
    [.insertAssetRegistration demoRecord0, .insertAssetRegistration demoRecord7,
     .insertOwnershipTransfer demoTransfer7]

/-- A date parser that knows two dates. -/
def demoSeconds (s : String) : SqlValue :=
  if s = "2023-11-14" then .number 1699920000
  else if s = "2023-11-15" then .number 1700006400
  else .nan

/-! ### Reading the text of a statement -/

/-- A comparison in the text of a statement: `column op $placeholder`. -/
structure Comparison where
  column : String
  op : String
  placeholder : Nat
  deriving DecidableEq, Repr

/-- The character separates the words of a statement: a line break (10), a
blank (32), a comma (44) or a parenthesis (40, 41). -/
def isSeparator (c : Char) : Bool :=
  c.toNat == 10 || c.toNat == 32 || c.toNat == 44 || c.toNat == 40 || c.toNat == 41

/-- The words of the characters `rest`, after the characters of `word` (the
word being read, last character first). -/
def wordsFrom : List Char → List Char → List String
  | word, [] => if word.isEmpty then [] else [String.mk word.reverse]
  | word, c :: rest =>
    if isSeparator c then
      if word.isEmpty then wordsFrom [] rest else String.mk word.reverse :: wordsFrom [] rest
    else wordsFrom (c :: word) rest

/-- The words of a text. -/
def words (text : String) : List String := wordsFrom [] text.data

/-- The number written by decimal digits, `acc` being the value of the
digits already read; `none` when a character is not a digit. -/
def readDigits : Nat → List Char → Option Nat
  | acc, [] => some acc
  | acc, c :: rest =>
    if 48 ≤ c.toNat ∧ c.toNat ≤ 57 then readDigits (acc * 10 + (c.toNat - 48)) rest
    else none

/-- The number `k` of a word `$k` (the dollar sign is character 36). -/
def readPlaceholder (word : String) : Option Nat :=
  match word.data with
  | c :: d :: rest => if c.toNat = 36 then readDigits 0 (d :: rest) else none
  | _ => none

/-- The placeholder numbers written in a text, in the order of the text. -/
def placeholdersIn (text : String) : List Nat :=
  (words text).filterMap readPlaceholder

/-- The comparisons in a list of words: every word `$k` with the two words
before it. -/
def comparisonsIn : List String → List Comparison
  | column :: op :: p :: rest =>
    match readPlaceholder p with
    | some k => { column := column, op := op, placeholder := k } :: comparisonsIn rest
    | none => comparisonsIn (op :: p :: rest)
  | _ => []

/-- The comparisons written in the text of the statement of `searchEvents`:
those of the registration half, before the word `UNION`, and those of the
transfer half, after it. -/
def readStatement (text : String) : List Comparison × List Comparison :=
  (comparisonsIn ((words text).takeWhile (fun w => w != "UNION")),
   comparisonsIn ((words text).dropWhile (fun w => w != "UNION")))

/-- The comparisons a condition writes into the text. -/
def Condition.comparisons : Condition → List Comparison
  | .assetIdEq k => [{ column := "asset_id", op := "=", placeholder := k }]
  | .ownerEq k => [{ column := "owner", op := "=", placeholder := k }]
  | .timestampGe k => [{ column := "timestamp", op := ">=", placeholder := k }]
  | .timestampLe k => [{ column := "timestamp", op := "<=", placeholder := k }]
  | .previousOrNewOwnerEq k1 k2 =>
    [{ column := "previous_owner", op := "=", placeholder := k1 },
     { column := "new_owner", op := "=", placeholder := k2 }]

/-- The value a comparison of the text is meant to be compared with: the
`assetId` for `asset_id`, the lower-cased `address` for `owner`,
`previous_owner` and `new_owner`, the seconds of `fromDate` for the lower
bound on `timestamp` and those of `toDate` for the upper bound (each filter
as it passed its test); `none` for any other comparison. -/
def Comparison.expected (seconds : String → SqlValue) (filters : SearchFilters)
    (c : Comparison) : Option SqlValue :=
  if c.column = "asset_id" ∧ c.op = "=" then
    (truthyNumber filters.assetId).map SqlValue.number
  else if (c.column = "owner" ∨ c.column = "previous_owner" ∨ c.column = "new_owner") ∧
      c.op = "=" then
    (truthyString filters.address).map (fun s => SqlValue.text (toLowerCase s))
  else if c.column = "timestamp" ∧ c.op = ">=" then
    (truthyString filters.fromDate).map seconds
  else if c.column = "timestamp" ∧ c.op = "<=" then
    (truthyString filters.toDate).map seconds
  else none

/-- A node of a chain at height 0 that rejects every query for
`AssetRegistered` logs. -/
def genesisProvider : Provider Nat :=
  { getBlockNumber := fun n => (.ok 0, n)
    queryFilterAssetRegistered := fun _ _ n => (.error .rpc, n)
    queryFilterOwnershipTransferred := fun _ _ n => (.ok [], n)
    getBlock := fun _ n => (.ok (some { timestamp := 1701 }), n) }

/-- A server on `genesisProvider` whose pool never fails. -/
def genesisServer : Server Nat :=
  { provider := genesisProvider
    poolReaches := fun n => (true, n + 1) }

/-- The registration of asset 7 delivered again with a timestamp of `2^64`,
above the range of the `BIGINT` column. -/
def demoRecord7Late : RegistrationEvent :=
  { assetId := 7, owner := "0xcc", description := "seven again",
    timestamp := 18446744073709551616, blockNumber := 110, transactionHash := "0x17",
    blockTimestamp := 1901 }

/-- The record `parseTransferEvents` makes of `wideTransferLog`. -/
def wideTransfer : TransferEvent :=
  { assetId := 123456789012345, previousOwner := "0xabc", newOwner := "0xdef",
    timestamp := 1800, blockNumber := 104, transactionHash := "0x0b", blockTimestamp := 1701 }

/-! ## The upsert -/

theorem onConflict_id (data : RegistrationEvent) (row : AssetRegistrationRow) :
    (onConflict data row).id = row.id := by
  unfold onConflict; split <;> rfl

theorem onConflict_asset_id (data : RegistrationEvent) (row : AssetRegistrationRow) :
    (onConflict data row).asset_id = row.asset_id := by
  unfold onConflict; split <;> rfl

theorem onConflict_of_ne {data : RegistrationEvent} {row : AssetRegistrationRow}
    (h : row.asset_id ≠ data.assetId) : onConflict data row = row := by
  simp [onConflict, h]

theorem onConflict_of_eq {data : RegistrationEvent} {row : AssetRegistrationRow}
    (h : row.asset_id = data.assetId) : onConflict data row = updateRow data row := by
  simp [onConflict, h]

theorem updateRow_congr (data : RegistrationEvent) {a b : AssetRegistrationRow}
    (hid : a.id = b.id) (hasset : a.asset_id = b.asset_id) :
    updateRow data a = updateRow data b := by
  cases a; cases b; simp_all [updateRow]

theorem updateRow_updateRow (data : RegistrationEvent) (row : AssetRegistrationRow) :
    updateRow data (updateRow data row) = updateRow data row := rfl

theorem updateRow_insertedRow (id : Nat) (data : RegistrationEvent) :
    updateRow data (insertedRow id data) = insertedRow id data := rfl

theorem overwriteAll_id (l : List RegistrationEvent) (row : AssetRegistrationRow) :
    (overwriteAll l row).id = row.id := by
  induction l generalizing row with
  | nil => rfl
  | cons data rest ih =>
    simp only [overwriteAll, List.foldl_cons] at ih ⊢
    rw [ih, onConflict_id]

theorem overwriteAll_asset_id (l : List RegistrationEvent) (row : AssetRegistrationRow) :
    (overwriteAll l row).asset_id = row.asset_id := by
  induction l generalizing row with
  | nil => rfl
  | cons data rest ih =>
    simp only [overwriteAll, List.foldl_cons] at ih ⊢
    rw [ih, onConflict_asset_id]

theorem overwriteAll_cons (data : RegistrationEvent) (l : List RegistrationEvent)
    (row : AssetRegistrationRow) :
    overwriteAll (data :: l) row = overwriteAll l (onConflict data row) := rfl

theorem overwriteAll_append_singleton (l : List RegistrationEvent) (data : RegistrationEvent)
    (row : AssetRegistrationRow) :
    overwriteAll (l ++ [data]) row = onConflict data (overwriteAll l row) := by
  simp [overwriteAll]

/-- The table after `insertAssetRegistration` when a row with the `asset_id`
is stored. -/
theorem applyRegistration_conflict {db : Store} {data : RegistrationEvent}
    (hfit : fitsRegistration data = true)
    (h : ∃ row ∈ db.asset_registrations, row.asset_id = data.assetId) :
    (applyRegistration db data).asset_registrations =
      db.asset_registrations.map (onConflict data) := by
  obtain ⟨row, hrow, hid⟩ := h
  have hsome : (db.asset_registrations.find? (fun row => row.asset_id == data.assetId)).isSome := by
    rw [List.find?_isSome]; exact ⟨row, hrow, by simp [hid]⟩
  obtain ⟨existing, hex⟩ := Option.isSome_iff_exists.mp hsome
  unfold fitsRegistration at hfit
  simp [applyRegistration, insertAssetRegistration, hfit, hex]

/-- The table after `insertAssetRegistration` when no row with the `asset_id`
is stored. -/
theorem applyRegistration_fresh {db : Store} {data : RegistrationEvent}
    (hfit : fitsRegistration data = true)
    (h : ∀ row ∈ db.asset_registrations, row.asset_id ≠ data.assetId) :
    (applyRegistration db data).asset_registrations =
      db.asset_registrations ++ [insertedRow (db.asset_registrations_id_seq + 1) data] := by
  have hnone : db.asset_registrations.find? (fun row => row.asset_id == data.assetId) = none := by
    rw [List.find?_eq_none]; intro row hrow; simpa using h row hrow
  unfold fitsRegistration at hfit
  simp [applyRegistration, insertAssetRegistration, hfit, hnone]

theorem applyRegistration_of_not_fits {db : Store} {data : RegistrationEvent}
    (hfit : fitsRegistration data = false) : applyRegistration db data = db := by
  unfold fitsRegistration at hfit
  simp [applyRegistration, insertAssetRegistration, hfit]

/-- Every row after an accepted upsert is either an old row passed through the
conflict clause or the inserted row. -/
theorem mem_applyRegistration {db : Store} {data : RegistrationEvent}
    (hfit : fitsRegistration data = true) {row : AssetRegistrationRow}
    (hrow : row ∈ (applyRegistration db data).asset_registrations) :
    (∃ old ∈ db.asset_registrations, row = onConflict data old) ∨
      row = insertedRow (db.asset_registrations_id_seq + 1) data := by
  by_cases h : ∃ r ∈ db.asset_registrations, r.asset_id = data.assetId
  · rw [applyRegistration_conflict hfit h, List.mem_map] at hrow
    obtain ⟨old, hold, rfl⟩ := hrow
    exact Or.inl ⟨old, hold, rfl⟩
  · have h2 : ∀ r ∈ db.asset_registrations, r.asset_id ≠ data.assetId := by
      intro r hr hid; exact h ⟨r, hr, hid⟩
    rw [applyRegistration_fresh hfit h2, List.mem_append, List.mem_singleton] at hrow
    rcases hrow with hold | rfl
    · exact Or.inl ⟨row, hold, (onConflict_of_ne (h2 row hold)).symm⟩
    · exact Or.inr rfl

/-- An accepted upsert keeps every stored `asset_id` and stores its own. -/
theorem applyRegistration_keeps {db : Store} {data : RegistrationEvent}
    (hfit : fitsRegistration data = true) {a : Nat}
    (h : (∃ row ∈ db.asset_registrations, row.asset_id = a) ∨ a = data.assetId) :
    ∃ row ∈ (applyRegistration db data).asset_registrations, row.asset_id = a := by
  by_cases hc : ∃ r ∈ db.asset_registrations, r.asset_id = data.assetId
  · rw [applyRegistration_conflict hfit hc]
    have hex : ∃ row ∈ db.asset_registrations, row.asset_id = a := by
      rcases h with h | rfl
      · exact h
      · exact hc
    obtain ⟨row, hrow, hid⟩ := hex
    exact ⟨onConflict data row, List.mem_map_of_mem _ hrow, by rw [onConflict_asset_id, hid]⟩
  · have h2 : ∀ r ∈ db.asset_registrations, r.asset_id ≠ data.assetId := by
      intro r hr hid; exact hc ⟨r, hr, hid⟩
    rw [applyRegistration_fresh hfit h2]
    rcases h with ⟨row, hrow, hid⟩ | rfl
    · exact ⟨row, List.mem_append_left _ hrow, hid⟩
    · exact ⟨_, List.mem_append_right _ (List.mem_singleton_self _), rfl⟩

/-! ## Running the upsert over a list -/

/-- The store the loop leaves is the store after the accepted inserts before
the first rejected one. -/
theorem insertRegistrations_store (db : Store) (l : List RegistrationEvent) :
    (insertRegistrations db l).2 = (l.takeWhile fitsRegistration).foldl applyRegistration db := by
  induction l generalizing db with
  | nil => rfl
  | cons data rest ih =>
    cases hfit : fitsRegistration data with
    | false =>
      have hf := hfit
      unfold fitsRegistration at hf
      simp [insertRegistrations, insertAssetRegistration, hf, List.takeWhile, hfit]
    | true =>
      have hf := hfit
      unfold fitsRegistration at hf
      have happ : ∀ x, insertAssetRegistration db data = .ok x → x.2 = applyRegistration db data := by
        intro x hx; simp [applyRegistration, hx]
      cases hins : insertAssetRegistration db data with
      | error e => simp [insertAssetRegistration, hf] at hins; split at hins <;> cases hins
      | ok x =>
        obtain ⟨i, db1⟩ := x
        have h1 : db1 = applyRegistration db data := happ _ hins
        simp only [insertRegistrations, hins, List.takeWhile, hfit, List.foldl_cons]
        rw [ih, h1]

theorem foldl_applyRegistration_covered {l : List RegistrationEvent}
    (hfit : ∀ data ∈ l, fitsRegistration data = true) (db : Store) :
    Covered l (l.foldl applyRegistration db).asset_registrations := by
  induction l using List.reverseRecOn with
  | nil => intro data hdata; cases hdata
  | append_singleton l data ih =>
    have hl : ∀ d ∈ l, fitsRegistration d = true :=
      fun d hd => hfit d (List.mem_append_left _ hd)
    have hd : fitsRegistration data = true :=
      hfit data (List.mem_append_right _ (List.mem_singleton_self _))
    intro d hmem
    rw [List.foldl_append, List.foldl_cons, List.foldl_nil]
    apply applyRegistration_keeps hd
    rw [List.mem_append, List.mem_singleton] at hmem
    rcases hmem with hmem | rfl
    · exact Or.inl (ih hl d hmem)
    · exact Or.inr rfl

/-- After a run over the list every stored row is a fixed point of the
conflict clauses of the list, applied in order. -/
theorem foldl_applyRegistration_settled {l : List RegistrationEvent}
    (hfit : ∀ data ∈ l, fitsRegistration data = true) (db : Store) :
    ∀ row ∈ (l.foldl applyRegistration db).asset_registrations, overwriteAll l row = row := by
  induction l using List.reverseRecOn with
  | nil => intro row _; rfl
  | append_singleton l data ih =>
    have hl : ∀ d ∈ l, fitsRegistration d = true :=
      fun d hd => hfit d (List.mem_append_left _ hd)
    have hd : fitsRegistration data = true :=
      hfit data (List.mem_append_right _ (List.mem_singleton_self _))
    intro row hrow
    rw [List.foldl_append, List.foldl_cons, List.foldl_nil] at hrow
    rw [overwriteAll_append_singleton]
    have key : row.asset_id = data.assetId → updateRow data row = row →
        onConflict data (overwriteAll l row) = row := by
      intro hid hupd
      rw [onConflict_of_eq (by rw [overwriteAll_asset_id, hid]),
        updateRow_congr data (overwriteAll_id l row) (overwriteAll_asset_id l row), hupd]
    rcases mem_applyRegistration hd hrow with ⟨old, hold, rfl⟩ | rfl
    · by_cases hid : old.asset_id = data.assetId
      · refine key (by rw [onConflict_asset_id]; exact hid) ?_
        rw [onConflict_of_eq hid]
        rfl
      · rw [onConflict_of_ne hid, ih hl old hold, onConflict_of_ne hid]
    · exact key rfl (updateRow_insertedRow _ data)

/-- On a table that already holds every `asset_id` of the list, a run over
the list only applies conflict clauses. -/
theorem foldl_applyRegistration_of_covered {l : List RegistrationEvent}
    (hfit : ∀ data ∈ l, fitsRegistration data = true) (db : Store)
    (hcov : Covered l db.asset_registrations) :
    (l.foldl applyRegistration db).asset_registrations =
      db.asset_registrations.map (overwriteAll l) := by
  induction l generalizing db with
  | nil =>
    have hid : overwriteAll [] = id := rfl
    rw [hid, List.map_id]
    rfl
  | cons data rest ih =>
    have hd : fitsRegistration data = true := hfit data (List.mem_cons_self _ _)
    have hrest : ∀ d ∈ rest, fitsRegistration d = true :=
      fun d hmem => hfit d (List.mem_cons_of_mem _ hmem)
    have hstep := applyRegistration_conflict hd (hcov data (List.mem_cons_self _ _))
    have hcov1 : Covered rest (applyRegistration db data).asset_registrations := by
      intro d hmem
      exact applyRegistration_keeps hd (Or.inl (hcov d (List.mem_cons_of_mem _ hmem)))
    rw [List.foldl_cons, ih hrest _ hcov1, hstep, List.map_map]
    rfl

/-- Running the accepted records of a list a second time leaves the table
as the first run left it. -/
theorem foldl_applyRegistration_twice {l : List RegistrationEvent}
    (hfit : ∀ data ∈ l, fitsRegistration data = true) (db : Store) :
    (l.foldl applyRegistration (l.foldl applyRegistration db)).asset_registrations =
      (l.foldl applyRegistration db).asset_registrations := by
  rw [foldl_applyRegistration_of_covered hfit _ (foldl_applyRegistration_covered hfit db)]
  conv_rhs => rw [← List.map_id (l.foldl applyRegistration db).asset_registrations]
  apply List.map_congr_left
  intro row hrow
  simpa using foldl_applyRegistration_settled hfit db row hrow

/-- C1. Idempotence of the registration upsert: from every store and for
every list of registration records, running `insertAssetRegistration` over the
list a second time leaves `asset_registrations` exactly as the first run left
it: the same rows in the same places, each with the same `id`, `asset_id`,
`owner`, `description`, `timestamp`, `block_number` and `transaction_hash`. -/
theorem insertRegistrations_idempotent (db : Store) (l : List RegistrationEvent) :
    (insertRegistrations (insertRegistrations db l).2 l).2.asset_registrations =
      (insertRegistrations db l).2.asset_registrations := by
  rw [insertRegistrations_store, insertRegistrations_store]
  exact foldl_applyRegistration_twice
    (fun data hdata => (List.mem_takeWhile_imp hdata)) db

/-! ## The uniqueness constraint and the last writer -/

theorem map_asset_id_onConflict (data : RegistrationEvent) (rows : List AssetRegistrationRow) :
    (rows.map (onConflict data)).map (fun row => row.asset_id) =
      rows.map (fun row => row.asset_id) := by
  rw [List.map_map]
  apply List.map_congr_left
  intro row _
  exact onConflict_asset_id data row

/-- An upsert keeps the `UNIQUE` constraint on `asset_id`. -/
theorem applyRegistration_unique (db : Store) (data : RegistrationEvent)
    (h : UniqueAssetIds db.asset_registrations) :
    UniqueAssetIds (applyRegistration db data).asset_registrations := by
  cases hfit : fitsRegistration data with
  | false => rw [applyRegistration_of_not_fits hfit]; exact h
  | true =>
    by_cases hc : ∃ r ∈ db.asset_registrations, r.asset_id = data.assetId
    · unfold UniqueAssetIds
      rw [applyRegistration_conflict hfit hc, map_asset_id_onConflict]
      exact h
    · have h2 : ∀ r ∈ db.asset_registrations, r.asset_id ≠ data.assetId := by
        intro r hr hid; exact hc ⟨r, hr, hid⟩
      unfold UniqueAssetIds
      rw [applyRegistration_fresh hfit h2, List.map_append, List.nodup_append]
      refine ⟨h, List.nodup_singleton _, ?_⟩
      intro a ha hb
      simp only [List.map_cons, List.map_nil, List.mem_singleton] at hb
      obtain ⟨r, hr, rfl⟩ := List.mem_map.mp ha
      exact h2 r hr hb

theorem foldl_applyRegistration_unique (l : List RegistrationEvent) (db : Store)
    (h : UniqueAssetIds db.asset_registrations) :
    UniqueAssetIds (l.foldl applyRegistration db).asset_registrations := by
  induction l generalizing db with
  | nil => exact h
  | cons data rest ih => exact ih _ (applyRegistration_unique db data h)

theorem overwriteAll_of_ne (l : List RegistrationEvent) (row : AssetRegistrationRow)
    (h : ∀ d ∈ l, d.assetId ≠ row.asset_id) : overwriteAll l row = row := by
  induction l with
  | nil => rfl
  | cons data rest ih =>
    rw [overwriteAll_cons,
      onConflict_of_ne (fun hid => h data (List.mem_cons_self _ _) hid.symm)]
    exact ih (fun d hd => h d (List.mem_cons_of_mem _ hd))

theorem overwriteAll_append (l1 l2 : List RegistrationEvent) (row : AssetRegistrationRow) :
    overwriteAll (l1 ++ l2) row = overwriteAll l2 (overwriteAll l1 row) := by
  simp [overwriteAll]

theorem stores_updateRow (data : RegistrationEvent) (row : AssetRegistrationRow)
    (h : row.asset_id = data.assetId) : Stores (updateRow data row) data :=
  ⟨h, rfl, rfl, rfl, rfl, rfl⟩

/-- After a run over a list of accepted records, a record that no later
record of the list overrides is stored with its own values. -/
theorem foldl_applyRegistration_stores (before : List RegistrationEvent)
    (data : RegistrationEvent) (after : List RegistrationEvent)
    (hfit : ∀ d ∈ before ++ data :: after, fitsRegistration d = true)
    (hlater : ∀ d ∈ after, d.assetId ≠ data.assetId) (db : Store) :
    ∃ row ∈ ((before ++ data :: after).foldl applyRegistration db).asset_registrations,
      Stores row data := by
  obtain ⟨row, hrow, hid⟩ := foldl_applyRegistration_covered hfit db data
    (List.mem_append_right _ (List.mem_cons_self _ _))
  refine ⟨row, hrow, ?_⟩
  have hset := foldl_applyRegistration_settled hfit db row hrow
  rw [overwriteAll_append, overwriteAll_cons] at hset
  have h1 : (overwriteAll before row).asset_id = data.assetId := by
    rw [overwriteAll_asset_id, hid]
  rw [onConflict_of_eq h1, overwriteAll_of_ne after _ (fun d hd => by
    show d.assetId ≠ (overwriteAll before row).asset_id
    rw [h1]; exact hlater d hd)] at hset
  rw [← hset]
  exact stores_updateRow data _ h1

/-- Under the `UNIQUE` constraint a stored `asset_id` has exactly one row. -/
theorem count_eq_one_of_unique {rows : List AssetRegistrationRow} (h : UniqueAssetIds rows)
    {a : Nat} (hmem : ∃ row ∈ rows, row.asset_id = a) :
    (rows.map (fun row => row.asset_id)).count a = 1 := by
  obtain ⟨row, hrow, rfl⟩ := hmem
  exact List.count_eq_one_of_mem h (List.mem_map_of_mem _ hrow)

/-! ## The paths through `monitorBlocks` -/

theorem monitorBlocks_stopped {σ : Type} (l : Listener σ) (s : MonitorState σ)
    (hmon : s.isMonitoring = false) : monitorBlocks l s = (s, []) := by
  simp [monitorBlocks, hmon]

theorem monitorBlocks_heightFailed {σ : Type} (l : Listener σ) (s : MonitorState σ)
    (hmon : s.isMonitoring = true) {e : Failure}
    (hh : (l.provider.getBlockNumber s.world).1 = .error e) :
    monitorBlocks l s =
      ({ s with world := (l.provider.getBlockNumber s.world).2 },
        [Effect.getBlockNumber none, Effect.setTimeout pollDelay]) := by
  simp [monitorBlocks, hmon, hh]

theorem monitorBlocks_idle {σ : Type} (l : Listener σ) (s : MonitorState σ)
    (hmon : s.isMonitoring = true) {currentBlock : Int}
    (hh : (l.provider.getBlockNumber s.world).1 = .ok currentBlock)
    (hle : currentBlock ≤ s.lastProcessedBlock) :
    monitorBlocks l s =
      ({ s with world := (l.provider.getBlockNumber s.world).2 },
        [Effect.getBlockNumber (some currentBlock), Effect.setTimeout pollDelay]) := by
  have hng : ¬ currentBlock > s.lastProcessedBlock := not_lt.mpr hle
  simp only [monitorBlocks, hmon, hh]
  simp [hng]

theorem monitorBlocks_fetchFailed {σ : Type} (l : Listener σ) (s : MonitorState σ)
    (hmon : s.isMonitoring = true) {currentBlock : Int}
    (hh : (l.provider.getBlockNumber s.world).1 = .ok currentBlock)
    (hgt : currentBlock > s.lastProcessedBlock) {e : Failure}
    (hev : (getEventsByBlockRange l.provider (s.lastProcessedBlock + 1) currentBlock
      (l.provider.getBlockNumber s.world).2).result = .error e) :
    monitorBlocks l s =
      ({ s with world := (getEventsByBlockRange l.provider (s.lastProcessedBlock + 1)
            currentBlock (l.provider.getBlockNumber s.world).2).world },
        Effect.getBlockNumber (some currentBlock) ::
          (getEventsByBlockRange l.provider (s.lastProcessedBlock + 1) currentBlock
            (l.provider.getBlockNumber s.world).2).trace ++ [Effect.setTimeout pollDelay]) := by
  simp only [monitorBlocks, hmon, hh]
  simp [hgt, hev]

theorem monitorBlocks_registrationFailed {σ : Type} (l : Listener σ) (s : MonitorState σ)
    (hmon : s.isMonitoring = true) {currentBlock : Int}
    (hh : (l.provider.getBlockNumber s.world).1 = .ok currentBlock)
    (hgt : currentBlock > s.lastProcessedBlock) {events : Events} {w : σ} {t : List Effect}
    (hev : getEventsByBlockRange l.provider (s.lastProcessedBlock + 1) currentBlock
      (l.provider.getBlockNumber s.world).2 = { result := .ok events, world := w, trace := t })
    {e : Failure}
    (hr1 : (processRegistrations l.onAssetRegistered events.registrations w).result = .error e) :
    monitorBlocks l s =
      ({ s with world := (processRegistrations l.onAssetRegistered events.registrations w).world },
        Effect.getBlockNumber (some currentBlock) :: t ++
          (processRegistrations l.onAssetRegistered events.registrations w).trace ++
          [Effect.setTimeout pollDelay]) := by
  simp only [monitorBlocks, hmon, hh]
  simp [hgt, hev, hr1]

theorem monitorBlocks_transferFailed {σ : Type} (l : Listener σ) (s : MonitorState σ)
    (hmon : s.isMonitoring = true) {currentBlock : Int}
    (hh : (l.provider.getBlockNumber s.world).1 = .ok currentBlock)
    (hgt : currentBlock > s.lastProcessedBlock) {events : Events} {w : σ} {t : List Effect}
    (hev : getEventsByBlockRange l.provider (s.lastProcessedBlock + 1) currentBlock
      (l.provider.getBlockNumber s.world).2 = { result := .ok events, world := w, trace := t })
    {w1 : σ} {t1 : List Effect}
    (hr1 : processRegistrations l.onAssetRegistered events.registrations w =
      { result := .ok (), world := w1, trace := t1 })
    {e : Failure}
    (hr2 : (processTransfers l.onOwnershipTransferred events.transfers w1).result = .error e) :
    monitorBlocks l s =
      ({ s with world := (processTransfers l.onOwnershipTransferred events.transfers w1).world },
        Effect.getBlockNumber (some currentBlock) :: t ++ t1 ++
          (processTransfers l.onOwnershipTransferred events.transfers w1).trace ++
          [Effect.setTimeout pollDelay]) := by
  simp only [monitorBlocks, hmon, hh]
  simp [hgt, hev, hr1, hr2]

theorem monitorBlocks_advanced {σ : Type} (l : Listener σ) (s : MonitorState σ)
    (hmon : s.isMonitoring = true) {currentBlock : Int}
    (hh : (l.provider.getBlockNumber s.world).1 = .ok currentBlock)
    (hgt : currentBlock > s.lastProcessedBlock) {events : Events} {w : σ} {t : List Effect}
    (hev : getEventsByBlockRange l.provider (s.lastProcessedBlock + 1) currentBlock
      (l.provider.getBlockNumber s.world).2 = { result := .ok events, world := w, trace := t })
    {w1 : σ} {t1 : List Effect}
    (hr1 : processRegistrations l.onAssetRegistered events.registrations w =
      { result := .ok (), world := w1, trace := t1 })
    {w2 : σ} {t2 : List Effect}
    (hr2 : processTransfers l.onOwnershipTransferred events.transfers w1 =
      { result := .ok (), world := w2, trace := t2 }) :
    monitorBlocks l s =
      ({ s with lastProcessedBlock := currentBlock, world := w2 },
        Effect.getBlockNumber (some currentBlock) :: t ++ t1 ++ t2 ++
          [Effect.assignLastProcessedBlock currentBlock, Effect.setTimeout pollDelay]) := by
  simp only [monitorBlocks, hmon, hh]
  simp [hgt, hev, hr1, hr2]

/-- Every run of `monitorBlocks` follows one of the seven paths. -/
theorem monitorBlocks_path {σ : Type} (l : Listener σ) (s : MonitorState σ) :
    CyclePath l s := by
  cases hmon : s.isMonitoring with
  | false => exact .stopped hmon (monitorBlocks_stopped l s hmon)
  | true =>
    cases hh : (l.provider.getBlockNumber s.world).1 with
    | error e => exact .heightFailed hmon e hh (monitorBlocks_heightFailed l s hmon hh)
    | ok currentBlock =>
      by_cases hgt : currentBlock > s.lastProcessedBlock
      · rcases hev : getEventsByBlockRange l.provider (s.lastProcessedBlock + 1) currentBlock
          (l.provider.getBlockNumber s.world).2 with ⟨res, w, t⟩
        cases res with
        | error e =>
          refine .fetchFailed hmon currentBlock hh hgt e w t hev ?_
          rw [monitorBlocks_fetchFailed l s hmon hh hgt (e := e) (by rw [hev]), hev]
        | ok events =>
          rcases hr1 : processRegistrations l.onAssetRegistered events.registrations w
            with ⟨res1, w1, t1⟩
          cases res1 with
          | error e =>
            refine .registrationFailed hmon currentBlock hh hgt events w t hev e w1 t1 hr1 ?_
            rw [monitorBlocks_registrationFailed l s hmon hh hgt hev (e := e) (by rw [hr1]), hr1]
          | ok u =>
            rcases hr2 : processTransfers l.onOwnershipTransferred events.transfers w1
              with ⟨res2, w2, t2⟩
            cases res2 with
            | error e =>
              refine .transferFailed hmon currentBlock hh hgt events w t hev w1 t1 hr1
                e w2 t2 hr2 ?_
              rw [monitorBlocks_transferFailed l s hmon hh hgt hev hr1 (e := e) (by rw [hr2]),
                hr2]
            | ok u2 =>
              exact .advanced hmon currentBlock hh hgt events w t hev w1 t1 hr1 w2 t2 hr2
                (monitorBlocks_advanced l s hmon hh hgt hev hr1 hr2)
      · exact .idle hmon currentBlock hh (not_lt.mp hgt)
          (monitorBlocks_idle l s hmon hh (not_lt.mp hgt))

/-! ## What the fetch leaves in the trace and in the world -/

theorem parseRegistrationEvents_trace {σ : Type} (p : Provider σ)
    (events : List (RawLog AssetRegisteredArgs)) (w : σ) :
    ∀ e ∈ (parseRegistrationEvents p events w).2.2, e.isGetBlock = true := by
  induction events generalizing w with
  | nil => intro e he; cases he
  | cons event rest ih =>
    intro e he
    simp only [parseRegistrationEvents] at he
    split at he <;>
    · rcases List.mem_cons.mp he with rfl | he
      · rfl
      · exact ih _ e he

theorem parseTransferEvents_trace {σ : Type} (p : Provider σ)
    (events : List (RawLog OwnershipTransferredArgs)) (w : σ) :
    ∀ e ∈ (parseTransferEvents p events w).2.2, e.isGetBlock = true := by
  induction events generalizing w with
  | nil => intro e he; cases he
  | cons event rest ih =>
    intro e he
    simp only [parseTransferEvents] at he
    split at he <;>
    · rcases List.mem_cons.mp he with rfl | he
      · rfl
      · exact ih _ e he

theorem parseRegistrationEvents_keeps {σ : Type} (p : Provider σ) {inv : σ → Prop}
    (hp : p.Keeps inv) (events : List (RawLog AssetRegisteredArgs)) (w : σ) (hw : inv w) :
    inv (parseRegistrationEvents p events w).2.1 := by
  induction events generalizing w with
  | nil => exact hw
  | cons event rest ih =>
    simp only [parseRegistrationEvents]
    split <;> exact ih _ (hp.2.2.2 _ _ hw)

theorem parseTransferEvents_keeps {σ : Type} (p : Provider σ) {inv : σ → Prop}
    (hp : p.Keeps inv) (events : List (RawLog OwnershipTransferredArgs)) (w : σ) (hw : inv w) :
    inv (parseTransferEvents p events w).2.1 := by
  induction events generalizing w with
  | nil => exact hw
  | cons event rest ih =>
    simp only [parseTransferEvents]
    split <;> exact ih _ (hp.2.2.2 _ _ hw)

/-- The three outcomes of `getEventsByBlockRange`. -/
theorem getEventsByBlockRange_cases {σ : Type} (p : Provider σ) (a b : Int) (w : σ) :
    (∃ e, (p.queryFilterAssetRegistered a b w).1 = .error e ∧
      getEventsByBlockRange p a b w =
        { result := .error e
          world := (p.queryFilterAssetRegistered a b w).2
          trace := [Effect.queryFilter .AssetRegistered a b false] }) ∨
    (∃ regLogs e, (p.queryFilterAssetRegistered a b w).1 = .ok regLogs ∧
      (p.queryFilterOwnershipTransferred a b (p.queryFilterAssetRegistered a b w).2).1 =
        .error e ∧
      getEventsByBlockRange p a b w =
        { result := .error e
          world := (p.queryFilterOwnershipTransferred a b
            (p.queryFilterAssetRegistered a b w).2).2
          trace := [Effect.queryFilter .AssetRegistered a b true,
                    Effect.queryFilter .OwnershipTransferred a b false] }) ∨
    (∃ regLogs xferLogs, (p.queryFilterAssetRegistered a b w).1 = .ok regLogs ∧
      (p.queryFilterOwnershipTransferred a b (p.queryFilterAssetRegistered a b w).2).1 =
        .ok xferLogs ∧
      getEventsByBlockRange p a b w =
        { result := .ok
            { registrations := (parseRegistrationEvents p regLogs
                (p.queryFilterOwnershipTransferred a b
                  (p.queryFilterAssetRegistered a b w).2).2).1
              transfers := (parseTransferEvents p xferLogs
                (parseRegistrationEvents p regLogs
                  (p.queryFilterOwnershipTransferred a b
                    (p.queryFilterAssetRegistered a b w).2).2).2.1).1 }
          world := (parseTransferEvents p xferLogs
            (parseRegistrationEvents p regLogs
              (p.queryFilterOwnershipTransferred a b
                (p.queryFilterAssetRegistered a b w).2).2).2.1).2.1
          trace := Effect.queryFilter .AssetRegistered a b true ::
            Effect.queryFilter .OwnershipTransferred a b true ::
            ((parseRegistrationEvents p regLogs
                (p.queryFilterOwnershipTransferred a b
                  (p.queryFilterAssetRegistered a b w).2).2).2.2 ++
              (parseTransferEvents p xferLogs
                (parseRegistrationEvents p regLogs
                  (p.queryFilterOwnershipTransferred a b
                    (p.queryFilterAssetRegistered a b w).2).2).2.1).2.2) }) := by
  cases h1 : (p.queryFilterAssetRegistered a b w).1 with
  | error e =>
    exact Or.inl ⟨e, rfl, by simp [getEventsByBlockRange, h1]⟩
  | ok regLogs =>
    cases h2 : (p.queryFilterOwnershipTransferred a b
        (p.queryFilterAssetRegistered a b w).2).1 with
    | error e =>
      exact Or.inr (Or.inl ⟨regLogs, e, rfl, rfl, by simp [getEventsByBlockRange, h1, h2]⟩)
    | ok xferLogs =>
      exact Or.inr (Or.inr ⟨regLogs, xferLogs, rfl, rfl,
        by simp [getEventsByBlockRange, h1, h2]⟩)

/-- The fetch invokes no persistence callback. -/
theorem getEventsByBlockRange_no_callback {σ : Type} (p : Provider σ) (a b : Int) (w : σ) :
    ∀ e ∈ (getEventsByBlockRange p a b w).trace, e.isCallback = false := by
  intro e he
  rcases getEventsByBlockRange_cases p a b w with ⟨_, _, heq⟩ | ⟨_, _, _, _, heq⟩ |
    ⟨regLogs, xferLogs, _, _, heq⟩
  · rw [heq] at he
    simp only [List.mem_singleton] at he
    subst he; rfl
  · rw [heq] at he
    simp only [List.mem_cons, List.mem_singleton, List.not_mem_nil, or_false] at he
    rcases he with rfl | rfl <;> rfl
  · rw [heq] at he
    simp only [List.mem_cons, List.mem_append] at he
    rcases he with rfl | rfl | he | he
    · rfl
    · rfl
    · have := parseRegistrationEvents_trace p _ _ e he
      cases e <;> simp_all [Effect.isGetBlock, Effect.isCallback]
    · have := parseTransferEvents_trace p _ _ e he
      cases e <;> simp_all [Effect.isGetBlock, Effect.isCallback]

theorem getEventsByBlockRange_keeps {σ : Type} (p : Provider σ) {inv : σ → Prop}
    (hp : p.Keeps inv) (a b : Int) (w : σ) (hw : inv w) :
    inv (getEventsByBlockRange p a b w).world := by
  rcases getEventsByBlockRange_cases p a b w with ⟨_, _, heq⟩ | ⟨_, _, _, _, heq⟩ |
    ⟨regLogs, xferLogs, _, _, heq⟩
  · rw [heq]; exact hp.2.1 _ _ _ hw
  · rw [heq]; exact hp.2.2.1 _ _ _ (hp.2.1 _ _ _ hw)
  · rw [heq]
    exact parseTransferEvents_keeps p hp _ _
      (parseRegistrationEvents_keeps p hp _ _ (hp.2.2.1 _ _ _ (hp.2.1 _ _ _ hw)))

/-- The provider of the server never touches the database. -/
theorem serverProvider_keeps {ν : Type} (p : Provider ν) (inv : Store → Prop) :
    (serverProvider p).Keeps (fun w => inv w.db) :=
  ⟨fun _ h => h, fun _ _ _ h => h, fun _ _ _ h => h, fun _ _ h => h⟩

/-! ## The two delivery loops -/

theorem processRegistrations_none {σ : Type} (events : List RegistrationEvent) (w : σ) :
    processRegistrations none events w = { result := .ok (), world := w, trace := [] } := by
  induction events with
  | nil => rfl
  | cons event rest ih => simpa [processRegistrations] using ih

theorem processTransfers_none {σ : Type} (events : List TransferEvent) (w : σ) :
    processTransfers none events w = { result := .ok (), world := w, trace := [] } := by
  induction events with
  | nil => rfl
  | cons event rest ih => simpa [processTransfers] using ih

theorem processRegistrations_cons_error {σ : Type} (f : Callback σ RegistrationEvent)
    (event : RegistrationEvent) (rest : List RegistrationEvent) (w : σ) {e : Failure}
    (h : (f event w).1 = .error e) :
    processRegistrations (some f) (event :: rest) w =
      { result := .error e, world := (f event w).2,
        trace := [Effect.onAssetRegistered event false] } := by
  simp [processRegistrations, h]

theorem processRegistrations_cons_ok {σ : Type} (f : Callback σ RegistrationEvent)
    (event : RegistrationEvent) (rest : List RegistrationEvent) (w : σ)
    (h : (f event w).1 = .ok ()) :
    processRegistrations (some f) (event :: rest) w =
      { result := (processRegistrations (some f) rest (f event w).2).result
        world := (processRegistrations (some f) rest (f event w).2).world
        trace := Effect.onAssetRegistered event true ::
          (processRegistrations (some f) rest (f event w).2).trace } := by
  simp [processRegistrations, h]

theorem processTransfers_cons_error {σ : Type} (f : Callback σ TransferEvent)
    (event : TransferEvent) (rest : List TransferEvent) (w : σ) {e : Failure}
    (h : (f event w).1 = .error e) :
    processTransfers (some f) (event :: rest) w =
      { result := .error e, world := (f event w).2,
        trace := [Effect.onOwnershipTransferred event false] } := by
  simp [processTransfers, h]

theorem processTransfers_cons_ok {σ : Type} (f : Callback σ TransferEvent)
    (event : TransferEvent) (rest : List TransferEvent) (w : σ)
    (h : (f event w).1 = .ok ()) :
    processTransfers (some f) (event :: rest) w =
      { result := (processTransfers (some f) rest (f event w).2).result
        world := (processTransfers (some f) rest (f event w).2).world
        trace := Effect.onOwnershipTransferred event true ::
          (processTransfers (some f) rest (f event w).2).trace } := by
  simp [processTransfers, h]

/-- A registration loop that returns has handed every event to the callback,
in order, and every invocation has returned. -/
theorem processRegistrations_ok_trace {σ : Type} (f : Callback σ RegistrationEvent)
    (events : List RegistrationEvent) (w : σ)
    (h : (processRegistrations (some f) events w).result = .ok ()) :
    (processRegistrations (some f) events w).trace = deliveredRegistrations events := by
  induction events generalizing w with
  | nil => rfl
  | cons event rest ih =>
    cases hf : (f event w).1 with
    | error e => rw [processRegistrations_cons_error f event rest w hf] at h; cases h
    | ok u =>
      rw [processRegistrations_cons_ok f event rest w hf] at h ⊢
      simp only [deliveredRegistrations, List.map_cons, List.cons.injEq, true_and]
      exact ih _ h

theorem processTransfers_ok_trace {σ : Type} (f : Callback σ TransferEvent)
    (events : List TransferEvent) (w : σ)
    (h : (processTransfers (some f) events w).result = .ok ()) :
    (processTransfers (some f) events w).trace = deliveredTransfers events := by
  induction events generalizing w with
  | nil => rfl
  | cons event rest ih =>
    cases hf : (f event w).1 with
    | error e => rw [processTransfers_cons_error f event rest w hf] at h; cases h
    | ok u =>
      rw [processTransfers_cons_ok f event rest w hf] at h ⊢
      simp only [deliveredTransfers, List.map_cons, List.cons.injEq, true_and]
      exact ih _ h

/-- A registration loop that throws ends with an invocation that threw; the
events before it were delivered and none after it was tried. -/
theorem processRegistrations_error_trace {σ : Type} (cb : Option (Callback σ RegistrationEvent))
    (events : List RegistrationEvent) (w : σ) {e : Failure}
    (h : (processRegistrations cb events w).result = .error e) :
    ∃ before event after, events = before ++ event :: after ∧
      (processRegistrations cb events w).trace =
        deliveredRegistrations before ++ [Effect.onAssetRegistered event false] := by
  cases cb with
  | none => rw [processRegistrations_none] at h; cases h
  | some f =>
    induction events generalizing w with
    | nil => cases h
    | cons event rest ih =>
      cases hf : (f event w).1 with
      | error e1 =>
        exact ⟨[], event, rest, rfl, by rw [processRegistrations_cons_error f event rest w hf]; rfl⟩
      | ok u =>
        rw [processRegistrations_cons_ok f event rest w hf] at h ⊢
        obtain ⟨before, ev, after, hsplit, htrace⟩ := ih _ h
        exact ⟨event :: before, ev, after, by rw [hsplit]; rfl, by
          simp only [htrace, deliveredRegistrations, List.map_cons, List.cons_append]⟩

theorem processTransfers_error_trace {σ : Type} (cb : Option (Callback σ TransferEvent))
    (events : List TransferEvent) (w : σ) {e : Failure}
    (h : (processTransfers cb events w).result = .error e) :
    ∃ before event after, events = before ++ event :: after ∧
      (processTransfers cb events w).trace =
        deliveredTransfers before ++ [Effect.onOwnershipTransferred event false] := by
  cases cb with
  | none => rw [processTransfers_none] at h; cases h
  | some f =>
    induction events generalizing w with
    | nil => cases h
    | cons event rest ih =>
      cases hf : (f event w).1 with
      | error e1 =>
        exact ⟨[], event, rest, rfl, by rw [processTransfers_cons_error f event rest w hf]; rfl⟩
      | ok u =>
        rw [processTransfers_cons_ok f event rest w hf] at h ⊢
        obtain ⟨before, ev, after, hsplit, htrace⟩ := ih _ h
        exact ⟨event :: before, ev, after, by rw [hsplit]; rfl, by
          simp only [htrace, deliveredTransfers, List.map_cons, List.cons_append]⟩

/-- A loop that returns contains no invocation that threw. -/
theorem processRegistrations_ok_no_failure {σ : Type}
    (cb : Option (Callback σ RegistrationEvent)) (events : List RegistrationEvent) (w : σ)
    (h : (processRegistrations cb events w).result = .ok ()) :
    ∀ e ∈ (processRegistrations cb events w).trace, e.isFailedCallback = false := by
  cases cb with
  | none => rw [processRegistrations_none]; intro e he; cases he
  | some f =>
    rw [processRegistrations_ok_trace f events w h]
    intro e he
    obtain ⟨event, _, rfl⟩ := List.mem_map.mp he
    rfl

theorem processTransfers_ok_no_failure {σ : Type}
    (cb : Option (Callback σ TransferEvent)) (events : List TransferEvent) (w : σ)
    (h : (processTransfers cb events w).result = .ok ()) :
    ∀ e ∈ (processTransfers cb events w).trace, e.isFailedCallback = false := by
  cases cb with
  | none => rw [processTransfers_none]; intro e he; cases he
  | some f =>
    rw [processTransfers_ok_trace f events w h]
    intro e he
    obtain ⟨event, _, rfl⟩ := List.mem_map.mp he
    rfl

/-! ## The watermark -/

/-- A run of `monitorBlocks` either leaves the watermark as it was or assigns
it a height above it. -/
theorem monitorBlocks_watermark {σ : Type} (l : Listener σ) (s : MonitorState σ) :
    (monitorBlocks l s).1.lastProcessedBlock = s.lastProcessedBlock ∨
      s.lastProcessedBlock < (monitorBlocks l s).1.lastProcessedBlock := by
  cases monitorBlocks_path l s with
  | stopped _ heq => rw [heq]; exact Or.inl rfl
  | heightFailed _ _ _ heq => rw [heq]; exact Or.inl rfl
  | idle _ _ _ _ heq => rw [heq]; exact Or.inl rfl
  | fetchFailed _ _ _ _ _ _ _ _ heq => rw [heq]; exact Or.inl rfl
  | registrationFailed _ _ _ _ _ _ _ _ _ _ _ _ heq => rw [heq]; exact Or.inl rfl
  | transferFailed _ _ _ _ _ _ _ _ _ _ _ _ _ _ _ heq => rw [heq]; exact Or.inl rfl
  | advanced _ _ _ hgt _ _ _ _ _ _ _ _ _ _ heq => rw [heq]; exact Or.inr hgt

/-- When `monitorBlocks` is the only writer of `lastProcessedBlock`: in every
sequence of its runs, for every listener (whatever heights the node returns
and whichever of the queries, block lookups and callbacks fail), the value of
the variable after a run is greater than or equal to its value before that
run. -/
theorem watermark_monotone {σ : Type} (l : Listener σ) (s : MonitorState σ) (n : Nat) :
    (cycles l s n).lastProcessedBlock ≤ (cycles l s (n + 1)).lastProcessedBlock := by
  show (cycles l s n).lastProcessedBlock ≤
    (monitorBlocks l (cycles l s n)).1.lastProcessedBlock
  rcases monitorBlocks_watermark l (cycles l s n) with h | h
  · exact le_of_eq h.symm
  · exact le_of_lt h

/-! ## A callback that throws -/

theorem isCallback_of_isFailedCallback {e : Effect} (h : e.isFailedCallback = true) :
    e.isCallback = true := by
  cases e <;> simp_all [Effect.isFailedCallback, Effect.isCallback]

/-- A run of `monitorBlocks` in which a persistence callback threw leaves the
watermark where it was. -/
theorem watermark_kept_of_failed_callback {σ : Type} (l : Listener σ) (s : MonitorState σ)
    (h : ∃ e ∈ (monitorBlocks l s).2, e.isFailedCallback = true) :
    (monitorBlocks l s).1.lastProcessedBlock = s.lastProcessedBlock := by
  cases monitorBlocks_path l s with
  | stopped _ heq => rw [heq]
  | heightFailed _ _ _ heq => rw [heq]
  | idle _ _ _ _ heq => rw [heq]
  | fetchFailed _ _ _ _ _ _ _ _ heq => rw [heq]
  | registrationFailed _ _ _ _ _ _ _ _ _ _ _ _ heq => rw [heq]
  | transferFailed _ _ _ _ _ _ _ _ _ _ _ _ _ _ _ heq => rw [heq]
  | advanced _ currentBlock _ _ events w t hev w1 t1 hr1 w2 t2 hr2 heq =>
    exfalso
    obtain ⟨e, he, hfail⟩ := h
    rw [heq] at he
    have ht : ∀ x ∈ t, x.isCallback = false := by
      have := getEventsByBlockRange_no_callback l.provider (s.lastProcessedBlock + 1)
        currentBlock (l.provider.getBlockNumber s.world).2
      rw [hev] at this; exact this
    have ht1 : ∀ x ∈ t1, x.isFailedCallback = false := by
      have := processRegistrations_ok_no_failure l.onAssetRegistered events.registrations w
        (by rw [hr1])
      rw [hr1] at this; exact this
    have ht2 : ∀ x ∈ t2, x.isFailedCallback = false := by
      have := processTransfers_ok_no_failure l.onOwnershipTransferred events.transfers w1
        (by rw [hr2])
      rw [hr2] at this; exact this
    simp only [List.mem_cons, List.mem_append, List.mem_singleton, List.not_mem_nil,
      or_false] at he
    rcases he with (((rfl | he) | he) | he) | rfl | rfl
    · cases hfail
    · have := ht e he
      rw [isCallback_of_isFailedCallback hfail] at this; cases this
    · rw [ht1 e he] at hfail; cases hfail
    · rw [ht2 e he] at hfail; cases hfail
    · cases hfail
    · cases hfail

/-! ## The database callbacks of the server -/

theorem onAssetRegistered_ok {ν : Type} (srv : Server ν) (data : RegistrationEvent)
    (w : ServerWorld ν) (h : (onAssetRegistered srv data w).1 = .ok ()) :
    fitsRegistration data = true ∧
      (onAssetRegistered srv data w).2.db = applyRegistration w.db data := by
  unfold onAssetRegistered at h ⊢
  unfold applyRegistration
  cases hc : (srv.poolReaches w.net).1 with
  | false => simp [hc] at h
  | true =>
    cases hins : insertAssetRegistration w.db data with
    | error e => simp [hc, hins] at h
    | ok x =>
      obtain ⟨i, db1⟩ := x
      refine ⟨?_, by simp [hc, hins]⟩
      cases hfit : fitsRegistration data with
      | true => rfl
      | false =>
        unfold fitsRegistration at hfit
        simp [insertAssetRegistration, hfit] at hins

theorem onAssetRegistered_error {ν : Type} (srv : Server ν) (data : RegistrationEvent)
    (w : ServerWorld ν) {e : Failure} (h : (onAssetRegistered srv data w).1 = .error e) :
    (onAssetRegistered srv data w).2.db = w.db := by
  unfold onAssetRegistered at h ⊢
  cases hc : (srv.poolReaches w.net).1 with
  | false => simp [hc]
  | true =>
    cases hins : insertAssetRegistration w.db data with
    | error e => simp [hc, hins]
    | ok x => simp [hc, hins] at h

theorem onOwnershipTransferred_registrations {ν : Type} (srv : Server ν) (data : TransferEvent)
    (w : ServerWorld ν) :
    (onOwnershipTransferred srv data w).2.db.asset_registrations = w.db.asset_registrations := by
  unfold onOwnershipTransferred
  cases hc : (srv.poolReaches w.net).1 with
  | false => simp [hc]
  | true =>
    cases hfit : fitsColumns data.assetId data.timestamp data.blockNumber <;>
      simp [hc, insertOwnershipTransfer, hfit]

/-- The database after the server's registration loop: the records up to the
first one whose insert threw have been upserted, each of them accepted; when
the loop returns, that is every record. -/
theorem processRegistrations_server {ν : Type} (srv : Server ν)
    (events : List RegistrationEvent) (w : ServerWorld ν) :
    ∃ done, (∀ d ∈ done, fitsRegistration d = true) ∧
      (processRegistrations (some (onAssetRegistered srv)) events w).world.db =
        done.foldl applyRegistration w.db ∧
      ((processRegistrations (some (onAssetRegistered srv)) events w).result = .ok () →
        done = events) := by
  induction events generalizing w with
  | nil => exact ⟨[], (fun d hd => by cases hd), rfl, fun _ => rfl⟩
  | cons event rest ih =>
    cases hf : (onAssetRegistered srv event w).1 with
    | error e =>
      rw [processRegistrations_cons_error _ event rest w hf]
      exact ⟨[], (fun d hd => by cases hd), onAssetRegistered_error srv event w hf,
        (fun h => by cases h)⟩
    | ok u =>
      rw [processRegistrations_cons_ok _ event rest w hf]
      obtain ⟨hfit, hdb⟩ := onAssetRegistered_ok srv event w hf
      obtain ⟨done, hdone, hworld, hall⟩ := ih (onAssetRegistered srv event w).2
      refine ⟨event :: done, ?_, ?_, ?_⟩
      · intro d hd
        rcases List.mem_cons.mp hd with rfl | hd
        · exact hfit
        · exact hdone d hd
      · show (processRegistrations (some (onAssetRegistered srv)) rest
          (onAssetRegistered srv event w).2).world.db = _
        rw [hworld, hdb]; rfl
      · intro h
        rw [hall h]

theorem processTransfers_server {ν : Type} (srv : Server ν)
    (events : List TransferEvent) (w : ServerWorld ν) :
    (processTransfers (some (onOwnershipTransferred srv)) events w).world.db.asset_registrations
      = w.db.asset_registrations := by
  induction events generalizing w with
  | nil => rfl
  | cons event rest ih =>
    cases hf : (onOwnershipTransferred srv event w).1 with
    | error e =>
      rw [processTransfers_cons_error _ event rest w hf]
      exact onOwnershipTransferred_registrations srv event w
    | ok u =>
      rw [processTransfers_cons_ok _ event rest w hf]
      show (processTransfers (some (onOwnershipTransferred srv)) rest
        (onOwnershipTransferred srv event w).2).world.db.asset_registrations = _
      rw [ih, onOwnershipTransferred_registrations]

/-! ## The callbacks seen in a trace -/

theorem filter_isCallback_deliveredRegistrations (events : List RegistrationEvent) :
    (deliveredRegistrations events).filter Effect.isCallback = deliveredRegistrations events := by
  rw [List.filter_eq_self]
  intro e he
  obtain ⟨event, _, rfl⟩ := List.mem_map.mp he
  rfl

theorem filter_isCallback_deliveredTransfers (events : List TransferEvent) :
    (deliveredTransfers events).filter Effect.isCallback = deliveredTransfers events := by
  rw [List.filter_eq_self]
  intro e he
  obtain ⟨event, _, rfl⟩ := List.mem_map.mp he
  rfl

theorem filter_isCallback_eq_nil {t : List Effect} (h : ∀ e ∈ t, e.isCallback = false) :
    t.filter Effect.isCallback = [] := by
  rw [List.filter_eq_nil_iff]
  intro e he
  rw [h e he]
  exact Bool.false_ne_true

theorem delivered_no_failure (regs : List RegistrationEvent) (xfers : List TransferEvent) :
    ∀ e ∈ deliveredRegistrations regs ++ deliveredTransfers xfers,
      e.isFailedCallback = false := by
  intro e he
  rcases List.mem_append.mp he with he | he
  · obtain ⟨event, _, rfl⟩ := List.mem_map.mp he
    rfl
  · obtain ⟨event, _, rfl⟩ := List.mem_map.mp he
    rfl

theorem deliveredTransfers_injective {a b : List TransferEvent}
    (h : deliveredTransfers a = deliveredTransfers b) : a = b := by
  induction a generalizing b with
  | nil =>
    cases b with
    | nil => rfl
    | cons y b => cases h
  | cons x a ih =>
    cases b with
    | nil => cases h
    | cons y b =>
      simp only [deliveredTransfers, List.map_cons, List.cons.injEq,
        Effect.onOwnershipTransferred.injEq, and_true] at h
      rw [h.1, ih h.2]

/-- Two traces of delivered events agree only when the events agree. -/
theorem delivered_injective {a c : List RegistrationEvent} {b d : List TransferEvent}
    (h : deliveredRegistrations a ++ deliveredTransfers b =
      deliveredRegistrations c ++ deliveredTransfers d) : a = c ∧ b = d := by
  induction a generalizing c with
  | nil =>
    cases c with
    | nil => exact ⟨rfl, deliveredTransfers_injective h⟩
    | cons y c =>
      cases b with
      | nil => cases h
      | cons z b => simp [deliveredRegistrations, deliveredTransfers] at h
  | cons x a ih =>
    cases c with
    | nil =>
      cases d with
      | nil => cases h
      | cons z d => simp [deliveredRegistrations, deliveredTransfers] at h
    | cons y c =>
      simp only [deliveredRegistrations, List.map_cons, List.cons_append, List.cons.injEq,
        Effect.onAssetRegistered.injEq, and_true] at h
      obtain ⟨h1, h2⟩ := ih h.2
      exact ⟨by rw [h.1, h1], h2⟩

/-- The registration table after a run of `monitorBlocks` in the server: some
accepted records have been upserted into the table the run started from, and
when the callbacks seen in the trace are exactly the completed deliveries of
`regs` and `xfers`, these records are `regs`. -/
theorem monitorBlocks_server_table {ν : Type} (srv : Server ν)
    (s : MonitorState (ServerWorld ν)) :
    ∃ done, (∀ d ∈ done, fitsRegistration d = true) ∧
      (monitorBlocks (startEventListener srv) s).1.world.db.asset_registrations =
        (done.foldl applyRegistration s.world.db).asset_registrations ∧
      ∀ regs xfers,
        (monitorBlocks (startEventListener srv) s).2.filter Effect.isCallback =
          deliveredRegistrations regs ++ deliveredTransfers xfers → done = regs := by
  have hnil : ∀ {regs : List RegistrationEvent} {xfers : List TransferEvent},
      ([] : List Effect) = deliveredRegistrations regs ++ deliveredTransfers xfers →
      [] = regs := by
    intro regs xfers h
    cases regs with
    | nil => rfl
    | cons x regs => cases h
  have hfetch : ∀ (a b : Int) (w : ServerWorld ν),
      (getEventsByBlockRange (serverProvider srv.provider) a b w).world.db = w.db := by
    intro a b w
    exact getEventsByBlockRange_keeps (serverProvider srv.provider)
      (serverProvider_keeps srv.provider (fun db => db = w.db)) a b w rfl
  cases monitorBlocks_path (startEventListener srv) s with
  | stopped _ heq =>
    refine ⟨[], (fun d hd => by cases hd), (by rw [heq]; rfl), ?_⟩
    intro regs xfers h
    rw [heq] at h
    exact hnil h
  | heightFailed _ _ _ heq =>
    refine ⟨[], (fun d hd => by cases hd), (by rw [heq]; rfl), ?_⟩
    intro regs xfers h
    rw [heq] at h
    exact hnil h
  | idle _ _ _ _ heq =>
    refine ⟨[], (fun d hd => by cases hd), (by rw [heq]; rfl), ?_⟩
    intro regs xfers h
    rw [heq] at h
    exact hnil h
  | fetchFailed _ currentBlock _ _ e w t hev heq =>
    have hw : w.db = s.world.db := by
      have := hfetch (s.lastProcessedBlock + 1) currentBlock
        ((startEventListener srv).provider.getBlockNumber s.world).2
      rw [show serverProvider srv.provider = (startEventListener srv).provider from rfl,
        hev] at this
      exact this
    have ht : ∀ x ∈ t, x.isCallback = false := by
      have := getEventsByBlockRange_no_callback (startEventListener srv).provider
        (s.lastProcessedBlock + 1) currentBlock
        ((startEventListener srv).provider.getBlockNumber s.world).2
      rw [hev] at this; exact this
    refine ⟨[], (fun d hd => by cases hd), ?_, ?_⟩
    · rw [heq]
      show w.db.asset_registrations = _
      rw [hw]; rfl
    intro regs xfers h
    rw [heq] at h
    simp only [List.cons_append, List.filter_cons, Effect.isCallback, List.filter_append,
      filter_isCallback_eq_nil ht, List.filter_nil, List.append_nil] at h
    exact hnil (by simpa using h)
  | registrationFailed _ currentBlock _ _ events w t hev e w1 t1 hr1 heq =>
    have hw : w.db = s.world.db := by
      have := hfetch (s.lastProcessedBlock + 1) currentBlock
        ((startEventListener srv).provider.getBlockNumber s.world).2
      rw [show serverProvider srv.provider = (startEventListener srv).provider from rfl,
        hev] at this
      exact this
    obtain ⟨done, hdone, hdb, _⟩ := processRegistrations_server srv events.registrations w
    rw [show some (onAssetRegistered srv) = (startEventListener srv).onAssetRegistered from rfl,
      hr1] at hdb
    refine ⟨done, hdone, ?_, ?_⟩
    · rw [heq]
      show w1.db.asset_registrations = _
      rw [hdb, hw]
    intro regs xfers h
    exfalso
    obtain ⟨before, ev, after, _, htrace⟩ := processRegistrations_error_trace
      (startEventListener srv).onAssetRegistered events.registrations w (e := e) (by rw [hr1])
    rw [hr1] at htrace
    have hmem : Effect.onAssetRegistered ev false ∈
        (monitorBlocks (startEventListener srv) s).2.filter Effect.isCallback := by
      rw [heq, List.mem_filter]
      refine ⟨?_, rfl⟩
      show _ ∈ Effect.getBlockNumber (some currentBlock) :: t ++ t1 ++ _
      rw [show t1 = _ from htrace]
      simp
    rw [h] at hmem
    have := delivered_no_failure regs xfers _ hmem
    cases this
  | transferFailed _ currentBlock _ _ events w t hev w1 t1 hr1 e w2 t2 hr2 heq =>
    have hw : w.db = s.world.db := by
      have := hfetch (s.lastProcessedBlock + 1) currentBlock
        ((startEventListener srv).provider.getBlockNumber s.world).2
      rw [show serverProvider srv.provider = (startEventListener srv).provider from rfl,
        hev] at this
      exact this
    obtain ⟨done, hdone, hdb, _⟩ := processRegistrations_server srv events.registrations w
    rw [show some (onAssetRegistered srv) = (startEventListener srv).onAssetRegistered from rfl,
      hr1] at hdb
    have hx := processTransfers_server srv events.transfers w1
    rw [show some (onOwnershipTransferred srv) =
      (startEventListener srv).onOwnershipTransferred from rfl, hr2] at hx
    refine ⟨done, hdone, ?_, ?_⟩
    · rw [heq]
      show w2.db.asset_registrations = _
      rw [hx, hdb, hw]
    intro regs xfers h
    exfalso
    obtain ⟨before, ev, after, _, htrace⟩ := processTransfers_error_trace
      (startEventListener srv).onOwnershipTransferred events.transfers w1 (e := e)
      (by rw [hr2])
    rw [hr2] at htrace
    have hmem : Effect.onOwnershipTransferred ev false ∈
        (monitorBlocks (startEventListener srv) s).2.filter Effect.isCallback := by
      rw [heq, List.mem_filter]
      refine ⟨?_, rfl⟩
      show _ ∈ Effect.getBlockNumber (some currentBlock) :: t ++ t1 ++ t2 ++ _
      rw [show t2 = _ from htrace]
      simp
    rw [h] at hmem
    have := delivered_no_failure regs xfers _ hmem
    cases this
  | advanced _ currentBlock _ _ events w t hev w1 t1 hr1 w2 t2 hr2 heq =>
    have hw : w.db = s.world.db := by
      have := hfetch (s.lastProcessedBlock + 1) currentBlock
        ((startEventListener srv).provider.getBlockNumber s.world).2
      rw [show serverProvider srv.provider = (startEventListener srv).provider from rfl,
        hev] at this
      exact this
    have ht : ∀ x ∈ t, x.isCallback = false := by
      have := getEventsByBlockRange_no_callback (startEventListener srv).provider
        (s.lastProcessedBlock + 1) currentBlock
        ((startEventListener srv).provider.getBlockNumber s.world).2
      rw [hev] at this; exact this
    obtain ⟨done, hdone, hdb, hall⟩ := processRegistrations_server srv events.registrations w
    rw [show some (onAssetRegistered srv) = (startEventListener srv).onAssetRegistered from rfl,
      hr1] at hdb hall
    have hdone_eq : done = events.registrations := hall rfl
    have hx := processTransfers_server srv events.transfers w1
    rw [show some (onOwnershipTransferred srv) =
      (startEventListener srv).onOwnershipTransferred from rfl, hr2] at hx
    have ht1 : t1 = deliveredRegistrations events.registrations := by
      have := processRegistrations_ok_trace (onAssetRegistered srv) events.registrations w
        (by rw [show some (onAssetRegistered srv) =
          (startEventListener srv).onAssetRegistered from rfl, hr1])
      rw [show some (onAssetRegistered srv) =
        (startEventListener srv).onAssetRegistered from rfl, hr1] at this
      exact this
    have ht2 : t2 = deliveredTransfers events.transfers := by
      have := processTransfers_ok_trace (onOwnershipTransferred srv) events.transfers w1
        (by rw [show some (onOwnershipTransferred srv) =
          (startEventListener srv).onOwnershipTransferred from rfl, hr2])
      rw [show some (onOwnershipTransferred srv) =
        (startEventListener srv).onOwnershipTransferred from rfl, hr2] at this
      exact this
    refine ⟨done, hdone, ?_, ?_⟩
    · rw [heq]
      show w2.db.asset_registrations = _
      rw [hx, hdb, hw]
    intro regs xfers h
    rw [heq] at h
    simp only [List.cons_append, List.filter_cons, Effect.isCallback, List.filter_append,
      filter_isCallback_eq_nil ht, List.filter_nil, List.append_nil, List.nil_append, ht1, ht2,
      filter_isCallback_deliveredRegistrations, filter_isCallback_deliveredTransfers] at h
    rw [hdone_eq]
    exact (delivered_injective (by simpa using h)).1

/-! ## Partial failure and retry -/

/-- C3. Partial-failure safety in the server: when a persistence callback
throws during a run of `monitorBlocks`, `lastProcessedBlock` keeps its
pre-cycle value; and when in the following run every callback returns, the
events delivered being `regs` and `xfers`, then every record of `regs` has
exactly one row with its `asset_id` in `asset_registrations`, and that row
stores the record's own values unless a later record of `regs` carries the
same `assetId`. -/
theorem partial_failure_safety {ν : Type} (srv : Server ν) (s : MonitorState (ServerWorld ν))
    (regs : List RegistrationEvent) (xfers : List TransferEvent)
    (hunique : UniqueAssetIds s.world.db.asset_registrations)
    (hthrow : ∃ e ∈ (monitorBlocks (startEventListener srv) s).2, e.isFailedCallback = true)
    (hretry : (monitorBlocks (startEventListener srv)
        (monitorBlocks (startEventListener srv) s).1).2.filter Effect.isCallback =
      deliveredRegistrations regs ++ deliveredTransfers xfers) :
    (monitorBlocks (startEventListener srv) s).1.lastProcessedBlock = s.lastProcessedBlock ∧
    ∀ before data after, regs = before ++ data :: after →
      (((monitorBlocks (startEventListener srv)
          (monitorBlocks (startEventListener srv) s).1).1.world.db.asset_registrations.map
            (fun row => row.asset_id)).count data.assetId = 1) ∧
      ((∀ d ∈ after, d.assetId ≠ data.assetId) →
        ∃ row ∈ (monitorBlocks (startEventListener srv)
          (monitorBlocks (startEventListener srv) s).1).1.world.db.asset_registrations,
          Stores row data) := by
  refine ⟨watermark_kept_of_failed_callback _ s hthrow, ?_⟩
  obtain ⟨done1, _, htable1, _⟩ := monitorBlocks_server_table srv s
  have hunique1 : UniqueAssetIds
      (monitorBlocks (startEventListener srv) s).1.world.db.asset_registrations := by
    rw [htable1]
    exact foldl_applyRegistration_unique done1 _ hunique
  obtain ⟨done2, hfit2, htable2, hdone2⟩ :=
    monitorBlocks_server_table srv (monitorBlocks (startEventListener srv) s).1
  have hregs : done2 = regs := hdone2 regs xfers hretry
  subst hregs
  intro before data after hsplit
  rw [htable2]
  have hfit : ∀ d ∈ before ++ data :: after, fitsRegistration d = true := by
    rw [← hsplit]; exact hfit2
  constructor
  · apply count_eq_one_of_unique (foldl_applyRegistration_unique _ _ hunique1)
    apply foldl_applyRegistration_covered hfit2
    rw [hsplit]
    exact List.mem_append_right _ (List.mem_cons_self _ _)
  · intro hlater
    rw [hsplit]
    exact foldl_applyRegistration_stores before data after hfit hlater _

/-- Witness for C3: at watermark 100 the insert of the second of two records
is rejected, the watermark stays at 100, and after the next run assets 7 and
8 have one row each, holding the records' values. -/
theorem partial_failure_safety_witness :
    UniqueAssetIds demoState.world.db.asset_registrations ∧
    Effect.onAssetRegistered demoRecord8 false ∈
      (monitorBlocks (startEventListener demoServer) demoState).2 ∧
    (monitorBlocks (startEventListener demoServer)
        (monitorBlocks (startEventListener demoServer) demoState).1).2.filter
        Effect.isCallback =
      deliveredRegistrations [demoRecord7, demoRecord8] ++ deliveredTransfers [] ∧
    (monitorBlocks (startEventListener demoServer) demoState).1.lastProcessedBlock = 100 ∧
    ((monitorBlocks (startEventListener demoServer)
        (monitorBlocks (startEventListener demoServer) demoState).1).1.world.db.asset_registrations.map
          (fun row => row.asset_id)).count 8 = 1 ∧
    ∃ row ∈ (monitorBlocks (startEventListener demoServer)
        (monitorBlocks (startEventListener demoServer) demoState).1).1.world.db.asset_registrations,
      Stores row demoRecord8 := by
  have hunique : UniqueAssetIds demoState.world.db.asset_registrations := List.nodup_nil
  have hmem : Effect.onAssetRegistered demoRecord8 false ∈
      (monitorBlocks (startEventListener demoServer) demoState).2 := by decide
  have hretry : (monitorBlocks (startEventListener demoServer)
        (monitorBlocks (startEventListener demoServer) demoState).1).2.filter
        Effect.isCallback =
      deliveredRegistrations [demoRecord7, demoRecord8] ++ deliveredTransfers [] := by decide
  have h := partial_failure_safety demoServer demoState [demoRecord7, demoRecord8] []
    hunique ⟨_, hmem, rfl⟩ hretry
  have h8 := h.2 [demoRecord7] demoRecord8 [] rfl
  exact ⟨hunique, hmem, hretry, h.1, h8.1, h8.2 (fun d hd => by cases hd)⟩

/-! ## Delivery before the watermark moves -/

/-- Counterexample to C4 as stated: the node returns the decoded
`AssetRegistered` log of asset 7 for blocks 101..105, the lookup of its block
is rejected, and the run assigns `lastProcessedBlock = 105` without having
invoked any persistence callback. -/
theorem returned_event_dropped :
    demoState.lastProcessedBlock = 100 ∧
    (lossyProvider.queryFilterAssetRegistered 101 105 0).1 = .ok [demoLog7] ∧
    (monitorBlocks (startEventListener lossyServer) demoState).1.lastProcessedBlock = 105 ∧
    (monitorBlocks (startEventListener lossyServer) demoState).2 =
      [Effect.getBlockNumber (some 105),
       Effect.queryFilter .AssetRegistered 101 105 true,
       Effect.queryFilter .OwnershipTransferred 101 105 true,
       Effect.getBlock 103 false,
       Effect.assignLastProcessedBlock 105,
       Effect.setTimeout 5000] := by
  refine ⟨rfl, rfl, ?_, ?_⟩ <;> decide

/-- C4 (amended). In every run of `monitorBlocks` that moves
`lastProcessedBlock` from `w1` to `w2` with `w1 < w2`, with both callbacks
installed: `getEventsByBlockRange` was called on `w1 + 1 .. w2` and returned,
and the steps of the run are the height read, the steps of that fetch, one
completed callback invocation for every record the fetch returned
(registrations first, each kind in the order returned), and only then the
assignment of `w2` and the timer. -/
theorem delivered_before_advance {σ : Type} (l : Listener σ) (s : MonitorState σ)
    (f : Callback σ RegistrationEvent) (g : Callback σ TransferEvent) (w1 w2 : Int)
    (hf : l.onAssetRegistered = some f) (hg : l.onOwnershipTransferred = some g)
    (hbefore : s.lastProcessedBlock = w1)
    (hafter : (monitorBlocks l s).1.lastProcessedBlock = w2) (hlt : w1 < w2) :
    ∃ events,
      (getEventsByBlockRange l.provider (w1 + 1) w2
        (l.provider.getBlockNumber s.world).2).result = .ok events ∧
      (monitorBlocks l s).2 =
        Effect.getBlockNumber (some w2) ::
          (getEventsByBlockRange l.provider (w1 + 1) w2
            (l.provider.getBlockNumber s.world).2).trace ++
          deliveredRegistrations events.registrations ++
          deliveredTransfers events.transfers ++
          [Effect.assignLastProcessedBlock w2, Effect.setTimeout pollDelay] := by
  have hne : (monitorBlocks l s).1.lastProcessedBlock ≠ s.lastProcessedBlock := by
    rw [hafter, hbefore]; exact ne_of_gt hlt
  cases monitorBlocks_path l s with
  | stopped _ heq => rw [heq] at hne; exact absurd rfl hne
  | heightFailed _ _ _ heq => rw [heq] at hne; exact absurd rfl hne
  | idle _ _ _ _ heq => rw [heq] at hne; exact absurd rfl hne
  | fetchFailed _ _ _ _ _ _ _ _ heq => rw [heq] at hne; exact absurd rfl hne
  | registrationFailed _ _ _ _ _ _ _ _ _ _ _ _ heq => rw [heq] at hne; exact absurd rfl hne
  | transferFailed _ _ _ _ _ _ _ _ _ _ _ _ _ _ _ heq => rw [heq] at hne; exact absurd rfl hne
  | advanced _ currentBlock _ _ events w t hev w1' t1 hr1 w2' t2 hr2 heq =>
    have hcur : currentBlock = w2 := by rw [heq] at hafter; exact hafter
    subst hcur
    subst hbefore
    refine ⟨events, by rw [hev], ?_⟩
    have ht1 : t1 = deliveredRegistrations events.registrations := by
      have := processRegistrations_ok_trace f events.registrations w (by rw [← hf, hr1])
      rw [← hf, hr1] at this
      exact this
    have ht2 : t2 = deliveredTransfers events.transfers := by
      have := processTransfers_ok_trace g events.transfers w1' (by rw [← hg, hr2])
      rw [← hg, hr2] at this
      exact this
    rw [heq, hev, ht1, ht2]

/-- Witness for C4 (amended): the recovered server moves the watermark from
100 to 105 after delivering the two records it fetched. -/
theorem delivered_before_advance_witness :
    (100 : Int) < 105 ∧
    (monitorBlocks (startEventListener demoServer) demoStateRecovered).1.lastProcessedBlock
      = 105 ∧
    ∃ events,
      (getEventsByBlockRange (startEventListener demoServer).provider (100 + 1) 105
        ((startEventListener demoServer).provider.getBlockNumber
          demoStateRecovered.world).2).result = .ok events ∧
      (monitorBlocks (startEventListener demoServer) demoStateRecovered).2 =
        Effect.getBlockNumber (some 105) ::
          (getEventsByBlockRange (startEventListener demoServer).provider (100 + 1) 105
            ((startEventListener demoServer).provider.getBlockNumber
              demoStateRecovered.world).2).trace ++
          deliveredRegistrations events.registrations ++
          deliveredTransfers events.transfers ++
          [Effect.assignLastProcessedBlock 105, Effect.setTimeout pollDelay] :=
  ⟨by decide, by decide,
    delivered_before_advance (startEventListener demoServer) demoStateRecovered
      (onAssetRegistered demoServer) (onOwnershipTransferred demoServer) 100 105
      rfl rfl rfl (by decide) (by decide)⟩

/-! ## The range of a cycle -/

/-- A fetch that returns has made exactly the two queries, both over the
range it was given. -/
theorem getEventsByBlockRange_ok_queries {σ : Type} (p : Provider σ) (a b : Int) (w : σ)
    {events : Events} (h : (getEventsByBlockRange p a b w).result = .ok events) :
    (getEventsByBlockRange p a b w).trace.filter Effect.isQuery =
      [Effect.queryFilter .AssetRegistered a b true,
       Effect.queryFilter .OwnershipTransferred a b true] := by
  rcases getEventsByBlockRange_cases p a b w with ⟨_, _, heq⟩ | ⟨_, _, _, _, heq⟩ |
    ⟨regLogs, xferLogs, _, _, heq⟩
  · rw [heq] at h; cases h
  · rw [heq] at h; cases h
  · rw [heq]
    have hnone : ∀ t : List Effect, (∀ e ∈ t, e.isGetBlock = true) →
        t.filter Effect.isQuery = [] := by
      intro t ht
      rw [List.filter_eq_nil_iff]
      intro e he
      have := ht e he
      cases e <;> simp_all [Effect.isGetBlock, Effect.isQuery]
    simp only [List.filter_cons, Effect.isQuery, if_true, List.filter_append,
      hnone _ (parseRegistrationEvents_trace p _ _), hnone _ (parseTransferEvents_trace p _ _),
      List.append_nil]

/-- A fetch that throws has had a query rejected. -/
theorem getEventsByBlockRange_error_query {σ : Type} (p : Provider σ) (a b : Int) (w : σ)
    {e : Failure} (h : (getEventsByBlockRange p a b w).result = .error e) :
    ∃ x ∈ (getEventsByBlockRange p a b w).trace, x.isFailedQuery = true := by
  rcases getEventsByBlockRange_cases p a b w with ⟨_, _, heq⟩ | ⟨_, _, _, _, heq⟩ |
    ⟨regLogs, xferLogs, _, _, heq⟩
  · rw [heq]; exact ⟨_, List.mem_singleton_self _, rfl⟩
  · rw [heq]; exact ⟨_, List.mem_cons_of_mem _ (List.mem_singleton_self _), rfl⟩
  · rw [heq] at h; cases h

theorem filter_isQuery_deliveredRegistrations (events : List RegistrationEvent) :
    (deliveredRegistrations events).filter Effect.isQuery = [] := by
  rw [List.filter_eq_nil_iff]
  intro e he
  obtain ⟨event, _, rfl⟩ := List.mem_map.mp he
  exact Bool.false_ne_true

theorem filter_isQuery_deliveredTransfers (events : List TransferEvent) :
    (deliveredTransfers events).filter Effect.isQuery = [] := by
  rw [List.filter_eq_nil_iff]
  intro e he
  obtain ⟨event, _, rfl⟩ := List.mem_map.mp he
  exact Bool.false_ne_true

/-- The steps of a loop that returned, whether or not a callback is
installed, contain no query. -/
theorem processRegistrations_ok_no_query {σ : Type}
    (cb : Option (Callback σ RegistrationEvent)) (events : List RegistrationEvent) (w : σ)
    (h : (processRegistrations cb events w).result = .ok ()) :
    (processRegistrations cb events w).trace.filter Effect.isQuery = [] := by
  cases cb with
  | none => rw [processRegistrations_none]; rfl
  | some f =>
    rw [processRegistrations_ok_trace f events w h]
    exact filter_isQuery_deliveredRegistrations events

theorem processTransfers_ok_no_query {σ : Type}
    (cb : Option (Callback σ TransferEvent)) (events : List TransferEvent) (w : σ)
    (h : (processTransfers cb events w).result = .ok ()) :
    (processTransfers cb events w).trace.filter Effect.isQuery = [] := by
  cases cb with
  | none => rw [processTransfers_none]; rfl
  | some f =>
    rw [processTransfers_ok_trace f events w h]
    exact filter_isQuery_deliveredTransfers events

/-- C5. Range and advance of a successful cycle: when a run of
`monitorBlocks` at watermark `w` reads the height `h > w`, no `queryFilter`
call is rejected and no persistence callback throws, then the log queries of
the run are exactly one `AssetRegistered` query and one
`OwnershipTransferred` query, both over the inclusive range `[w + 1, h]`,
and the run ends with `lastProcessedBlock = h`. -/
theorem successful_cycle_range {σ : Type} (l : Listener σ) (s : MonitorState σ) (w h : Int)
    (hmon : s.isMonitoring = true) (hw : s.lastProcessedBlock = w)
    (hh : (l.provider.getBlockNumber s.world).1 = .ok h) (hgt : h > w)
    (hqueries : ∀ e ∈ (monitorBlocks l s).2, e.isFailedQuery = false)
    (hcallbacks : ∀ e ∈ (monitorBlocks l s).2, e.isFailedCallback = false) :
    (monitorBlocks l s).2.filter Effect.isQuery =
      [Effect.queryFilter .AssetRegistered (w + 1) h true,
       Effect.queryFilter .OwnershipTransferred (w + 1) h true] ∧
    (monitorBlocks l s).1.lastProcessedBlock = h := by
  subst hw
  cases monitorBlocks_path l s with
  | stopped hoff _ => rw [hmon] at hoff; cases hoff
  | heightFailed _ _ herr _ => rw [hh] at herr; cases herr
  | idle _ currentBlock hcur hle _ =>
    rw [hh] at hcur
    cases hcur
    exact absurd hgt (not_lt.mpr hle)
  | fetchFailed _ currentBlock hcur _ e w t hev heq =>
    exfalso
    obtain ⟨x, hx, hfail⟩ := getEventsByBlockRange_error_query l.provider
      (s.lastProcessedBlock + 1) currentBlock (l.provider.getBlockNumber s.world).2
      (e := e) (by rw [hev])
    rw [hev] at hx
    have := hqueries x (by rw [heq]; simp [hx])
    rw [hfail] at this; cases this
  | registrationFailed _ currentBlock _ _ events w t hev e w1 t1 hr1 heq =>
    exfalso
    obtain ⟨before, ev, after, _, htrace⟩ := processRegistrations_error_trace
      l.onAssetRegistered events.registrations w (e := e) (by rw [hr1])
    rw [hr1] at htrace
    have := hcallbacks (Effect.onAssetRegistered ev false) (by
      rw [heq]
      show _ ∈ Effect.getBlockNumber (some currentBlock) :: t ++ t1 ++ _
      rw [show t1 = _ from htrace]
      simp)
    cases this
  | transferFailed _ currentBlock _ _ events w t hev w1 t1 hr1 e w2 t2 hr2 heq =>
    exfalso
    obtain ⟨before, ev, after, _, htrace⟩ := processTransfers_error_trace
      l.onOwnershipTransferred events.transfers w1 (e := e) (by rw [hr2])
    rw [hr2] at htrace
    have := hcallbacks (Effect.onOwnershipTransferred ev false) (by
      rw [heq]
      show _ ∈ Effect.getBlockNumber (some currentBlock) :: t ++ t1 ++ t2 ++ _
      rw [show t2 = _ from htrace]
      simp)
    cases this
  | advanced _ currentBlock hcur _ events w t hev w1 t1 hr1 w2 t2 hr2 heq =>
    rw [hh] at hcur
    cases hcur
    have hres : (getEventsByBlockRange l.provider (s.lastProcessedBlock + 1) h
        (l.provider.getBlockNumber s.world).2).result = .ok events := by rw [hev]
    have hq := getEventsByBlockRange_ok_queries l.provider (s.lastProcessedBlock + 1) h
      (l.provider.getBlockNumber s.world).2 hres
    rw [hev] at hq
    have hq1 := processRegistrations_ok_no_query l.onAssetRegistered events.registrations w
      (by rw [hr1])
    rw [hr1] at hq1
    have hq2 := processTransfers_ok_no_query l.onOwnershipTransferred events.transfers w1
      (by rw [hr2])
    rw [hr2] at hq2
    refine ⟨?_, by rw [heq]⟩
    rw [heq]
    show List.filter Effect.isQuery (Effect.getBlockNumber (some h) :: t ++ t1 ++ t2 ++
      [Effect.assignLastProcessedBlock h, Effect.setTimeout pollDelay]) = _
    simp only [List.cons_append, List.filter_cons, List.filter_append, List.filter_nil,
      Effect.isQuery, hq1, hq2, List.append_nil]
    simpa using hq

/-- Witness for C5: watermark 100 and height 105 give the two queries over
`[101, 105]` and the watermark 105. -/
theorem successful_cycle_range_witness :
    (105 : Int) > 100 ∧
    (monitorBlocks (startEventListener demoServer) demoStateRecovered).2.filter
        Effect.isQuery =
      [Effect.queryFilter .AssetRegistered (100 + 1) 105 true,
       Effect.queryFilter .OwnershipTransferred (100 + 1) 105 true] ∧
    (monitorBlocks (startEventListener demoServer) demoStateRecovered).1.lastProcessedBlock
      = 105 :=
  ⟨by decide,
    successful_cycle_range (startEventListener demoServer) demoStateRecovered 100 105
      rfl rfl rfl (by decide) (by decide) (by decide)⟩

/-- C6. Nothing new: when the height `h` a run of `monitorBlocks` reads is at
most `lastProcessedBlock`, the run makes no `queryFilter` call and no block
lookup, invokes neither persistence callback, and leaves `lastProcessedBlock`
unchanged; its only steps are the height read and the arming of the timer. -/
theorem idle_cycle_noop {σ : Type} (l : Listener σ) (s : MonitorState σ) (h : Int)
    (hh : (l.provider.getBlockNumber s.world).1 = .ok h)
    (hle : h ≤ s.lastProcessedBlock) :
    (∀ e ∈ (monitorBlocks l s).2,
      e = Effect.getBlockNumber (some h) ∨ e = Effect.setTimeout pollDelay) ∧
    (∀ e ∈ (monitorBlocks l s).2,
      e.isQuery = false ∧ e.isGetBlock = false ∧ e.isCallback = false) ∧
    (monitorBlocks l s).1.lastProcessedBlock = s.lastProcessedBlock := by
  have hsteps : ∀ e ∈ (monitorBlocks l s).2,
      e = Effect.getBlockNumber (some h) ∨ e = Effect.setTimeout pollDelay := by
    cases hmon : s.isMonitoring with
    | false => rw [monitorBlocks_stopped l s hmon]; intro e he; cases he
    | true =>
      rw [monitorBlocks_idle l s hmon hh hle]
      intro e he
      simpa using he
  refine ⟨hsteps, ?_, ?_⟩
  · intro e he
    rcases hsteps e he with rfl | rfl <;> exact ⟨rfl, rfl, rfl⟩
  · cases hmon : s.isMonitoring with
    | false => rw [monitorBlocks_stopped l s hmon]
    | true => rw [monitorBlocks_idle l s hmon hh hle]

/-- Witness for C6: at watermark 105 the node reports height 105. -/
theorem idle_cycle_noop_witness :
    (105 : Int) ≤ demoStateCaughtUp.lastProcessedBlock ∧
    (∀ e ∈ (monitorBlocks (startEventListener demoServer) demoStateCaughtUp).2,
      e = Effect.getBlockNumber (some 105) ∨ e = Effect.setTimeout pollDelay) ∧
    (∀ e ∈ (monitorBlocks (startEventListener demoServer) demoStateCaughtUp).2,
      e.isQuery = false ∧ e.isGetBlock = false ∧ e.isCallback = false) ∧
    (monitorBlocks (startEventListener demoServer) demoStateCaughtUp).1.lastProcessedBlock =
      demoStateCaughtUp.lastProcessedBlock :=
  ⟨by decide,
    idle_cycle_noop (startEventListener demoServer) demoStateCaughtUp 105 rfl (by decide)⟩

/-! ## Normalisation -/

theorem jsNumber_of_safe {x : Nat} (h : x ≤ 2 ^ 53 - 1) : jsNumber x = x := by
  have hlt : x < 2 ^ 53 := by omega
  unfold jsNumber
  rw [if_pos hlt]

/-- A parser handles a batch event by event: the records of `l1 ++ l2` are
those of `l1` followed by those of `l2` parsed in the world `l1` left. -/
theorem parseRegistrationEvents_append {σ : Type} (p : Provider σ)
    (l1 l2 : List (RawLog AssetRegisteredArgs)) (w : σ) :
    parseRegistrationEvents p (l1 ++ l2) w =
      ((parseRegistrationEvents p l1 w).1 ++
        (parseRegistrationEvents p l2 (parseRegistrationEvents p l1 w).2.1).1,
       (parseRegistrationEvents p l2 (parseRegistrationEvents p l1 w).2.1).2.1,
       (parseRegistrationEvents p l1 w).2.2 ++
        (parseRegistrationEvents p l2 (parseRegistrationEvents p l1 w).2.1).2.2) := by
  induction l1 generalizing w with
  | nil => rfl
  | cons event rest ih =>
    simp only [List.cons_append, parseRegistrationEvents]
    split <;> simp [ih]

theorem parseTransferEvents_append {σ : Type} (p : Provider σ)
    (l1 l2 : List (RawLog OwnershipTransferredArgs)) (w : σ) :
    parseTransferEvents p (l1 ++ l2) w =
      ((parseTransferEvents p l1 w).1 ++
        (parseTransferEvents p l2 (parseTransferEvents p l1 w).2.1).1,
       (parseTransferEvents p l2 (parseTransferEvents p l1 w).2.1).2.1,
       (parseTransferEvents p l1 w).2.2 ++
        (parseTransferEvents p l2 (parseTransferEvents p l1 w).2.1).2.2) := by
  induction l1 generalizing w with
  | nil => rfl
  | cons event rest ih =>
    simp only [List.cons_append, parseTransferEvents]
    split <;> simp [ih]

/-- What the `try` block makes of a decoded `AssetRegistered` log. -/
theorem parseRegistrationEvent_decoded (args : AssetRegisteredArgs) (blockNumber : Nat)
    (transactionHash : String) (lookup : Except Failure (Option Block)) :
    (parseRegistrationEvent
        { args := some args, blockNumber := blockNumber, transactionHash := transactionHash }
        lookup).toOption.toList =
      recordsOf lookup (fun b => registrationRecord args blockNumber transactionHash b
        (jsNumber args.assetId) (jsNumber args.timestamp)) := by
  rcases lookup with e | (_ | b) <;> rfl

theorem parseTransferEvent_decoded (args : OwnershipTransferredArgs) (blockNumber : Nat)
    (transactionHash : String) (lookup : Except Failure (Option Block)) :
    (parseTransferEvent
        { args := some args, blockNumber := blockNumber, transactionHash := transactionHash }
        lookup).toOption.toList =
      recordsOf lookup (fun b => transferRecord args blockNumber transactionHash b
        (jsNumber args.assetId) (jsNumber args.timestamp)) := by
  rcases lookup with e | (_ | b) <;> rfl

theorem parseRegistrationEvents_cons {σ : Type} (p : Provider σ)
    (event : RawLog AssetRegisteredArgs) (rest : List (RawLog AssetRegisteredArgs)) (w : σ) :
    (parseRegistrationEvents p (event :: rest) w).1 =
      (parseRegistrationEvent event (p.getBlock event.blockNumber w).1).toOption.toList ++
        (parseRegistrationEvents p rest (p.getBlock event.blockNumber w).2).1 := by
  simp only [parseRegistrationEvents]
  split <;> rename_i h <;> simp [h, Except.toOption]

theorem parseTransferEvents_cons {σ : Type} (p : Provider σ)
    (event : RawLog OwnershipTransferredArgs) (rest : List (RawLog OwnershipTransferredArgs))
    (w : σ) :
    (parseTransferEvents p (event :: rest) w).1 =
      (parseTransferEvent event (p.getBlock event.blockNumber w).1).toOption.toList ++
        (parseTransferEvents p rest (p.getBlock event.blockNumber w).2).1 := by
  simp only [parseTransferEvents]
  split <;> rename_i h <;> simp [h, Except.toOption]

/-- The records of a batch around a decoded `AssetRegistered` log: those of
the events before it, the record of the log when its block comes back, and
those of the events after it. -/
theorem parseRegistrationEvents_around {σ : Type} (p : Provider σ)
    (before after : List (RawLog AssetRegisteredArgs)) (args : AssetRegisteredArgs)
    (blockNumber : Nat) (transactionHash : String) (w : σ) :
    (parseRegistrationEvents p (before ++
        { args := some args, blockNumber := blockNumber, transactionHash := transactionHash }
          :: after) w).1 =
      (parseRegistrationEvents p before w).1 ++
        recordsOf (p.getBlock blockNumber (parseRegistrationEvents p before w).2.1).1
          (fun b => registrationRecord args blockNumber transactionHash b
            (jsNumber args.assetId) (jsNumber args.timestamp)) ++
        (parseRegistrationEvents p after
          (p.getBlock blockNumber (parseRegistrationEvents p before w).2.1).2).1 := by
  rw [parseRegistrationEvents_append, parseRegistrationEvents_cons,
    parseRegistrationEvent_decoded, List.append_assoc]

theorem parseTransferEvents_around {σ : Type} (p : Provider σ)
    (before after : List (RawLog OwnershipTransferredArgs)) (args : OwnershipTransferredArgs)
    (blockNumber : Nat) (transactionHash : String) (w : σ) :
    (parseTransferEvents p (before ++
        { args := some args, blockNumber := blockNumber, transactionHash := transactionHash }
          :: after) w).1 =
      (parseTransferEvents p before w).1 ++
        recordsOf (p.getBlock blockNumber (parseTransferEvents p before w).2.1).1
          (fun b => transferRecord args blockNumber transactionHash b
            (jsNumber args.assetId) (jsNumber args.timestamp)) ++
        (parseTransferEvents p after
          (p.getBlock blockNumber (parseTransferEvents p before w).2.1).2).1 := by
  rw [parseTransferEvents_append, parseTransferEvents_cons,
    parseTransferEvent_decoded, List.append_assoc]

/-- C7 (amended). Exact normalisation: for a decoded `AssetRegistered` log whose
`assetId` and `timestamp` are at most `2^53 - 1`, anywhere in a batch,
`parseRegistrationEvents` adds, when the log's block comes back, the one
record whose `assetId` and `timestamp` are those integers, whose `owner` is
the log's owner lower-cased and whose `description`, `blockNumber` and
`transactionHash` are the log's; likewise `parseTransferEvents` with
`previousOwner` and `newOwner` lower-cased. -/
theorem normalization_exact {σ : Type} (p : Provider σ) (w : σ)
    (before after : List (RawLog AssetRegisteredArgs)) (args : AssetRegisteredArgs)
    (xbefore xafter : List (RawLog OwnershipTransferredArgs))
    (xargs : OwnershipTransferredArgs) (blockNumber : Nat) (transactionHash : String)
    (hid : args.assetId ≤ 2 ^ 53 - 1) (hts : args.timestamp ≤ 2 ^ 53 - 1)
    (hxid : xargs.assetId ≤ 2 ^ 53 - 1) (hxts : xargs.timestamp ≤ 2 ^ 53 - 1) :
    (parseRegistrationEvents p (before ++
        { args := some args, blockNumber := blockNumber, transactionHash := transactionHash }
          :: after) w).1 =
      (parseRegistrationEvents p before w).1 ++
        recordsOf (p.getBlock blockNumber (parseRegistrationEvents p before w).2.1).1
          (fun b =>
            { assetId := args.assetId
              owner := toLowerCase args.owner
              description := args.description
              timestamp := args.timestamp
              blockNumber := blockNumber
              transactionHash := transactionHash
              blockTimestamp := b.timestamp }) ++
        (parseRegistrationEvents p after
          (p.getBlock blockNumber (parseRegistrationEvents p before w).2.1).2).1 ∧
    (parseTransferEvents p (xbefore ++
        { args := some xargs, blockNumber := blockNumber, transactionHash := transactionHash }
          :: xafter) w).1 =
      (parseTransferEvents p xbefore w).1 ++
        recordsOf (p.getBlock blockNumber (parseTransferEvents p xbefore w).2.1).1
          (fun b =>
            { assetId := xargs.assetId
              previousOwner := toLowerCase xargs.previousOwner
              newOwner := toLowerCase xargs.newOwner
              timestamp := xargs.timestamp
              blockNumber := blockNumber
              transactionHash := transactionHash
              blockTimestamp := b.timestamp }) ++
        (parseTransferEvents p xafter
          (p.getBlock blockNumber (parseTransferEvents p xbefore w).2.1).2).1 := by
  constructor
  · rw [parseRegistrationEvents_around]
    unfold registrationRecord
    rw [jsNumber_of_safe hid, jsNumber_of_safe hts]
  · rw [parseTransferEvents_around]
    unfold transferRecord
    rw [jsNumber_of_safe hxid, jsNumber_of_safe hxts]

/-- Witness for C7 (amended): asset id `123456789012345` with owner `0xABC` is
normalised to asset id `123456789012345` with owner `0xabc`. -/
theorem normalization_exact_witness :
    (123456789012345 : Nat) ≤ 2 ^ 53 - 1 ∧
    (parseRegistrationEvents demoProvider [wideLog] 0).1 =
      [{ assetId := 123456789012345, owner := "0xabc", description := "wide",
         timestamp := 1700, blockNumber := 103, transactionHash := "0x0a",
         blockTimestamp := 1701 }] ∧
    (parseTransferEvents demoProvider
        [{ args := wideTransferLog.args, blockNumber := 103, transactionHash := "0x0a" }] 0).1 =
      [{ assetId := 123456789012345, previousOwner := "0xabc", newOwner := "0xdef",
         timestamp := 1800, blockNumber := 103, transactionHash := "0x0a",
         blockTimestamp := 1701 }] := by
  have h := normalization_exact demoProvider 0 [] []
    { assetId := 123456789012345, owner := "0xABC", description := "wide", timestamp := 1700 }
    [] []
    { assetId := 123456789012345, previousOwner := "0xABC", newOwner := "0xDEF",
      timestamp := 1800 }
    103 "0x0a" (by decide) (by decide) (by decide) (by decide)
  exact ⟨by decide, h.1, h.2⟩

/-- Counterexample to C8 as stated: the logs carry `2^53 + 1` as asset id
and as timestamp, above the safe integer range, and both parsers emit a
record for them, holding the rounded value `2^53`. -/
theorem overflow_record_emitted :
    (parseRegistrationEvents demoProvider [overflowLog] 0).1 =
      [{ assetId := 9007199254740992, owner := "0xaa", description := "big",
         timestamp := 1700, blockNumber := 103, transactionHash := "0x0c",
         blockTimestamp := 1701 }] ∧
    (parseTransferEvents demoProvider [overflowTransferLog] 0).1 =
      [{ assetId := 7, previousOwner := "0xaa", newOwner := "0xbb",
         timestamp := 9007199254740992, blockNumber := 104, transactionHash := "0x0d",
         blockTimestamp := 1701 }] := by
  constructor <;> decide

/-- C8 (amended). No overflow check: for a decoded log whose `assetId` or
`timestamp` exceeds `2^53 - 1`, anywhere in a batch, the parsers add a
record under the same condition as for any other log (its block comes
back), and the record holds `Number(assetId)` and `Number(timestamp)`, the
nearest doubles. -/
theorem overflow_not_checked {σ : Type} (p : Provider σ) (w : σ)
    (before after : List (RawLog AssetRegisteredArgs)) (args : AssetRegisteredArgs)
    (xbefore xafter : List (RawLog OwnershipTransferredArgs))
    (xargs : OwnershipTransferredArgs) (blockNumber : Nat) (transactionHash : String)
    (_hbig : 2 ^ 53 - 1 < args.assetId ∨ 2 ^ 53 - 1 < args.timestamp)
    (_hxbig : 2 ^ 53 - 1 < xargs.assetId ∨ 2 ^ 53 - 1 < xargs.timestamp) :
    (parseRegistrationEvents p (before ++
        { args := some args, blockNumber := blockNumber, transactionHash := transactionHash }
          :: after) w).1 =
      (parseRegistrationEvents p before w).1 ++
        recordsOf (p.getBlock blockNumber (parseRegistrationEvents p before w).2.1).1
          (fun b =>
            { assetId := jsNumber args.assetId
              owner := toLowerCase args.owner
              description := args.description
              timestamp := jsNumber args.timestamp
              blockNumber := blockNumber
              transactionHash := transactionHash
              blockTimestamp := b.timestamp }) ++
        (parseRegistrationEvents p after
          (p.getBlock blockNumber (parseRegistrationEvents p before w).2.1).2).1 ∧
    (parseTransferEvents p (xbefore ++
        { args := some xargs, blockNumber := blockNumber, transactionHash := transactionHash }
          :: xafter) w).1 =
      (parseTransferEvents p xbefore w).1 ++
        recordsOf (p.getBlock blockNumber (parseTransferEvents p xbefore w).2.1).1
          (fun b =>
            { assetId := jsNumber xargs.assetId
              previousOwner := toLowerCase xargs.previousOwner
              newOwner := toLowerCase xargs.newOwner
              timestamp := jsNumber xargs.timestamp
              blockNumber := blockNumber
              transactionHash := transactionHash
              blockTimestamp := b.timestamp }) ++
        (parseTransferEvents p xafter
          (p.getBlock blockNumber (parseTransferEvents p xbefore w).2.1).2).1 :=
  ⟨parseRegistrationEvents_around p before after args blockNumber transactionHash w,
    parseTransferEvents_around p xbefore xafter xargs blockNumber transactionHash w⟩

/-- Witness for C8 (amended): a registration with asset id `2^53 + 3` and a
transfer with timestamp `2^64 - 1` are emitted with `2^53 + 4` and `2^64`. -/
theorem overflow_not_checked_witness :
    (2 ^ 53 - 1 < (9007199254740995 : Nat)) ∧
    (parseRegistrationEvents demoProvider
        [{ args := some { assetId := 9007199254740995, owner := "0xAA", description := "big",
                          timestamp := 1700 },
           blockNumber := 103, transactionHash := "0x0e" }] 0).1 =
      [{ assetId := 9007199254740996, owner := "0xaa", description := "big",
         timestamp := 1700, blockNumber := 103, transactionHash := "0x0e",
         blockTimestamp := 1701 }] ∧
    (parseTransferEvents demoProvider
        [{ args := some { assetId := 7, previousOwner := "0xAA", newOwner := "0xBB",
                          timestamp := 18446744073709551615 },
           blockNumber := 103, transactionHash := "0x0e" }] 0).1 =
      [{ assetId := 7, previousOwner := "0xaa", newOwner := "0xbb",
         timestamp := 18446744073709551616, blockNumber := 103, transactionHash := "0x0e",
         blockTimestamp := 1701 }] := by
  have h := overflow_not_checked demoProvider 0 [] []
    { assetId := 9007199254740995, owner := "0xAA", description := "big", timestamp := 1700 }
    [] []
    { assetId := 7, previousOwner := "0xAA", newOwner := "0xBB",
      timestamp := 18446744073709551615 }
    103 "0x0e" (Or.inl (by decide)) (Or.inr (by decide))
  exact ⟨by decide, h.1, h.2⟩

/-! ## Which logs a parser keeps -/

theorem parseRegistrationEvents_eq_filterMap {σ : Type} (p : Provider σ)
    (events : List (RawLog AssetRegisteredArgs)) (w : σ) :
    (parseRegistrationEvents p events w).1 =
      (events.zip (blockLookups p (events.map (fun event => event.blockNumber)) w)).filterMap
        (fun x => (parseRegistrationEvent x.1 x.2).toOption) := by
  induction events generalizing w with
  | nil => rfl
  | cons event rest ih =>
    rw [parseRegistrationEvents_cons, ih]
    simp only [List.map_cons, blockLookups, List.zip_cons_cons, List.filterMap_cons]
    cases (parseRegistrationEvent event (p.getBlock event.blockNumber w).1).toOption <;> rfl

theorem parseTransferEvents_eq_filterMap {σ : Type} (p : Provider σ)
    (events : List (RawLog OwnershipTransferredArgs)) (w : σ) :
    (parseTransferEvents p events w).1 =
      (events.zip (blockLookups p (events.map (fun event => event.blockNumber)) w)).filterMap
        (fun x => (parseTransferEvent x.1 x.2).toOption) := by
  induction events generalizing w with
  | nil => rfl
  | cons event rest ih =>
    rw [parseTransferEvents_cons, ih]
    simp only [List.map_cons, blockLookups, List.zip_cons_cons, List.filterMap_cons]
    cases (parseTransferEvent event (p.getBlock event.blockNumber w).1).toOption <;> rfl

/-- Counterexample to C9 as stated: both logs of the batch are decoded, the
lookup of the first one's block is rejected, and the parser returns the
record of the second log only. -/
theorem well_formed_log_dropped :
    demoLog7.args.isSome = true ∧ demoLog8.args.isSome = true ∧
    (parseRegistrationEvents flakyProvider [demoLog7, demoLog8] 0).1 = [demoRecord8] := by
  refine ⟨rfl, rfl, ?_⟩
  decide

/-- C9 (amended). The parsers are total (they return a list for every batch
and every behaviour of the node) and return the normalised records of
exactly the logs that are decoded and whose block lookup returned a block,
in their original order: each log is paired with the outcome of its own
lookup, an undecoded log or a log whose lookup was rejected or returned
`null` is omitted, and whether a log is kept depends on nothing else. -/
theorem parse_keeps_decoded_and_fetched {σ : Type} (p : Provider σ) (w : σ)
    (events : List (RawLog AssetRegisteredArgs))
    (xevents : List (RawLog OwnershipTransferredArgs)) :
    ((parseRegistrationEvents p events w).1 =
      (events.zip (blockLookups p (events.map (fun event => event.blockNumber)) w)).filterMap
        (fun x => (parseRegistrationEvent x.1 x.2).toOption)) ∧
    (∀ (event : RawLog AssetRegisteredArgs) (lookup : Except Failure (Option Block)),
      (parseRegistrationEvent event lookup).toOption.isSome =
        (event.args.isSome && blockFetched lookup)) ∧
    ((parseTransferEvents p xevents w).1 =
      (xevents.zip (blockLookups p (xevents.map (fun event => event.blockNumber)) w)).filterMap
        (fun x => (parseTransferEvent x.1 x.2).toOption)) ∧
    (∀ (event : RawLog OwnershipTransferredArgs) (lookup : Except Failure (Option Block)),
      (parseTransferEvent event lookup).toOption.isSome =
        (event.args.isSome && blockFetched lookup)) := by
  refine ⟨parseRegistrationEvents_eq_filterMap p events w, ?_,
    parseTransferEvents_eq_filterMap p xevents w, ?_⟩
  · intro event lookup
    rcases event with ⟨_ | args, bn, tx⟩ <;> rcases lookup with e | (_ | b) <;> rfl
  · intro event lookup
    rcases event with ⟨_ | args, bn, tx⟩ <;> rcases lookup with e | (_ | b) <;> rfl

/-! ## One row per asset -/

theorem applyTransfer_registrations (db : Store) (data : TransferEvent) :
    (applyTransfer db data).asset_registrations = db.asset_registrations := by
  unfold applyTransfer insertOwnershipTransfer
  cases hfit : fitsColumns data.assetId data.timestamp data.blockNumber <;> simp

theorem runCalls_unique (calls : List DbCall) (db : Store)
    (h : UniqueAssetIds db.asset_registrations) :
    UniqueAssetIds (runCalls db calls).asset_registrations := by
  induction calls generalizing db with
  | nil => exact h
  | cons call rest ih =>
    apply ih
    cases call with
    | insertAssetRegistration data => exact applyRegistration_unique db data h
    | insertOwnershipTransfer data =>
      show UniqueAssetIds (applyTransfer db data).asset_registrations
      rw [applyTransfer_registrations]; exact h

/-- An upsert on a stored `asset_id` returns the `id` of a stored row and
leaves the conflict clause applied to the table. -/
theorem insertAssetRegistration_conflict {db : Store} {data : RegistrationEvent}
    (hfit : fitsRegistration data = true)
    (h : ∃ row ∈ db.asset_registrations, row.asset_id = data.assetId) :
    ∃ existing ∈ db.asset_registrations, existing.asset_id = data.assetId ∧
      insertAssetRegistration db data =
        .ok (existing.id,
          { db with
            asset_registrations := db.asset_registrations.map (onConflict data)
            asset_registrations_id_seq := db.asset_registrations_id_seq + 1 }) := by
  obtain ⟨row, hrow, hid⟩ := h
  have hsome : (db.asset_registrations.find? (fun row => row.asset_id == data.assetId)).isSome := by
    rw [List.find?_isSome]; exact ⟨row, hrow, by simp [hid]⟩
  obtain ⟨existing, hex⟩ := Option.isSome_iff_exists.mp hsome
  refine ⟨existing, List.mem_of_find?_eq_some hex, by simpa using List.find?_some hex, ?_⟩
  unfold fitsRegistration at hfit
  simp [insertAssetRegistration, hfit, hex]

/-- C10 (amended). One row per asset: after any sequence of `insertAssetRegistration`
and `insertOwnershipTransfer` calls on the empty store, no `asset_id` has
more than one row in `asset_registrations`; and a registration for an
`asset_id` that is stored adds no row, and when the statement is accepted it
returns the `id` of the stored row, leaves every `id` and `asset_id` in
place, gives the row with that `asset_id` the record's `owner`,
`description`, `timestamp`, `block_number` and `transaction_hash`, and
leaves the other rows as they were. -/
theorem one_row_per_asset (calls : List DbCall) (data : RegistrationEvent)
    (hstored : ∃ row ∈ (runCalls Store.empty calls).asset_registrations,
      row.asset_id = data.assetId) :
    (∀ a, ((runCalls Store.empty calls).asset_registrations.map
      (fun row => row.asset_id)).count a ≤ 1) ∧
    (applyRegistration (runCalls Store.empty calls) data).asset_registrations.length =
      (runCalls Store.empty calls).asset_registrations.length ∧
    (fitsRegistration data = true →
      ∃ existing ∈ (runCalls Store.empty calls).asset_registrations,
        existing.asset_id = data.assetId ∧
        ∃ db, insertAssetRegistration (runCalls Store.empty calls) data =
            .ok (existing.id, db) ∧
          db.asset_registrations.map (fun row => (row.id, row.asset_id)) =
            (runCalls Store.empty calls).asset_registrations.map
              (fun row => (row.id, row.asset_id)) ∧
          (∀ row ∈ db.asset_registrations, row.asset_id = data.assetId → Stores row data) ∧
          (∀ row ∈ db.asset_registrations, row.asset_id ≠ data.assetId →
            row ∈ (runCalls Store.empty calls).asset_registrations) ∧
          (∀ a, (db.asset_registrations.map (fun row => row.asset_id)).count a ≤ 1)) := by
  have hunique := runCalls_unique calls Store.empty List.nodup_nil
  refine ⟨fun a => List.nodup_iff_count_le_one.mp hunique a, ?_, ?_⟩
  · cases hfit : fitsRegistration data with
    | false => rw [applyRegistration_of_not_fits hfit]
    | true => rw [applyRegistration_conflict hfit hstored, List.length_map]
  · intro hfit
    obtain ⟨existing, hmem, hid, hins⟩ := insertAssetRegistration_conflict hfit hstored
    refine ⟨existing, hmem, hid, _, hins, ?_, ?_, ?_, ?_⟩
    · show (List.map (onConflict data) _).map _ = _
      rw [List.map_map]
      apply List.map_congr_left
      intro row _
      show ((onConflict data row).id, (onConflict data row).asset_id) = _
      rw [onConflict_id, onConflict_asset_id]
    · intro row hrow hrid
      obtain ⟨old, _, rfl⟩ := List.mem_map.mp hrow
      rw [onConflict_asset_id] at hrid
      rw [onConflict_of_eq hrid]
      exact stores_updateRow data old hrid
    · intro row hrow hrid
      obtain ⟨old, hold, rfl⟩ := List.mem_map.mp hrow
      rw [onConflict_asset_id] at hrid
      rw [onConflict_of_ne hrid]
      exact hold
    · intro a
      have := applyRegistration_unique (runCalls Store.empty calls) data hunique
      rw [applyRegistration_conflict hfit hstored] at this
      exact List.nodup_iff_count_le_one.mp this a

/-- Witness for C10 (amended): asset 7 is registered, transferred and, after asset 8,
registered again; the table keeps two rows, the row of asset 7 with the `id`
of its first registration and the values of the second. -/
theorem one_row_per_asset_witness :
    (∃ row ∈ (runCalls Store.empty demoCalls).asset_registrations,
      row.asset_id = demoRecord7Again.assetId) ∧
    fitsRegistration demoRecord7Again = true ∧
    (∀ a, ((runCalls Store.empty demoCalls).asset_registrations.map
      (fun row => row.asset_id)).count a ≤ 1) ∧
    (applyRegistration (runCalls Store.empty demoCalls) demoRecord7Again).asset_registrations
      = [{ id := 1, asset_id := 7, owner := "0xcc", description := "seven again",
           timestamp := 1900, block_number := 110, transaction_hash := "0x17" },
         { id := 2, asset_id := 8, owner := "0xbb", description := "eight",
           timestamp := 1800, block_number := 104, transaction_hash := "0x08" }] ∧
    (applyRegistration (runCalls Store.empty demoCalls)
        demoRecord7Again).asset_registrations.length =
      (runCalls Store.empty demoCalls).asset_registrations.length ∧
    (∃ existing ∈ (runCalls Store.empty demoCalls).asset_registrations,
      existing.asset_id = demoRecord7Again.assetId ∧
      ∃ db, insertAssetRegistration (runCalls Store.empty demoCalls) demoRecord7Again =
          .ok (existing.id, db) ∧
        db.asset_registrations.map (fun row => (row.id, row.asset_id)) =
          (runCalls Store.empty demoCalls).asset_registrations.map
            (fun row => (row.id, row.asset_id)) ∧
        (∀ row ∈ db.asset_registrations, row.asset_id = demoRecord7Again.assetId →
          Stores row demoRecord7Again) ∧
        (∀ row ∈ db.asset_registrations, row.asset_id ≠ demoRecord7Again.assetId →
          row ∈ (runCalls Store.empty demoCalls).asset_registrations) ∧
        (∀ a, (db.asset_registrations.map (fun row => row.asset_id)).count a ≤ 1)) := by
  have hstored : ∃ row ∈ (runCalls Store.empty demoCalls).asset_registrations,
      row.asset_id = demoRecord7Again.assetId :=
    ⟨{ id := 1, asset_id := 7, owner := "0xaa", description := "seven",
       timestamp := 1700, block_number := 103, transaction_hash := "0x07" },
      by decide, rfl⟩
  have h := one_row_per_asset demoCalls demoRecord7Again hstored
  exact ⟨hstored, rfl, h.1, by decide, h.2.1, h.2.2 rfl⟩

/-! ## Appending transfers -/

theorem insertOwnershipTransfer_of_fits (db : Store) (data : TransferEvent)
    (hfit : fitsTransfer data = true) :
    insertOwnershipTransfer db data =
      .ok (db.ownership_transfers_id_seq + 1,
        { db with
          ownership_transfers := db.ownership_transfers ++
            [transferRow (db.ownership_transfers_id_seq + 1) data]
          ownership_transfers_id_seq := db.ownership_transfers_id_seq + 1 }) := by
  unfold fitsTransfer at hfit
  simp [insertOwnershipTransfer, hfit, transferRow]

theorem applyTransfer_of_fits (db : Store) (data : TransferEvent)
    (hfit : fitsTransfer data = true) :
    applyTransfer db data =
      { db with
        ownership_transfers := db.ownership_transfers ++
          [transferRow (db.ownership_transfers_id_seq + 1) data]
        ownership_transfers_id_seq := db.ownership_transfers_id_seq + 1 } := by
  unfold applyTransfer
  rw [insertOwnershipTransfer_of_fits db data hfit]

theorem applyTransfer_of_not_fits (db : Store) (data : TransferEvent)
    (hfit : fitsTransfer data = false) : applyTransfer db data = db := by
  unfold fitsTransfer at hfit
  simp [applyTransfer, insertOwnershipTransfer, hfit]

/-- C12 (amended). Transfers are appended: for every store and every transfer record
the database accepts, `insertOwnershipTransfer` returns the next sequence
value and leaves `ownership_transfers` as it was with exactly one new row at
the end, holding the record's values, whatever the table already holds (a
row with the same `transactionHash` and the same values included);
`asset_registrations` is unchanged; and delivering the same record twice
leaves two new rows that differ only in `id`. -/
theorem transfer_appended (db : Store) (data : TransferEvent)
    (hfit : fitsTransfer data = true) :
    (∃ db1, insertOwnershipTransfer db data = .ok (db.ownership_transfers_id_seq + 1, db1) ∧
      db1.ownership_transfers =
        db.ownership_transfers ++ [transferRow (db.ownership_transfers_id_seq + 1) data] ∧
      db1.asset_registrations = db.asset_registrations ∧
      db1.asset_registrations_id_seq = db.asset_registrations_id_seq) ∧
    (applyTransfer (applyTransfer db data) data).ownership_transfers =
      db.ownership_transfers ++
        [transferRow (db.ownership_transfers_id_seq + 1) data,
         transferRow (db.ownership_transfers_id_seq + 2) data] ∧
    (applyTransfer (applyTransfer db data) data).asset_registrations =
      db.asset_registrations := by
  refine ⟨⟨_, insertOwnershipTransfer_of_fits db data hfit, rfl, rfl, rfl⟩, ?_, ?_⟩
  · rw [applyTransfer_of_fits _ data hfit, applyTransfer_of_fits db data hfit]
    simp
  · rw [applyTransfer_registrations, applyTransfer_registrations]

/-- Witness for C12 (amended): the transfer of asset 7 delivered twice to the empty
store is stored twice, with `id` 1 and 2. -/
theorem transfer_appended_witness :
    fitsTransfer demoTransfer7 = true ∧
    (applyTransfer (applyTransfer Store.empty demoTransfer7) demoTransfer7).ownership_transfers
      = [{ id := 1, asset_id := 7, previous_owner := "0xaa", new_owner := "0xbb",
           timestamp := 1750, block_number := 104, transaction_hash := "0x27" },
         { id := 2, asset_id := 7, previous_owner := "0xaa", new_owner := "0xbb",
           timestamp := 1750, block_number := 104, transaction_hash := "0x27" }] ∧
    (applyTransfer (applyTransfer Store.empty demoTransfer7) demoTransfer7).asset_registrations
      = [] :=
  ⟨rfl, (transfer_appended Store.empty demoTransfer7 rfl).2.1,
    (transfer_appended Store.empty demoTransfer7 rfl).2.2⟩

/-! ## Stopping the listener -/

/-- `stopEventListener` does not touch the variables `monitorBlocks` reads,
so a run of `monitorBlocks` after it is the run there would have been
without it. -/
theorem monitorBlocks_after_stop {σ : Type} (l : Listener σ) (svc : ServiceState σ) :
    monitorBlocks l (stopEventListener svc).closure = monitorBlocks l svc.closure := rfl

/-- C13 on the code: the listener of `steadyServer` is started at height 105,
the start-up callback has run, and `stopEventListener` is called.  The
property `this.isMonitoring` is `false`, and the next invocation of
`monitorBlocks` still reads the height, queries the range, looks up the
blocks, writes both records, moves the watermark and arms the timer. -/
theorem stop_does_not_stop :
    (stopEventListener (onStartBlockNumber 105
      (startedService freshWorld))).isMonitoring = false ∧
    (monitorBlocks (startEventListener steadyServer)
      (stopEventListener (onStartBlockNumber 105
        (startedService freshWorld))).closure).2 =
      [Effect.getBlockNumber (some 105),
       Effect.queryFilter .AssetRegistered 105 105 true,
       Effect.queryFilter .OwnershipTransferred 105 105 true,
       Effect.getBlock 103 true,
       Effect.getBlock 104 true,
       Effect.onAssetRegistered demoRecord7 true,
       Effect.onAssetRegistered demoRecord8 true,
       Effect.assignLastProcessedBlock 105,
       Effect.setTimeout 5000] := by
  constructor
  · rfl
  · decide

/-! ## Where the first range begins -/

theorem processRegistrations_no_query {σ : Type} (cb : Option (Callback σ RegistrationEvent))
    (events : List RegistrationEvent) (w : σ) :
    ∀ e ∈ (processRegistrations cb events w).trace, e.isQuery = false := by
  cases cb with
  | none => rw [processRegistrations_none]; intro e he; cases he
  | some f =>
    induction events generalizing w with
    | nil => intro e he; cases he
    | cons event rest ih =>
      cases hf : (f event w).1 with
      | error e1 =>
        rw [processRegistrations_cons_error f event rest w hf]
        intro e he
        rw [List.mem_singleton] at he
        subst he; rfl
      | ok u =>
        rw [processRegistrations_cons_ok f event rest w hf]
        intro e he
        rcases List.mem_cons.mp he with rfl | he
        · rfl
        · exact ih _ e he

theorem processTransfers_no_query {σ : Type} (cb : Option (Callback σ TransferEvent))
    (events : List TransferEvent) (w : σ) :
    ∀ e ∈ (processTransfers cb events w).trace, e.isQuery = false := by
  cases cb with
  | none => rw [processTransfers_none]; intro e he; cases he
  | some f =>
    induction events generalizing w with
    | nil => intro e he; cases he
    | cons event rest ih =>
      cases hf : (f event w).1 with
      | error e1 =>
        rw [processTransfers_cons_error f event rest w hf]
        intro e he
        rw [List.mem_singleton] at he
        subst he; rfl
      | ok u =>
        rw [processTransfers_cons_ok f event rest w hf]
        intro e he
        rcases List.mem_cons.mp he with rfl | he
        · rfl
        · exact ih _ e he

/-- Every query of a fetch is over the range the fetch was given. -/
theorem getEventsByBlockRange_query_range {σ : Type} (p : Provider σ) (a b : Int) (w : σ)
    {kind : EventKind} {a1 b1 : Int} {ok : Bool}
    (h : Effect.queryFilter kind a1 b1 ok ∈ (getEventsByBlockRange p a b w).trace) :
    a1 = a ∧ b1 = b := by
  rcases getEventsByBlockRange_cases p a b w with ⟨_, _, heq⟩ | ⟨_, _, _, _, heq⟩ |
    ⟨regLogs, xferLogs, _, _, heq⟩
  · rw [heq, List.mem_singleton] at h
    cases h; exact ⟨rfl, rfl⟩
  · rw [heq] at h
    simp only [List.mem_cons, List.mem_singleton, List.not_mem_nil, or_false] at h
    rcases h with h | h <;> cases h <;> exact ⟨rfl, rfl⟩
  · rw [heq] at h
    simp only [List.mem_cons, List.mem_append] at h
    rcases h with h | h | h | h
    · cases h; exact ⟨rfl, rfl⟩
    · cases h; exact ⟨rfl, rfl⟩
    · have := parseRegistrationEvents_trace p _ _ _ h
      cases this
    · have := parseTransferEvents_trace p _ _ _ h
      cases this

/-- Every query of a run of `monitorBlocks` begins one block above the
watermark the run started with. -/
theorem monitorBlocks_query_from {σ : Type} (l : Listener σ) (s : MonitorState σ)
    {kind : EventKind} {a b : Int} {ok : Bool}
    (h : Effect.queryFilter kind a b ok ∈ (monitorBlocks l s).2) :
    a = s.lastProcessedBlock + 1 := by
  have hfetch : ∀ (currentBlock : Int) (t : List Effect) (res : Except Failure Events) (w : σ),
      getEventsByBlockRange l.provider (s.lastProcessedBlock + 1) currentBlock
        (l.provider.getBlockNumber s.world).2 = { result := res, world := w, trace := t } →
      Effect.queryFilter kind a b ok ∈ t → a = s.lastProcessedBlock + 1 := by
    intro currentBlock t res w hev hmem
    have hm : Effect.queryFilter kind a b ok ∈
        (getEventsByBlockRange l.provider (s.lastProcessedBlock + 1) currentBlock
          (l.provider.getBlockNumber s.world).2).trace := by rw [hev]; exact hmem
    exact (getEventsByBlockRange_query_range _ _ _ _ hm).1
  have hreg : ∀ (events : List RegistrationEvent) (w : σ) (t : List Effect)
      (res : Except Failure Unit) (w1 : σ),
      processRegistrations l.onAssetRegistered events w =
        { result := res, world := w1, trace := t } →
      Effect.queryFilter kind a b ok ∉ t := by
    intro events w t res w1 hr hmem
    have := processRegistrations_no_query l.onAssetRegistered events w _ (by rw [hr]; exact hmem)
    cases this
  have hxfer : ∀ (events : List TransferEvent) (w : σ) (t : List Effect)
      (res : Except Failure Unit) (w1 : σ),
      processTransfers l.onOwnershipTransferred events w =
        { result := res, world := w1, trace := t } →
      Effect.queryFilter kind a b ok ∉ t := by
    intro events w t res w1 hr hmem
    have := processTransfers_no_query l.onOwnershipTransferred events w _ (by rw [hr]; exact hmem)
    cases this
  cases monitorBlocks_path l s with
  | stopped _ heq => rw [heq] at h; cases h
  | heightFailed _ _ _ heq =>
    rw [heq] at h
    simp only [List.mem_cons, List.mem_singleton, List.not_mem_nil, or_false] at h
    rcases h with h | h <;> cases h
  | idle _ _ _ _ heq =>
    rw [heq] at h
    simp only [List.mem_cons, List.mem_singleton, List.not_mem_nil, or_false] at h
    rcases h with h | h <;> cases h
  | fetchFailed _ currentBlock _ _ e w t hev heq =>
    rw [heq] at h
    simp only [List.mem_cons, List.mem_append, List.mem_singleton, List.not_mem_nil,
      or_false] at h
    rcases h with (h | h) | h
    · cases h
    · exact hfetch _ _ _ _ hev h
    · cases h
  | registrationFailed _ currentBlock _ _ events w t hev e w1 t1 hr1 heq =>
    rw [heq] at h
    simp only [List.mem_cons, List.mem_append, List.mem_singleton, List.not_mem_nil,
      or_false] at h
    rcases h with ((h | h) | h) | h
    · cases h
    · exact hfetch _ _ _ _ hev h
    · exact absurd h (hreg _ _ _ _ _ hr1)
    · cases h
  | transferFailed _ currentBlock _ _ events w t hev w1 t1 hr1 e w2 t2 hr2 heq =>
    rw [heq] at h
    simp only [List.mem_cons, List.mem_append, List.mem_singleton, List.not_mem_nil,
      or_false] at h
    rcases h with (((h | h) | h) | h) | h
    · cases h
    · exact hfetch _ _ _ _ hev h
    · exact absurd h (hreg _ _ _ _ _ hr1)
    · exact absurd h (hxfer _ _ _ _ _ hr2)
    · cases h
  | advanced _ currentBlock _ _ events w t hev w1 t1 hr1 w2 t2 hr2 heq =>
    rw [heq] at h
    simp only [List.mem_cons, List.mem_append, List.mem_singleton, List.not_mem_nil,
      or_false] at h
    rcases h with (((h | h) | h) | h) | h | h
    · cases h
    · exact hfetch _ _ _ _ hev h
    · exact absurd h (hreg _ _ _ _ _ hr1)
    · exact absurd h (hxfer _ _ _ _ _ hr2)
    · cases h
    · cases h

theorem cycles_watermark_ge {σ : Type} (l : Listener σ) (s : MonitorState σ) (k : Nat) :
    s.lastProcessedBlock ≤ (cycles l s k).lastProcessedBlock := by
  induction k with
  | zero => exact le_refl _
  | succ k ih =>
    refine le_trans ih ?_
    show (cycles l s k).lastProcessedBlock ≤
      (monitorBlocks l (cycles l s k)).1.lastProcessedBlock
    rcases monitorBlocks_watermark l (cycles l s k) with h | h
    · exact le_of_eq h.symm
    · exact le_of_lt h

/-- Counterexample to C15 as stated: started at height 105, the watermark is
initialised to 104, not 105, and the first run of `monitorBlocks` queries
the range that begins at block 105 itself. -/
theorem start_height_is_scanned :
    (onStartBlockNumber 105 (startedService freshWorld)).closure.lastProcessedBlock = 104 ∧
    Effect.queryFilter .AssetRegistered 105 105 true ∈
      (monitorBlocks (startEventListener steadyServer)
        (onStartBlockNumber 105 (startedService freshWorld)).closure).2 := by
  constructor <;> decide

/-- C15 (amended). When the start-up callback of `startEventListener`
receives the height `h0`, it sets the watermark to `h0 - 1`, and every range
queried by a run of `monitorBlocks` after that begins at block `h0` or
above: blocks below the start-up height are never scanned by the polling
cycle, block `h0` itself is. -/
theorem start_watermark_below_height {σ : Type} (l : Listener σ) (w : σ) (h0 : Int) (k : Nat)
    (kind : EventKind) (a b : Int) (ok : Bool)
    (hquery : Effect.queryFilter kind a b ok ∈
      (monitorBlocks l
        (cycles l (onStartBlockNumber h0 (startedService w)).closure k)).2) :
    (onStartBlockNumber h0 (startedService w)).closure.lastProcessedBlock = h0 - 1 ∧
    h0 ≤ a := by
  refine ⟨rfl, ?_⟩
  have hfrom := monitorBlocks_query_from l _ hquery
  have hge := cycles_watermark_ge l (onStartBlockNumber h0 (startedService w)).closure k
  have hinit : (onStartBlockNumber h0 (startedService w)).closure.lastProcessedBlock
      = h0 - 1 := rfl
  rw [hinit] at hge
  omega

/-- Witness for C15 (amended): started at height 105 on a node that keeps
growing, the second run queries the range that begins at block 106. -/
theorem start_watermark_below_height_witness :
    Effect.queryFilter .AssetRegistered 106 107 true ∈
      (monitorBlocks (startEventListener growingServer)
        (cycles (startEventListener growingServer)
          (onStartBlockNumber 105 (startedService freshWorld)).closure 1)).2 ∧
    (onStartBlockNumber 105 (startedService freshWorld)).closure.lastProcessedBlock
      = 105 - 1 ∧
    (105 : Int) ≤ 106 := by
  have hquery : Effect.queryFilter .AssetRegistered 106 107 true ∈
      (monitorBlocks (startEventListener growingServer)
        (cycles (startEventListener growingServer)
          (onStartBlockNumber 105 (startedService freshWorld)).closure 1)).2 := by decide
  have h := start_watermark_below_height (startEventListener growingServer) freshWorld 105 1
    .AssetRegistered 106 107 true hquery
  exact ⟨hquery, h.1, h.2⟩

/-! ## The counts of a manual synchronisation -/

theorem getEventsFromLast1000Blocks_keeps {σ : Type} (p : Provider σ) {inv : σ → Prop}
    (hp : p.Keeps inv) (w : σ) (hw : inv w) :
    inv (getEventsFromLast1000Blocks p w).world := by
  unfold getEventsFromLast1000Blocks
  cases hh : (p.getBlockNumber w).1 with
  | error e => simp only [hh]; exact hp.1 _ hw
  | ok currentBlock =>
    simp only [hh]
    exact getEventsByBlockRange_keeps p hp _ _ _ (hp.1 _ hw)

theorem onOwnershipTransferred_ok {ν : Type} (srv : Server ν) (data : TransferEvent)
    (w : ServerWorld ν) (h : (onOwnershipTransferred srv data w).1 = .ok ()) :
    fitsTransfer data = true ∧
      (onOwnershipTransferred srv data w).2.db = applyTransfer w.db data := by
  unfold onOwnershipTransferred at h ⊢
  unfold applyTransfer
  cases hc : (srv.poolReaches w.net).1 with
  | false => simp [hc] at h
  | true =>
    cases hins : insertOwnershipTransfer w.db data with
    | error e => simp [hc, hins] at h
    | ok x =>
      obtain ⟨i, db1⟩ := x
      refine ⟨?_, by simp [hc, hins]⟩
      cases hfit : fitsTransfer data with
      | true => rfl
      | false =>
        unfold fitsTransfer at hfit
        simp [insertOwnershipTransfer, hfit] at hins

/-- The database after a transfer loop of the server that returned: every
record was accepted and appended. -/
theorem processTransfers_server_ok {ν : Type} (srv : Server ν)
    (events : List TransferEvent) (w : ServerWorld ν)
    (h : (processTransfers (some (onOwnershipTransferred srv)) events w).result = .ok ()) :
    (∀ d ∈ events, fitsTransfer d = true) ∧
      (processTransfers (some (onOwnershipTransferred srv)) events w).world.db =
        events.foldl applyTransfer w.db := by
  induction events generalizing w with
  | nil => exact ⟨(fun d hd => by cases hd), rfl⟩
  | cons event rest ih =>
    cases hf : (onOwnershipTransferred srv event w).1 with
    | error e => rw [processTransfers_cons_error _ event rest w hf] at h; cases h
    | ok u =>
      rw [processTransfers_cons_ok _ event rest w hf] at h ⊢
      obtain ⟨hfit, hdb⟩ := onOwnershipTransferred_ok srv event w hf
      obtain ⟨hrest, hworld⟩ := ih (onOwnershipTransferred srv event w).2 h
      refine ⟨?_, ?_⟩
      · intro d hd
        rcases List.mem_cons.mp hd with rfl | hd
        · exact hfit
        · exact hrest d hd
      · show (processTransfers (some (onOwnershipTransferred srv)) rest
          (onOwnershipTransferred srv event w).2).world.db = _
        rw [hworld, hdb]; rfl

theorem applyRegistration_transfers (db : Store) (data : RegistrationEvent) :
    (applyRegistration db data).ownership_transfers = db.ownership_transfers := by
  unfold applyRegistration insertAssetRegistration
  cases hfit : fitsColumns data.assetId data.timestamp data.blockNumber
  · simp
  · cases hfind : db.asset_registrations.find? (fun row => row.asset_id == data.assetId) <;>
      simp [hfind]

theorem foldl_applyRegistration_transfers (l : List RegistrationEvent) (db : Store) :
    (l.foldl applyRegistration db).ownership_transfers = db.ownership_transfers := by
  induction l generalizing db with
  | nil => rfl
  | cons data rest ih => rw [List.foldl_cons, ih, applyRegistration_transfers]

theorem foldl_applyTransfer_registrations (l : List TransferEvent) (db : Store) :
    (l.foldl applyTransfer db).asset_registrations = db.asset_registrations := by
  induction l generalizing db with
  | nil => rfl
  | cons data rest ih => rw [List.foldl_cons, ih, applyTransfer_registrations]

theorem foldl_applyTransfer_length (l : List TransferEvent) (db : Store)
    (hfit : ∀ d ∈ l, fitsTransfer d = true) :
    (l.foldl applyTransfer db).ownership_transfers.length =
      db.ownership_transfers.length + l.length := by
  induction l generalizing db with
  | nil => rfl
  | cons data rest ih =>
    rw [List.foldl_cons, ih _ (fun d hd => hfit d (List.mem_cons_of_mem _ hd)),
      applyTransfer_of_fits db data (hfit data (List.mem_cons_self _ _))]
    simp only [List.length_append, List.length_cons, List.length_nil]
    omega

/-- An upsert keeps the `id` of every stored row, in place, and adds at most
one. -/
theorem applyRegistration_ids (db : Store) (data : RegistrationEvent) :
    ∃ added, (applyRegistration db data).asset_registrations.map (fun row => row.id) =
        db.asset_registrations.map (fun row => row.id) ++ added ∧ added.length ≤ 1 := by
  cases hfit : fitsRegistration data with
  | false =>
    rw [applyRegistration_of_not_fits hfit]
    exact ⟨[], by simp, by simp⟩
  | true =>
    by_cases hc : ∃ r ∈ db.asset_registrations, r.asset_id = data.assetId
    · rw [applyRegistration_conflict hfit hc]
      refine ⟨[], ?_, by simp⟩
      rw [List.append_nil, List.map_map]
      apply List.map_congr_left
      intro row _
      exact onConflict_id data row
    · have h2 : ∀ r ∈ db.asset_registrations, r.asset_id ≠ data.assetId := by
        intro r hr hid; exact hc ⟨r, hr, hid⟩
      rw [applyRegistration_fresh hfit h2]
      exact ⟨[db.asset_registrations_id_seq + 1], by simp [insertedRow], by simp⟩

theorem foldl_applyRegistration_ids (l : List RegistrationEvent) (db : Store) :
    ∃ added, (l.foldl applyRegistration db).asset_registrations.map (fun row => row.id) =
        db.asset_registrations.map (fun row => row.id) ++ added ∧
      added.length ≤ l.length := by
  induction l generalizing db with
  | nil => exact ⟨[], by simp, by simp⟩
  | cons data rest ih =>
    obtain ⟨a1, h1, hl1⟩ := applyRegistration_ids db data
    obtain ⟨a2, h2, hl2⟩ := ih (applyRegistration db data)
    refine ⟨a1 ++ a2, ?_, ?_⟩
    · rw [List.foldl_cons, h2, h1, List.append_assoc]
    · simp only [List.length_append, List.length_cons]
      omega

/-- Counterexample to C14 as stated: a second manual synchronisation over
the same two registrations answers `registrations: 2`, and every row of
`asset_registrations` after it existed before it. -/
theorem sync_counts_redelivered :
    (postSync steadyServer (postSync steadyServer freshWorld).2).1 = .completed 2 0 ∧
    (postSync steadyServer (postSync steadyServer freshWorld).2).2.db.asset_registrations =
      (postSync steadyServer freshWorld).2.db.asset_registrations ∧
    (postSync steadyServer freshWorld).2.db.asset_registrations.length = 2 := by
  refine ⟨?_, ?_, ?_⟩ <;> decide

/-- C14 (amended). A manual synchronisation that answers with status 200
returns the numbers of events it fetched and wrote: `registrations` is the
number of registration events returned by `getEventsFromLast1000Blocks`,
each of which was upserted, so that at most that many rows are new and every
row stored before keeps its `id`; `transfers` is the number of transfer
events returned, and exactly that many rows were added to
`ownership_transfers`. -/
theorem sync_counts {ν : Type} (srv : Server ν) (w : ServerWorld ν) (r t : Nat)
    (hok : (postSync srv w).1 = .completed r t) :
    ∃ events,
      (getEventsFromLast1000Blocks (serverProvider srv.provider) w).result = .ok events ∧
      r = events.registrations.length ∧ t = events.transfers.length ∧
      (postSync srv w).2.db.asset_registrations =
        (events.registrations.foldl applyRegistration w.db).asset_registrations ∧
      (∃ added, (postSync srv w).2.db.asset_registrations.map (fun row => row.id) =
          w.db.asset_registrations.map (fun row => row.id) ++ added ∧ added.length ≤ r) ∧
      (postSync srv w).2.db.ownership_transfers.length =
        w.db.ownership_transfers.length + t := by
  have hfetch : (getEventsFromLast1000Blocks (serverProvider srv.provider) w).world.db = w.db :=
    getEventsFromLast1000Blocks_keeps (serverProvider srv.provider)
      (serverProvider_keeps srv.provider (fun db => db = w.db)) w rfl
  rcases hev : getEventsFromLast1000Blocks (serverProvider srv.provider) w with ⟨res, w0, t0⟩
  rw [hev] at hfetch
  cases res with
  | error e => simp [postSync, hev] at hok
  | ok events =>
    rcases hr1 : processRegistrations (some (onAssetRegistered srv)) events.registrations w0
      with ⟨res1, w1, t1⟩
    cases res1 with
    | error e => simp [postSync, hev, hr1] at hok
    | ok u1 =>
      rcases hr2 : processTransfers (some (onOwnershipTransferred srv)) events.transfers w1
        with ⟨res2, w2, t2⟩
      cases res2 with
      | error e => simp [postSync, hev, hr1, hr2] at hok
      | ok u2 =>
        have hpost : postSync srv w =
            (.completed events.registrations.length events.transfers.length, w2) := by
          simp [postSync, hev, hr1, hr2]
        rw [hpost] at hok ⊢
        have hrt : events.registrations.length = r ∧ events.transfers.length = t := by
          simpa using hok
        obtain ⟨done, _, hdb1, hall⟩ := processRegistrations_server srv events.registrations w0
        rw [hr1] at hdb1 hall
        have hdone : done = events.registrations := hall rfl
        subst hdone
        have hx := processTransfers_server_ok srv events.transfers w1 (by rw [hr2])
        rw [hr2] at hx
        have hw1 : w1.db = events.registrations.foldl applyRegistration w.db := by
          have : w0.db = w.db := hfetch
          rw [← this]; exact hdb1
        have hw2 : w2.db = events.transfers.foldl applyTransfer w1.db := hx.2
        refine ⟨events, rfl, hrt.1.symm, hrt.2.symm, ?_, ?_, ?_⟩
        · show w2.db.asset_registrations = _
          rw [hw2, foldl_applyTransfer_registrations, hw1]
        · show ∃ added, w2.db.asset_registrations.map _ = _ ∧ _
          rw [hw2, foldl_applyTransfer_registrations, hw1, ← hrt.1]
          exact foldl_applyRegistration_ids events.registrations w.db
        · show w2.db.ownership_transfers.length = _
          rw [hw2, foldl_applyTransfer_length _ _ hx.1, hw1,
            foldl_applyRegistration_transfers, hrt.2]

/-- Witness for C14 (amended): the second synchronisation of `steadyServer`
answers 2 and 0, adds no `id` and no transfer row. -/
theorem sync_counts_witness :
    (postSync steadyServer (postSync steadyServer freshWorld).2).1 = .completed 2 0 ∧
    ∃ events,
      (getEventsFromLast1000Blocks (serverProvider steadyServer.provider)
        (postSync steadyServer freshWorld).2).result = .ok events ∧
      2 = events.registrations.length ∧ 0 = events.transfers.length ∧
      (postSync steadyServer (postSync steadyServer freshWorld).2).2.db.asset_registrations =
        (events.registrations.foldl applyRegistration
          (postSync steadyServer freshWorld).2.db).asset_registrations ∧
      (∃ added,
        (postSync steadyServer
            (postSync steadyServer freshWorld).2).2.db.asset_registrations.map
            (fun row => row.id) =
          (postSync steadyServer freshWorld).2.db.asset_registrations.map
            (fun row => row.id) ++ added ∧ added.length ≤ 2) ∧
      (postSync steadyServer (postSync steadyServer freshWorld).2).2.db.ownership_transfers.length
        = (postSync steadyServer freshWorld).2.db.ownership_transfers.length + 0 := by
  have hok : (postSync steadyServer (postSync steadyServer freshWorld).2).1 =
      .completed 2 0 := by decide
  exact ⟨hok, sync_counts steadyServer (postSync steadyServer freshWorld).2 2 0 hok⟩

/-! ## Assets by owner -/

theorem foldl_laterTransfer_none (l : List OwnershipTransferRow)
    (best : Option OwnershipTransferRow) (h : l.foldl laterTransfer best = none) :
    best = none ∧ l = [] := by
  induction l generalizing best with
  | nil => exact ⟨h, rfl⟩
  | cons t rest ih =>
    rw [List.foldl_cons] at h
    have := (ih _ h).1
    cases best with
    | none => cases this
    | some b =>
      simp only [laterTransfer] at this
      split at this <;> cases this

theorem foldl_laterTransfer_some (l : List OwnershipTransferRow)
    (best : Option OwnershipTransferRow) (r : OwnershipTransferRow)
    (h : l.foldl laterTransfer best = some r) :
    (r ∈ l ∨ best = some r) ∧ (∀ x ∈ l, x.timestamp ≤ r.timestamp) ∧
      (∀ b, best = some b → b.timestamp ≤ r.timestamp) := by
  induction l generalizing best with
  | nil =>
    refine ⟨Or.inr h, (fun x hx => by cases hx), ?_⟩
    intro b hb
    rw [hb] at h
    cases h
    exact le_refl _
  | cons t rest ih =>
    rw [List.foldl_cons] at h
    obtain ⟨hmem, hall, hbest⟩ := ih _ h
    cases best with
    | none =>
      have ht : t.timestamp ≤ r.timestamp := hbest t rfl
      refine ⟨?_, ?_, (fun b hb => by cases hb)⟩
      · rcases hmem with hmem | hmem
        · exact Or.inl (List.mem_cons_of_mem _ hmem)
        · have : t = r := by simpa [laterTransfer] using hmem
          exact Or.inl (by rw [this]; exact List.mem_cons_self _ _)
      · intro x hx
        rcases List.mem_cons.mp hx with rfl | hx
        · exact ht
        · exact hall x hx
    | some b =>
      by_cases hlt : b.timestamp < t.timestamp
      · have hstep : laterTransfer (some b) t = some t := by simp [laterTransfer, hlt]
        rw [hstep] at hmem hbest
        have ht : t.timestamp ≤ r.timestamp := hbest t rfl
        refine ⟨?_, ?_, ?_⟩
        · rcases hmem with hmem | hmem
          · exact Or.inl (List.mem_cons_of_mem _ hmem)
          · have : t = r := by simpa using hmem
            exact Or.inl (by rw [this]; exact List.mem_cons_self _ _)
        · intro x hx
          rcases List.mem_cons.mp hx with rfl | hx
          · exact ht
          · exact hall x hx
        · intro b1 hb1
          cases hb1
          exact le_trans (le_of_lt hlt) ht
      · have hstep : laterTransfer (some b) t = some b := by simp [laterTransfer, hlt]
        rw [hstep] at hmem hbest
        have hb : b.timestamp ≤ r.timestamp := hbest b rfl
        refine ⟨?_, ?_, ?_⟩
        · rcases hmem with hmem | hmem
          · exact Or.inl (List.mem_cons_of_mem _ hmem)
          · exact Or.inr hmem
        · intro x hx
          rcases List.mem_cons.mp hx with rfl | hx
          · exact le_trans (not_lt.mp hlt) hb
          · exact hall x hx
        · intro b1 hb1
          cases hb1
          exact hb

theorem latestTransfer_none {transfers : List OwnershipTransferRow} {a : Nat}
    (h : latestTransfer transfers a = none) : ∀ t ∈ transfers, t.asset_id ≠ a := by
  intro t ht hid
  have hnil := (foldl_laterTransfer_none _ _ h).2
  have hmem : t ∈ transfers.filter (fun t => t.asset_id == a) := by
    rw [List.mem_filter]; exact ⟨ht, by simp [hid]⟩
  rw [hnil] at hmem
  cases hmem

theorem latestTransfer_some {transfers : List OwnershipTransferRow} {a : Nat}
    {r : OwnershipTransferRow} (h : latestTransfer transfers a = some r) :
    r ∈ transfers ∧ r.asset_id = a ∧
      ∀ x ∈ transfers, x.asset_id = a → x.timestamp ≤ r.timestamp := by
  obtain ⟨hmem, hall, _⟩ := foldl_laterTransfer_some _ _ r h
  have hr : r ∈ transfers.filter (fun t => t.asset_id == a) := by
    rcases hmem with hmem | hmem
    · exact hmem
    · cases hmem
  rw [List.mem_filter] at hr
  refine ⟨hr.1, by simpa using hr.2, ?_⟩
  intro x hx hid
  exact hall x (by rw [List.mem_filter]; exact ⟨hx, by simp [hid]⟩)

/-- The owner the statement computes is a current owner in the words of the
specification. -/
theorem currentOwner_isCurrentOwner (db : Store) (ar : AssetRegistrationRow) :
    IsCurrentOwner db ar (currentOwner db ar) := by
  unfold currentOwner
  cases h : latestTransfer db.ownership_transfers ar.asset_id with
  | none => exact Or.inr ⟨latestTransfer_none h, rfl⟩
  | some r =>
    obtain ⟨hmem, hid, hmax⟩ := latestTransfer_some h
    exact Or.inl ⟨r, hmem, hid, hmax, rfl⟩

/-- With distinct timestamps the current owner is determined. -/
theorem isCurrentOwner_unique (db : Store) (hts : DistinctTransferTimestamps db)
    (ar : AssetRegistrationRow) (owner : String) (h : IsCurrentOwner db ar owner) :
    owner = currentOwner db ar := by
  unfold currentOwner
  cases hl : latestTransfer db.ownership_transfers ar.asset_id with
  | none =>
    rcases h with ⟨t, ht, hid, _, _⟩ | ⟨_, ho⟩
    · exact absurd hid (latestTransfer_none hl t ht)
    · exact ho
  | some r =>
    obtain ⟨hmem, hid, hmax⟩ := latestTransfer_some hl
    rcases h with ⟨t, ht, htid, htmax, ho⟩ | ⟨hno, _⟩
    · have heq : t = r := hts t ht r hmem (by rw [htid, hid])
        (le_antisymm (hmax t ht htid) (htmax r hmem hid))
      rw [ho, heq]
    · exact absurd hid (hno r hmem)

/-- C11. Assets by owner: in a store in which the transfers of each asset
have pairwise distinct timestamps, `getAssetsByOwner(q)` returns exactly the
rows of `asset_registrations` whose current owner equals `q` lower-cased
(every returned row is such a row, with that owner as `current_owner`;
every such row is returned; each as often as it is stored), in ascending
`asset_id` order, where the current owner is the `new_owner` of the asset's
transfer with the greatest `timestamp`, or the owner of the registration
when the asset has no transfer. -/
theorem assets_by_owner (db : Store) (q : String) (hts : DistinctTransferTimestamps db) :
    (∀ v ∈ getAssetsByOwner db q,
      v.row ∈ db.asset_registrations ∧ IsCurrentOwner db v.row v.current_owner ∧
        v.current_owner = toLowerCase q) ∧
    (∀ ar ∈ db.asset_registrations, ∀ owner, IsCurrentOwner db ar owner →
      owner = toLowerCase q → ar ∈ (getAssetsByOwner db q).map (fun v => v.row)) ∧
    ((getAssetsByOwner db q).map (fun v => v.row.asset_id)).Sorted (· ≤ ·) ∧
    ((getAssetsByOwner db q).map (fun v => v.row)).Perm
      (db.asset_registrations.filter (fun ar => currentOwner db ar == toLowerCase q)) := by
  have hrows : (getAssetsByOwner db q).map (fun v => v.row) =
      (db.asset_registrations.filter
        (fun ar => currentOwner db ar == toLowerCase q)).insertionSort byAssetId := by
    unfold getAssetsByOwner
    rw [List.map_map]
    exact List.map_id _
  have hperm := List.perm_insertionSort byAssetId
    (db.asset_registrations.filter (fun ar => currentOwner db ar == toLowerCase q))
  refine ⟨?_, ?_, ?_, ?_⟩
  · intro v hv
    unfold getAssetsByOwner at hv
    obtain ⟨ar, har, rfl⟩ := List.mem_map.mp hv
    have hmem := (hperm.mem_iff).mp har
    rw [List.mem_filter] at hmem
    exact ⟨hmem.1, currentOwner_isCurrentOwner db ar, by simpa using hmem.2⟩
  · intro ar har owner hown hq
    rw [hrows]
    apply (hperm.mem_iff).mpr
    rw [List.mem_filter]
    refine ⟨har, ?_⟩
    rw [← isCurrentOwner_unique db hts ar owner hown, hq]
    simp
  · have hsorted := List.sorted_insertionSort byAssetId
      (db.asset_registrations.filter (fun ar => currentOwner db ar == toLowerCase q))
    rw [← hrows] at hsorted
    have : (getAssetsByOwner db q).map (fun v => v.row.asset_id) =
        ((getAssetsByOwner db q).map (fun v => v.row)).map (fun ar => ar.asset_id) := by
      rw [List.map_map]; rfl
    rw [this]
    exact List.pairwise_map.mpr hsorted
  · rw [hrows]; exact hperm

/-- Witness for C11: asset 7, registered to `0xaa` and then transferred to
`0xbb`, is returned for `0xBB` and for `0xbb`, and not for `0xaa`. -/
theorem assets_by_owner_witness :
    DistinctTransferTimestamps transferredStore ∧
    (getAssetsByOwner transferredStore "0xBB").map (fun v => v.row.asset_id) = [7] ∧
    (getAssetsByOwner transferredStore "0xbb").map (fun v => v.row.asset_id) = [7] ∧
    getAssetsByOwner transferredStore "0xaa" = [] ∧
    (∀ v ∈ getAssetsByOwner transferredStore "0xBB",
      v.row ∈ transferredStore.asset_registrations ∧
        IsCurrentOwner transferredStore v.row v.current_owner ∧
        v.current_owner = toLowerCase "0xBB") := by
  have hts : DistinctTransferTimestamps transferredStore := by
    unfold DistinctTransferTimestamps
    decide
  exact ⟨hts, by decide, by decide, by decide, (assets_by_owner transferredStore "0xBB" hts).1⟩

/-! ## The placeholders of the search -/

theorem truthyNumber_some {x : Option Int} {n : Int} (h : truthyNumber x = some n) :
    x = some n ∧ n ≠ 0 := by
  cases x with
  | none => cases h
  | some m =>
    simp only [truthyNumber] at h
    split at h
    · cases h
    · rename_i hne
      cases h
      exact ⟨rfl, hne⟩

theorem truthyString_some {x : Option String} {s : String} (h : truthyString x = some s) :
    x = some s ∧ s ≠ "" := by
  cases x with
  | none => cases h
  | some m =>
    simp only [truthyString] at h
    split at h
    · cases h
    · rename_i hne
      cases h
      exact ⟨rfl, hne⟩

set_option maxHeartbeats 1000000 in
theorem buildSearch_placeholders (seconds : String → SqlValue) (filters : SearchFilters) :
    (buildSearch seconds filters).placeholders =
      List.range' 1 (buildSearch seconds filters).params.length := by
  cases ha : truthyNumber filters.assetId <;> cases hb : truthyString filters.address <;>
    cases hc : truthyString filters.fromDate <;> cases hd : truthyString filters.toDate <;>
    simp [buildSearch, addAssetId, addOwner, addEitherOwner, addFromDate, addToDate,
      Builder.push, SearchQuery.placeholders, Condition.placeholders, ha, hb, hc, hd,
      List.range']

set_option maxHeartbeats 1000000 in
theorem buildSearch_bound (seconds : String → SqlValue) (filters : SearchFilters) :
    ∀ c ∈ (buildSearch seconds filters).registrationConditions ++
        (buildSearch seconds filters).transferConditions,
      c.Bound seconds filters (buildSearch seconds filters).params := by
  cases ha : truthyNumber filters.assetId <;> cases hb : truthyString filters.address <;>
    cases hc : truthyString filters.fromDate <;> cases hd : truthyString filters.toDate <;>
    simp [buildSearch, addAssetId, addOwner, addEitherOwner, addFromDate, addToDate,
      Builder.push, Condition.Bound, boundTo, ha, hb, hc, hd]

set_option maxHeartbeats 1000000 in
theorem buildSearch_assetId (seconds : String → SqlValue) (filters : SearchFilters) (n : Int)
    (h : truthyNumber filters.assetId = some n) :
    (∃ k, Condition.assetIdEq k ∈ (buildSearch seconds filters).registrationConditions ∧
      boundTo (buildSearch seconds filters).params k (some (.number n))) ∧
    (∃ k, Condition.assetIdEq k ∈ (buildSearch seconds filters).transferConditions ∧
      boundTo (buildSearch seconds filters).params k (some (.number n))) := by
  cases hb : truthyString filters.address <;>
    cases hc : truthyString filters.fromDate <;> cases hd : truthyString filters.toDate <;>
    simp [buildSearch, addAssetId, addOwner, addEitherOwner, addFromDate, addToDate,
      Builder.push, boundTo, h, hb, hc, hd]

set_option maxHeartbeats 1000000 in
theorem buildSearch_address (seconds : String → SqlValue) (filters : SearchFilters)
    (s : String) (h : truthyString filters.address = some s) :
    (∃ k, Condition.ownerEq k ∈ (buildSearch seconds filters).registrationConditions ∧
      boundTo (buildSearch seconds filters).params k (some (.text (toLowerCase s)))) ∧
    (∃ k1 k2, Condition.previousOrNewOwnerEq k1 k2 ∈
        (buildSearch seconds filters).transferConditions ∧
      boundTo (buildSearch seconds filters).params k1 (some (.text (toLowerCase s))) ∧
      boundTo (buildSearch seconds filters).params k2 (some (.text (toLowerCase s)))) := by
  cases ha : truthyNumber filters.assetId <;>
    cases hc : truthyString filters.fromDate <;> cases hd : truthyString filters.toDate <;>
    simp [buildSearch, addAssetId, addOwner, addEitherOwner, addFromDate, addToDate,
      Builder.push, boundTo, h, ha, hc, hd] <;>
    refine ⟨_, _, ⟨rfl, rfl⟩, ?_⟩ <;> simp

set_option maxHeartbeats 1000000 in
theorem buildSearch_fromDate (seconds : String → SqlValue) (filters : SearchFilters)
    (s : String) (h : truthyString filters.fromDate = some s) :
    (∃ k, Condition.timestampGe k ∈ (buildSearch seconds filters).registrationConditions ∧
      boundTo (buildSearch seconds filters).params k (some (seconds s))) ∧
    (∃ k, Condition.timestampGe k ∈ (buildSearch seconds filters).transferConditions ∧
      boundTo (buildSearch seconds filters).params k (some (seconds s))) := by
  cases ha : truthyNumber filters.assetId <;> cases hb : truthyString filters.address <;>
    cases hd : truthyString filters.toDate <;>
    simp [buildSearch, addAssetId, addOwner, addEitherOwner, addFromDate, addToDate,
      Builder.push, boundTo, h, ha, hb, hd]

set_option maxHeartbeats 1000000 in
theorem buildSearch_toDate (seconds : String → SqlValue) (filters : SearchFilters)
    (s : String) (h : truthyString filters.toDate = some s) :
    (∃ k, Condition.timestampLe k ∈ (buildSearch seconds filters).registrationConditions ∧
      boundTo (buildSearch seconds filters).params k (some (seconds s))) ∧
    (∃ k, Condition.timestampLe k ∈ (buildSearch seconds filters).transferConditions ∧
      boundTo (buildSearch seconds filters).params k (some (seconds s))) := by
  cases ha : truthyNumber filters.assetId <;> cases hb : truthyString filters.address <;>
    cases hc : truthyString filters.fromDate <;>
    simp [buildSearch, addAssetId, addOwner, addEitherOwner, addFromDate, addToDate,
      Builder.push, boundTo, h, ha, hb, hc]

/-! ## The text of the search statement -/

set_option maxHeartbeats 4000000 in
/-- Reading the text of the statement gives back the comparisons of its
conditions, half by half. -/
theorem buildSearch_readStatement (seconds : String → SqlValue) (filters : SearchFilters) :
    readStatement (buildSearch seconds filters).sql =
      ((buildSearch seconds filters).registrationConditions.flatMap Condition.comparisons,
       (buildSearch seconds filters).transferConditions.flatMap Condition.comparisons) := by
  cases ha : truthyNumber filters.assetId <;> cases hb : truthyString filters.address <;>
    cases hc : truthyString filters.fromDate <;> cases hd : truthyString filters.toDate <;>
    simp only [buildSearch, addAssetId, addOwner, addEitherOwner, addFromDate, addToDate,
      Builder.push, SearchQuery.sql, ha, hb, hc, hd] <;>
    decide

set_option maxHeartbeats 4000000 in
/-- The placeholder numbers written in the text are those of the
conditions. -/
theorem buildSearch_placeholdersIn (seconds : String → SqlValue) (filters : SearchFilters) :
    placeholdersIn (buildSearch seconds filters).sql =
      (buildSearch seconds filters).placeholders := by
  cases ha : truthyNumber filters.assetId <;> cases hb : truthyString filters.address <;>
    cases hc : truthyString filters.fromDate <;> cases hd : truthyString filters.toDate <;>
    simp only [buildSearch, addAssetId, addOwner, addEitherOwner, addFromDate, addToDate,
      Builder.push, SearchQuery.sql, SearchQuery.placeholders, ha, hb, hc, hd] <;>
    decide

/-- A condition whose placeholders are rightly bound writes only rightly
bound comparisons. -/
theorem Condition.Bound.comparisons {seconds : String → SqlValue} {filters : SearchFilters}
    {params : List SqlValue} {c : Condition} (h : c.Bound seconds filters params) :
    ∀ cmp ∈ c.comparisons, 1 ≤ cmp.placeholder ∧
      (cmp.expected seconds filters).isSome = true ∧
      params[cmp.placeholder - 1]? = cmp.expected seconds filters := by
  cases c with
  | assetIdEq k =>
    intro cmp hcmp
    simp only [Condition.comparisons, List.mem_singleton] at hcmp
    subst hcmp
    exact h
  | ownerEq k =>
    intro cmp hcmp
    simp only [Condition.comparisons, List.mem_singleton] at hcmp
    subst hcmp
    exact h
  | timestampGe k =>
    intro cmp hcmp
    simp only [Condition.comparisons, List.mem_singleton] at hcmp
    subst hcmp
    exact h
  | timestampLe k =>
    intro cmp hcmp
    simp only [Condition.comparisons, List.mem_singleton] at hcmp
    subst hcmp
    exact h
  | previousOrNewOwnerEq k1 k2 =>
    intro cmp hcmp
    simp only [Condition.comparisons, List.mem_cons, List.mem_singleton, List.not_mem_nil,
      or_false] at hcmp
    rcases hcmp with rfl | rfl
    · exact h.1
    · exact h.2

/-- C16. Placeholders of `searchEvents`, read from the text of the
statement: for every combination of the filters, the placeholder numbers
written in the SQL text are, in the order of the text, exactly `1, 2, ...,
params.length`; every comparison `column op $k` written in either half has
`params[k - 1]` equal to the value meant for that column; and every filter
that passes its test has its comparison written in the registration half and
in the transfer half, with a placeholder whose place in `params` holds the
`assetId` (for `asset_id`), the lower-cased `address` (for `owner`, and for
both `previous_owner` and `new_owner`), the seconds of `fromDate` (lower
bound on `timestamp`) and the seconds of `toDate` (upper bound). -/
theorem search_text_placeholders (seconds : String → SqlValue) (filters : SearchFilters) :
    placeholdersIn (buildSearch seconds filters).sql =
      List.range' 1 (buildSearch seconds filters).params.length ∧
    (∀ cmp ∈ (readStatement (buildSearch seconds filters).sql).1 ++
        (readStatement (buildSearch seconds filters).sql).2,
      1 ≤ cmp.placeholder ∧ (cmp.expected seconds filters).isSome = true ∧
        (buildSearch seconds filters).params[cmp.placeholder - 1]? =
          cmp.expected seconds filters) ∧
    (∀ n, truthyNumber filters.assetId = some n →
      (∃ k, { column := "asset_id", op := "=", placeholder := k } ∈
          (readStatement (buildSearch seconds filters).sql).1 ∧
        boundTo (buildSearch seconds filters).params k (some (.number n))) ∧
      (∃ k, { column := "asset_id", op := "=", placeholder := k } ∈
          (readStatement (buildSearch seconds filters).sql).2 ∧
        boundTo (buildSearch seconds filters).params k (some (.number n)))) ∧
    (∀ s, truthyString filters.address = some s →
      (∃ k, { column := "owner", op := "=", placeholder := k } ∈
          (readStatement (buildSearch seconds filters).sql).1 ∧
        boundTo (buildSearch seconds filters).params k (some (.text (toLowerCase s)))) ∧
      (∃ k1 k2,
        { column := "previous_owner", op := "=", placeholder := k1 } ∈
          (readStatement (buildSearch seconds filters).sql).2 ∧
        { column := "new_owner", op := "=", placeholder := k2 } ∈
          (readStatement (buildSearch seconds filters).sql).2 ∧
        boundTo (buildSearch seconds filters).params k1 (some (.text (toLowerCase s))) ∧
        boundTo (buildSearch seconds filters).params k2 (some (.text (toLowerCase s))))) ∧
    (∀ s, truthyString filters.fromDate = some s →
      (∃ k, { column := "timestamp", op := ">=", placeholder := k } ∈
          (readStatement (buildSearch seconds filters).sql).1 ∧
        boundTo (buildSearch seconds filters).params k (some (seconds s))) ∧
      (∃ k, { column := "timestamp", op := ">=", placeholder := k } ∈
          (readStatement (buildSearch seconds filters).sql).2 ∧
        boundTo (buildSearch seconds filters).params k (some (seconds s)))) ∧
    (∀ s, truthyString filters.toDate = some s →
      (∃ k, { column := "timestamp", op := "<=", placeholder := k } ∈
          (readStatement (buildSearch seconds filters).sql).1 ∧
        boundTo (buildSearch seconds filters).params k (some (seconds s))) ∧
      (∃ k, { column := "timestamp", op := "<=", placeholder := k } ∈
          (readStatement (buildSearch seconds filters).sql).2 ∧
        boundTo (buildSearch seconds filters).params k (some (seconds s)))) := by
  have hread := buildSearch_readStatement seconds filters
  have hfst : (readStatement (buildSearch seconds filters).sql).1 =
      (buildSearch seconds filters).registrationConditions.flatMap Condition.comparisons := by
    rw [hread]
  have hsnd : (readStatement (buildSearch seconds filters).sql).2 =
      (buildSearch seconds filters).transferConditions.flatMap Condition.comparisons := by
    rw [hread]
  rw [hfst, hsnd]
  refine ⟨?_, ?_, ?_, ?_, ?_, ?_⟩
  · rw [buildSearch_placeholdersIn, buildSearch_placeholders]
  · intro cmp hcmp
    rw [← List.flatMap_append, List.mem_flatMap] at hcmp
    obtain ⟨c, hc, hmem⟩ := hcmp
    exact (buildSearch_bound seconds filters c hc).comparisons cmp hmem
  · intro n hn
    obtain ⟨⟨k, hk, hkb⟩, ⟨j, hj, hjb⟩⟩ := buildSearch_assetId seconds filters n hn
    exact ⟨⟨k, List.mem_flatMap_of_mem hk (List.mem_singleton_self _), hkb⟩,
      ⟨j, List.mem_flatMap_of_mem hj (List.mem_singleton_self _), hjb⟩⟩
  · intro s hs
    obtain ⟨⟨k, hk, hkb⟩, ⟨k1, k2, hj, hb1, hb2⟩⟩ := buildSearch_address seconds filters s hs
    exact ⟨⟨k, List.mem_flatMap_of_mem hk (List.mem_singleton_self _), hkb⟩,
      ⟨k1, k2, List.mem_flatMap_of_mem hj (List.mem_cons_self _ _),
        List.mem_flatMap_of_mem hj (List.mem_cons_of_mem _ (List.mem_singleton_self _)),
        hb1, hb2⟩⟩
  · intro s hs
    obtain ⟨⟨k, hk, hkb⟩, ⟨j, hj, hjb⟩⟩ := buildSearch_fromDate seconds filters s hs
    exact ⟨⟨k, List.mem_flatMap_of_mem hk (List.mem_singleton_self _), hkb⟩,
      ⟨j, List.mem_flatMap_of_mem hj (List.mem_singleton_self _), hjb⟩⟩
  · intro s hs
    obtain ⟨⟨k, hk, hkb⟩, ⟨j, hj, hjb⟩⟩ := buildSearch_toDate seconds filters s hs
    exact ⟨⟨k, List.mem_flatMap_of_mem hk (List.mem_singleton_self _), hkb⟩,
      ⟨j, List.mem_flatMap_of_mem hj (List.mem_singleton_self _), hjb⟩⟩

/-- Witness for C16: with all four filters set the text of the statement
carries `$1` to `$9`, `asset_id = $1` in the registration half and `asset_id
= $5` in the transfer half, and `params[0]` and `params[4]` hold the asset
id 7. -/
theorem search_text_placeholders_witness :
    truthyNumber (some 7) = some 7 ∧
    placeholdersIn (buildSearch demoSeconds
      { assetId := some 7, address := some "0xBB", fromDate := some "2023-11-14",
        toDate := some "2023-11-15" }).sql = [1, 2, 3, 4, 5, 6, 7, 8, 9] ∧
    readStatement (buildSearch demoSeconds
      { assetId := some 7, address := some "0xBB", fromDate := some "2023-11-14",
        toDate := some "2023-11-15" }).sql =
      ([{ column := "asset_id", op := "=", placeholder := 1 },
        { column := "owner", op := "=", placeholder := 2 },
        { column := "timestamp", op := ">=", placeholder := 3 },
        { column := "timestamp", op := "<=", placeholder := 4 }],
       [{ column := "asset_id", op := "=", placeholder := 5 },
        { column := "previous_owner", op := "=", placeholder := 6 },
        { column := "new_owner", op := "=", placeholder := 7 },
        { column := "timestamp", op := ">=", placeholder := 8 },
        { column := "timestamp", op := "<=", placeholder := 9 }]) ∧
    (buildSearch demoSeconds
      { assetId := some 7, address := some "0xBB", fromDate := some "2023-11-14",
        toDate := some "2023-11-15" }).params =
      [.number 7, .text "0xbb", .number 1699920000, .number 1700006400,
       .number 7, .text "0xbb", .text "0xbb", .number 1699920000, .number 1700006400] ∧
    ((∃ k, { column := "asset_id", op := "=", placeholder := k } ∈
        (readStatement (buildSearch demoSeconds
          { assetId := some 7, address := some "0xBB", fromDate := some "2023-11-14",
            toDate := some "2023-11-15" }).sql).1 ∧
      boundTo (buildSearch demoSeconds
        { assetId := some 7, address := some "0xBB", fromDate := some "2023-11-14",
          toDate := some "2023-11-15" }).params k (some (.number 7))) ∧
    (∃ k, { column := "asset_id", op := "=", placeholder := k } ∈
        (readStatement (buildSearch demoSeconds
          { assetId := some 7, address := some "0xBB", fromDate := some "2023-11-14",
            toDate := some "2023-11-15" }).sql).2 ∧
      boundTo (buildSearch demoSeconds
        { assetId := some 7, address := some "0xBB", fromDate := some "2023-11-14",
          toDate := some "2023-11-15" }).params k (some (.number 7)))) := by
  have h := search_text_placeholders demoSeconds
    { assetId := some 7, address := some "0xBB", fromDate := some "2023-11-14",
      toDate := some "2023-11-15" }
  exact ⟨rfl, by decide, by decide, by decide, h.2.2.1 7 rfl⟩

/-! ## The asset filter of the search -/

theorem integerParam_of_bound {params : List SqlValue} {k : Nat} {n m : Int} {lo hi : Int}
    (hb : boundTo params k (some (.number n)))
    (h : (integerParam params k lo hi == some m) = true) : n = m := by
  obtain ⟨hk, _, hget⟩ := hb
  have hk0 : k ≠ 0 := by omega
  simp only [integerParam, hk0, if_false, hget] at h
  split at h
  · simpa using h
  · simp at h

/-- With an asset id other than `0` the search returns events of that asset
only. -/
theorem searchEvents_assetId_nonzero (seconds : String → SqlValue) (db : Store)
    (filters : SearchFilters) (n : Int) (hn : truthyNumber filters.assetId = some n)
    (rows : List SearchEventRow) (h : searchEvents seconds db filters = .ok rows) :
    ∀ r ∈ rows, (r.asset_id : Int) = n := by
  obtain ⟨⟨k, hk, hkb⟩, ⟨j, hj, hjb⟩⟩ := buildSearch_assetId seconds filters n hn
  unfold searchEvents runSearch at h
  split at h
  · cases h
    intro r hr
    have hmem := ((List.perm_insertionSort byTimestampDesc _).mem_iff).mp hr
    rcases List.mem_append.mp hmem with hmem | hmem
    · obtain ⟨row, hrow, rfl⟩ := List.mem_map.mp hmem
      rw [List.mem_filter] at hrow
      have hall := List.all_eq_true.mp hrow.2 _ hk
      exact (integerParam_of_bound hkb hall).symm
    · obtain ⟨row, hrow, rfl⟩ := List.mem_map.mp hmem
      rw [List.mem_filter] at hrow
      have hall := List.all_eq_true.mp hrow.2 _ hj
      exact (integerParam_of_bound hjb hall).symm
  · cases h

/-- C17 on the code: in a store that holds a registration of asset 0 and a
registration and a transfer of asset 7, the search with `assetId: 0` builds
a statement without any condition on `asset_id` and returns all three
events, those of asset 7 included. -/
theorem search_asset_zero_unrestricted :
    buildSearch demoSeconds
        { assetId := some 0, address := none, fromDate := none, toDate := none } =
      { registrationConditions := [], transferConditions := [], params := [] } ∧
    searchEvents demoSeconds zeroStore
        { assetId := some 0, address := none, fromDate := none, toDate := none } =
      .ok [{ event_type := "transfer", asset_id := 7, address := "0xbb",
             description := "Ownership Transfer", timestamp := 1750, block_number := 104,
             transaction_hash := "0x27" },
           { event_type := "registration", asset_id := 7, address := "0xaa",
             description := "seven", timestamp := 1700, block_number := 103,
             transaction_hash := "0x07" },
           { event_type := "registration", asset_id := 0, address := "0xdd",
             description := "zero", timestamp := 1600, block_number := 101,
             transaction_hash := "0x00" }] := by
  constructor
  · decide
  · rfl

/-! ## The watermark and the start-up callback -/

theorem monitorBlocks_watermark_le {σ : Type} (l : Listener σ) (s : MonitorState σ) :
    s.lastProcessedBlock ≤ (monitorBlocks l s).1.lastProcessedBlock := by
  rcases monitorBlocks_watermark l s with h | h
  · exact le_of_eq h.symm
  · exact le_of_lt h

theorem monitorBlocksWithStart_watermark {σ : Type} (l : Listener σ) (blockNum : Int)
    (landing : Landing) (s : MonitorState σ) :
    min s.lastProcessedBlock (blockNum - 1) ≤
      (monitorBlocksWithStart l blockNum landing s).1.lastProcessedBlock := by
  cases landing with
  | beforeComparison =>
    exact le_trans (min_le_right _ _)
      (monitorBlocks_watermark_le l { s with lastProcessedBlock := blockNum - 1 })
  | beforeAssignment =>
    unfold monitorBlocksWithStart
    by_cases h : (monitorBlocks l s).2.any Effect.isAssignment = true
    · simp only [h, if_true]
      exact le_trans (min_le_left _ _) (monitorBlocks_watermark_le l s)
    · simp only [h]
      exact min_le_right _ _
  | afterRun => exact min_le_right _ _

/-- Counterexample to C2 as stated: the listener is started on a chain at
height 0 whose node rejects the query for `AssetRegistered` logs.  The
watermark is 0 before the first run of `monitorBlocks`; the start-up
callback sets it to `0 - 1` while the run awaits the height, the run queries
the range from block 0 to block 0, the query is rejected, and the watermark
after the run is `-1`. -/
theorem watermark_lowered_at_start :
    (startedCycles (startEventListener genesisServer) freshWorld 0 .beforeComparison
      0).lastProcessedBlock = 0 ∧
    (monitorBlocksWithStart (startEventListener genesisServer) 0 .beforeComparison
      (startedCycles (startEventListener genesisServer) freshWorld 0 .beforeComparison 0)).2 =
      [Effect.getBlockNumber (some 0), Effect.queryFilter .AssetRegistered 0 0 false,
       Effect.setTimeout pollDelay] ∧
    (startedCycles (startEventListener genesisServer) freshWorld 0 .beforeComparison
      1).lastProcessedBlock = -1 := by
  refine ⟨?_, ?_, ?_⟩ <;> decide

/-- C2 (amended). Monotonicity of the watermark apart from the start-up
callback: for every listener and every sequence of runs of `monitorBlocks`
inside `startEventListener` (whatever heights the node returns and whichever
of the queries, block lookups and persistence callbacks fail), with the
start-up callback `lastProcessedBlock = blockNum - 1` running with run `j` at
any of its `await`s or after it, the watermark after run `k` is greater than
or equal to its value before run `k` when `k` is not `j`, and also for `k = j`
when the start-up request for the height was rejected; and when that request
was answered with `blockNum`, the watermark after any run is greater than or
equal to the smaller of its value before the run and `blockNum - 1`. -/
theorem watermark_monotone_apart_from_start {σ : Type} (l : Listener σ) (w : σ) (j : Nat)
    (landing : Landing) (k : Nat) :
    (k ≠ j → (startedCycles l w j landing k).lastProcessedBlock ≤
      (startedCycles l w j landing (k + 1)).lastProcessedBlock) ∧
    (∀ e, (l.provider.getBlockNumber w).1 = .error e →
      (startedCycles l w j landing k).lastProcessedBlock ≤
        (startedCycles l w j landing (k + 1)).lastProcessedBlock) ∧
    (∀ blockNum, (l.provider.getBlockNumber w).1 = .ok blockNum →
      min (startedCycles l w j landing k).lastProcessedBlock (blockNum - 1) ≤
        (startedCycles l w j landing (k + 1)).lastProcessedBlock) := by
  refine ⟨?_, ?_, ?_⟩
  · intro hk
    show _ ≤ (match (l.provider.getBlockNumber w).1 with
      | .ok blockNum =>
        if k = j then
          (monitorBlocksWithStart l blockNum landing (startedCycles l w j landing k)).1
        else (monitorBlocks l (startedCycles l w j landing k)).1
      | .error _ => (monitorBlocks l (startedCycles l w j landing k)).1).lastProcessedBlock
    cases (l.provider.getBlockNumber w).1 with
    | error e => exact monitorBlocks_watermark_le l _
    | ok blockNum =>
      simp only [hk, if_false]
      exact monitorBlocks_watermark_le l _
  · intro e he
    show _ ≤ (match (l.provider.getBlockNumber w).1 with
      | .ok blockNum =>
        if k = j then
          (monitorBlocksWithStart l blockNum landing (startedCycles l w j landing k)).1
        else (monitorBlocks l (startedCycles l w j landing k)).1
      | .error _ => (monitorBlocks l (startedCycles l w j landing k)).1).lastProcessedBlock
    rw [he]
    exact monitorBlocks_watermark_le l _
  · intro blockNum hb
    show _ ≤ (match (l.provider.getBlockNumber w).1 with
      | .ok blockNum =>
        if k = j then
          (monitorBlocksWithStart l blockNum landing (startedCycles l w j landing k)).1
        else (monitorBlocks l (startedCycles l w j landing k)).1
      | .error _ => (monitorBlocks l (startedCycles l w j landing k)).1).lastProcessedBlock
    rw [hb]
    by_cases hk : k = j
    · simp only [hk, if_true]
      exact monitorBlocksWithStart_watermark l blockNum landing _
    · simp only [hk, if_false]
      exact le_trans (min_le_left _ _) (monitorBlocks_watermark_le l _)

/-- Witness for C2 (amended): on a node at height 105 the start-up callback
runs while the first run awaits the height; the watermark is 0 before the
first run, 105 after it and 105 after the second run. -/
theorem watermark_monotone_apart_from_start_witness :
    (1 : Nat) ≠ 0 ∧
    (startedCycles (startEventListener steadyServer) freshWorld 0 .beforeComparison
      0).lastProcessedBlock = 0 ∧
    (startedCycles (startEventListener steadyServer) freshWorld 0 .beforeComparison
      1).lastProcessedBlock = 105 ∧
    (startedCycles (startEventListener steadyServer) freshWorld 0 .beforeComparison
      2).lastProcessedBlock = 105 ∧
    (startedCycles (startEventListener steadyServer) freshWorld 0 .beforeComparison
      1).lastProcessedBlock ≤
      (startedCycles (startEventListener steadyServer) freshWorld 0 .beforeComparison
        2).lastProcessedBlock ∧
    min (startedCycles (startEventListener steadyServer) freshWorld 0 .beforeComparison
        0).lastProcessedBlock (105 - 1) ≤
      (startedCycles (startEventListener steadyServer) freshWorld 0 .beforeComparison
        1).lastProcessedBlock := by
  have h1 := watermark_monotone_apart_from_start (startEventListener steadyServer) freshWorld
    0 .beforeComparison 1
  have h0 := watermark_monotone_apart_from_start (startEventListener steadyServer) freshWorld
    0 .beforeComparison 0
  exact ⟨by decide, by decide, by decide, by decide, h1.1 (by decide), h0.2.2 105 rfl⟩

/-! ## Records the parsers or the database turn away -/

/-- Counterexample to C7 as stated: the log of the example (asset id
`123456789012345`, within the safe range, decoded) yields no record when the
request for its block is rejected, and neither does the transfer log. -/
theorem safe_log_yields_no_record :
    wideLog.args =
      some { assetId := 123456789012345, owner := "0xABC", description := "wide",
             timestamp := 1700 } ∧
    (123456789012345 : Nat) ≤ 2 ^ 53 - 1 ∧ (1700 : Nat) ≤ 2 ^ 53 - 1 ∧
    (parseRegistrationEvents lossyProvider [wideLog] 0).1 = [] ∧
    wideTransferLog.args.isSome = true ∧
    (parseTransferEvents lossyProvider [wideTransferLog] 0).1 = [] := by
  refine ⟨rfl, by decide, by decide, ?_, rfl, ?_⟩ <;> decide

/-- Counterexample to C10 as stated: asset 7 is stored, its registration is
delivered again with a timestamp of `2^64`, the database rejects the
statement and the row of asset 7 keeps the owner, description, timestamp,
block number and transaction hash it had. -/
theorem redelivery_rejected :
    (runCalls Store.empty demoCalls).asset_registrations =
      [{ id := 1, asset_id := 7, owner := "0xaa", description := "seven",
         timestamp := 1700, block_number := 103, transaction_hash := "0x07" },
       { id := 2, asset_id := 8, owner := "0xbb", description := "eight",
         timestamp := 1800, block_number := 104, transaction_hash := "0x08" }] ∧
    demoRecord7Late.assetId = 7 ∧
    insertAssetRegistration (runCalls Store.empty demoCalls) demoRecord7Late = .error .store ∧
    (applyRegistration (runCalls Store.empty demoCalls) demoRecord7Late).asset_registrations =
      (runCalls Store.empty demoCalls).asset_registrations := by
  refine ⟨by decide, rfl, rfl, by decide⟩

/-- Counterexample to C12 as stated: the transfer record the parser makes of
the log with asset id `123456789012345` is rejected by the database, whose
`asset_id` column is an `INTEGER`, and delivering it twice to the empty
store leaves no row. -/
theorem wide_transfer_rejected :
    (parseTransferEvents demoProvider [wideTransferLog] 0).1 = [wideTransfer] ∧
    insertOwnershipTransfer Store.empty wideTransfer = .error .store ∧
    (applyTransfer (applyTransfer Store.empty wideTransfer) wideTransfer).ownership_transfers
      = [] := by
  refine ⟨by decide, rfl, by decide⟩

end Interswitch
